import Mathlib

/-!
# ACRN (RISC-V port): guest page walk, guest memory copy, cross-core calls

A shallow embedding of

* `hypervisor/arch/riscv/guest/guest_memory.c`
  (`get_vcpu_paging_mode`, `local_gva2gpa_common`, `local_gva2gpa_pae`, `gva2gpa`,
  `local_copy_gpa`, `copy_gpa`, `copy_gva`, `copy_from_gpa`, `copy_to_gpa`,
  `copy_from_gva`, `gpa2hva`),
* `hypervisor/arch/riscv/notify.c` (`kick_notification`, `smp_call_function`),
* `hypervisor/arch/riscv/clint.c` (`send_dest_ipi_mask`).

Conventions.  `uint64_t` and `uint32_t` values are natural numbers, reduced modulo
`2^64` / `2^32` wherever the C arithmetic can wrap.  `int32_t` results are integers.
A pointer that may be `NULL` is an `Option` (out-parameters) or a natural number with
`0` for `NULL` (host-virtual addresses).  Host memory is one byte-addressed map.
-/

namespace Acrn

/-! ## Machine words and host memory -/

/-- Truncation to `uint64_t`. -/
def u64 (x : Nat) : Nat := x % 2 ^ 64

/-- Truncation to `uint32_t`. -/
def u32 (x : Nat) : Nat := x % 2 ^ 32

/-- Truncation to `uint16_t`. -/
def u16 (x : Nat) : Nat := x % 2 ^ 16

/-- The C operator `~` on a `uint32_t` operand. -/
def not32 (x : Nat) : Nat := 2 ^ 32 - 1 - x % 2 ^ 32

/-- Host memory: the byte stored at every host-virtual address. -/
abbrev Mem := Nat → Nat

/-- Little-endian load of a `uint32_t` at host-virtual address `a`. -/
def load32 (m : Mem) (a : Nat) : Nat :=
  m a % 256 + 256 * (m (a + 1) % 256) + 256 ^ 2 * (m (a + 2) % 256)
    + 256 ^ 3 * (m (a + 3) % 256)

/-- Little-endian load of a `uint64_t` at host-virtual address `a`. -/
def load64 (m : Mem) (a : Nat) : Nat :=
  load32 m a + 2 ^ 32 * load32 m (a + 4)

/-! ## Constants and collaborators that are declared outside the sources at hand -/

/-- The constants and platform primitives used by the embedded functions whose
declarations live in headers that are not part of the sources: page-table entry bits,
page-fault error-code bits, errno values, core counts, the host-physical to
host-virtual conversion and the find-first-set primitive.  They are parameters. -/
structure Platform where
  PAGE_V : Nat
  PAGE_RW_RW : Nat
  PAGE_U : Nat
  PAGE_FAULT_P_FLAG : Nat
  PAGE_FAULT_WR_FLAG : Nat
  PAGE_FAULT_US_FLAG : Nat
  PAGE_FAULT_ID_FLAG : Nat
  EINVAL : Nat
  EFAULT : Nat
  CONFIG_NR_CPUS : Nat
  NR_CPUS : Nat
  NOTIFY_VCPU_SWI : Nat
  hpa2hva : Nat → Nat
  ffs64 : Nat → Nat

/-- The constant `PAGE_SIZE_4K`. -/
def PAGE_SIZE_4K : Nat := 4096

/-- The second-stage lookups consumed through `struct acrn_vm`.  `none` stands for
`INVALID_HPA`; `local_gpa2hpa` also reports the size of the page that maps the
address. -/
structure acrn_vm where
  gpa2hpa : Nat → Option Nat
  local_gpa2hpa : Nat → Option (Nat × Nat)

/-- Modelled from the spec: `enum vm_paging_mode` is declared in a header that is not
part of the sources; the spec names the modes none, 2-level, 3-level and 4-level. -/
inductive vm_paging_mode where
  | PAGING_MODE_0_LEVEL
  | PAGING_MODE_2_LEVEL
  | PAGING_MODE_3_LEVEL
  | PAGING_MODE_4_LEVEL
  deriving DecidableEq

/-- The cast `(uint32_t)pm`: the number of levels the mode is named after. -/
def vm_paging_mode.toNat : vm_paging_mode → Nat
  | .PAGING_MODE_0_LEVEL => 0
  | .PAGING_MODE_2_LEVEL => 2
  | .PAGING_MODE_3_LEVEL => 3
  | .PAGING_MODE_4_LEVEL => 4

/-- What the embedded functions read of `struct acrn_vcpu`: the owning vm, the results
of `is_paging_enabled`, `is_pae`, `is_long_mode`, and the `vsatp` CSR. -/
structure acrn_vcpu where
  vm : acrn_vm
  is_paging_enabled : Bool
  is_pae : Bool
  is_long_mode : Bool
  vsatp : Nat

/-- The record `struct page_walk_info`. -/
structure page_walk_info where
  top_entry : Nat
  level : Nat
  width : Nat
  is_user_mode_access : Bool
  is_write_access : Bool
  is_inst_fetch : Bool
  pse : Bool
  wp : Bool
  nxe : Bool
  is_smap_on : Bool
  is_smep_on : Bool

/-! ## guest_memory.c: the page walk -/

/-- `get_vcpu_paging_mode`. -/
def get_vcpu_paging_mode (vcpu : acrn_vcpu) : vm_paging_mode :=
  if vcpu.is_paging_enabled then
    if vcpu.is_pae then
      if vcpu.is_long_mode then .PAGING_MODE_4_LEVEL else .PAGING_MODE_3_LEVEL
    else .PAGING_MODE_2_LEVEL
  else .PAGING_MODE_0_LEVEL

/-- `gpa2hva`: `NULL` (zero) when the second stage has no mapping. -/
def gpa2hva (p : Platform) (vm : acrn_vm) (x : Nat) : Nat :=
  match vm.gpa2hpa x with
  | none => 0
  | some hpa => p.hpa2hva hpa

/-- The local variables of `local_gva2gpa_common` that live across loop iterations. -/
structure WalkState where
  fault : Bool
  addr : Nat
  entry : Nat
  shift : Nat
  page_size : Nat
  is_user_mode_addr : Bool
  is_page_rw_flags_on : Bool

/-- The value of `shift` at loop counter `i`. -/
def walk_shift (width i : Nat) : Nat := u32 (u32 (i * width) + 12)

/-- The value of `index` at loop counter `i`. -/
def walk_index (width gva i : Nat) : Nat :=
  (gva >>> walk_shift width i) &&& u64 (u64 (1 <<< width) + (2 ^ 64 - 1))

/-- The entry loaded from the table at host-virtual address `base`: a 32-bit word when
`width == 10`, a 64-bit word otherwise. -/
def walk_load (m : Mem) (width base index : Nat) : Nat :=
  if width = 10 then load32 m (base + 4 * index) else load64 m (base + 8 * index)

/-- One iteration of the `while` loop of `local_gva2gpa_common`, after `i--`. -/
def walk_body (p : Platform) (vm : acrn_vm) (m : Mem) (pw : page_walk_info) (gva : Nat)
    (i : Nat) (s : WalkState) : WalkState :=
  let base := gpa2hva p vm s.addr
  let s1 : WalkState :=
    if base = 0 then { s with fault := true }
    else
      let shift := walk_shift pw.width i
      let index := walk_index pw.width gva i
      let entry := walk_load m pw.width base index
      let s2 : WalkState :=
        { s with shift := shift, page_size := u64 (1 <<< shift), entry := entry }
      let s3 : WalkState :=
        if entry &&& p.PAGE_V = 0 then { s2 with fault := true } else s2
      if s3.fault = false ∧ entry &&& p.PAGE_RW_RW = 0 then
        { s3 with
          fault := if pw.is_write_access && (pw.is_user_mode_access || pw.wp) then true
                   else s3.fault
          is_page_rw_flags_on := false }
      else s3
  let s4 : WalkState :=
    if s1.fault = false ∧ s1.entry &&& p.PAGE_U = 0 then
      { s1 with
        is_user_mode_addr := false
        fault := if pw.is_user_mode_access then true else s1.fault }
    else s1
  { s4 with addr := s4.entry }

/-- The loop `while ((i != 0U) && (fault == 0)) { i--; ... }`. -/
def walk_loop (p : Platform) (vm : acrn_vm) (m : Mem) (pw : page_walk_info) (gva : Nat) :
    Nat → WalkState → WalkState
  | 0, s => s
  | i + 1, s =>
    if s.fault then s else walk_loop p vm m pw gva i (walk_body p vm m pw gva i s)

/-- The address stored to `*gpa` on success: the three shifts of `entry` and the
offset of `gva` below `page_size`. -/
def walk_gpa (gva : Nat) (s : WalkState) : Nat :=
  (u64 ((s.entry >>> s.shift) <<< (s.shift + 12)) >>> 12)
    ||| (gva &&& u64 (s.page_size + (2 ^ 64 - 1)))

/-- `local_gva2gpa_common`; the result is the return value with the final contents of
`*gpa` and `*err_code`.  `shift` is not initialised by the C code; it is assigned in
every iteration that does not fault, before it is read. -/
def local_gva2gpa_common (p : Platform) (vcpu : acrn_vcpu) (m : Mem) (pw : page_walk_info)
    (gva gpa err_code : Nat) : Int × Nat × Nat :=
  if pw.level < 1 then (-(p.EINVAL : Int), gpa, err_code)
  else
    let s0 : WalkState :=
      { fault := false, addr := pw.top_entry, entry := 0, shift := 0,
        page_size := PAGE_SIZE_4K, is_user_mode_addr := true, is_page_rw_flags_on := true }
    let s := walk_loop p vcpu.vm m pw gva pw.level s0
    let fault : Bool :=
      if s.fault = false ∧ pw.is_smep_on ∧ pw.is_user_mode_access = false
          ∧ s.is_user_mode_addr ∧ pw.is_inst_fetch then true
      else s.fault
    if fault then (-(p.EFAULT : Int), gpa, u32 (err_code ||| p.PAGE_FAULT_P_FLAG))
    else (0, walk_gpa gva s, err_code)

/-- `get_pae_pdpt_addr`. -/
def get_pae_pdpt_addr (cr3 : Nat) : Nat := cr3 &&& 0xFFFFFFE0

/-- `local_gva2gpa_pae`. -/
def local_gva2gpa_pae (p : Platform) (vcpu : acrn_vcpu) (m : Mem) (pw : page_walk_info)
    (gva gpa err_code : Nat) : Int × Nat × Nat :=
  let addr := get_pae_pdpt_addr pw.top_entry
  let base := gpa2hva p vcpu.vm addr
  if base ≠ 0 then
    let index := (gva >>> 30) &&& 3
    let entry := load64 m (base + 8 * index)
    if entry &&& p.PAGE_V ≠ 0 then
      local_gva2gpa_common p vcpu m { pw with level := 2, top_entry := entry }
        gva gpa err_code
    else (-(p.EFAULT : Int), gpa, err_code)
  else (-(p.EFAULT : Int), gpa, err_code)

/-- The local `pw_info` of `gva2gpa` after the assignments that precede the dispatch on
the paging mode.  `stack` is the indeterminate content of the variable before them:
`wp`, `nxe`, `is_smap_on`, `is_smep_on` (and `width`, set later) keep it. -/
def gva2gpa_pw_info (p : Platform) (vcpu : acrn_vcpu) (stack : page_walk_info)
    (ec0 : Nat) : page_walk_info :=
  { stack with
    top_entry := vcpu.vsatp
    level := (get_vcpu_paging_mode vcpu).toNat
    is_write_access := decide (ec0 &&& p.PAGE_FAULT_WR_FLAG ≠ 0)
    is_inst_fetch := decide (ec0 &&& p.PAGE_FAULT_ID_FLAG ≠ 0)
    is_user_mode_access := true
    pse := true }

/-- The tail of `gva2gpa`: on `-EFAULT` the user-mode bit is added to `*err_code` when
`pw_info.is_user_mode_access` holds. -/
def gva2gpa_finish (p : Platform) (pw : page_walk_info) (r : Int × Nat × Nat) :
    Int × Option Nat × Option Nat :=
  let ec2 :=
    if r.1 = -(p.EFAULT : Int) then
      if pw.is_user_mode_access then u32 (r.2.2 ||| p.PAGE_FAULT_US_FLAG) else r.2.2
    else r.2.2
  (r.1, some r.2.1, some ec2)

/-- `gva2gpa`.  `gpa` and `err_code` are the out-parameters (`none` for `NULL`, else
the value pointed to on entry); the result is the return value with their final
contents.  `stack` is the indeterminate initial content of the local `pw_info`. -/
def gva2gpa (p : Platform) (vcpu : acrn_vcpu) (m : Mem) (stack : page_walk_info)
    (gva : Nat) (gpa err_code : Option Nat) : Int × Option Nat × Option Nat :=
  let pm := get_vcpu_paging_mode vcpu
  match gpa, err_code with
  | some _, some ec0 =>
    let pw := gva2gpa_pw_info p vcpu stack ec0
    let ec1 := ec0 &&& not32 p.PAGE_FAULT_P_FLAG
    let r : Int × Nat × Nat :=
      if pm = .PAGING_MODE_4_LEVEL then
        local_gva2gpa_common p vcpu m { pw with width := 9 } gva 0 ec1
      else if pm = .PAGING_MODE_3_LEVEL then
        local_gva2gpa_pae p vcpu m { pw with width := 9 } gva 0 ec1
      else if pm = .PAGING_MODE_2_LEVEL then
        local_gva2gpa_common p vcpu m { pw with width := 10, nxe := false } gva 0 ec1
      else (0, gva, ec1)
    gva2gpa_finish p pw r
  | _, _ => (-(p.EINVAL : Int), gpa, err_code)

/-! ## guest_memory.c: copying between host and guest memory -/

/-- Modelled from the spec: `memcpy_s` is a library routine that is not part of the
sources; the spec has each chunk's bytes copied.  `memcpy m dst src len` is the memory
after copying `len` bytes from `src` to `dst`, the source being read as it was before
the call. -/
def memcpy (m : Mem) (dst src len : Nat) : Mem :=
  fun a => if dst ≤ a ∧ a < dst + len then m (src + (a - dst)) else m a

/-- The length computed by `local_copy_gpa` for a resolved chunk whose second-stage page
size is `pg`: `fix_pg_size` replaces `pg` when it is not zero, and all the arithmetic
is `uint32_t`. -/
def local_copy_len (gpa size fix_pg_size pg : Nat) : Nat :=
  let pg_size := if fix_pg_size ≠ 0 then fix_pg_size else pg
  let offset_in_pg := u32 gpa &&& u32 (pg_size + (2 ^ 32 - 1))
  let room := u32 (pg_size + (2 ^ 32 - offset_in_pg))
  if size > room then room else size

/-- `local_copy_gpa`: the returned length and the memory after the copy. -/
def local_copy_gpa (p : Platform) (vm : acrn_vm) (m : Mem) (h_ptr gpa size fix_pg_size : Nat)
    (cp_from_vm : Bool) : Nat × Mem :=
  match vm.local_gpa2hpa gpa with
  | none => (0, m)
  | some (hpa, pg) =>
    let len := local_copy_len gpa size fix_pg_size pg
    let g_ptr := p.hpa2hva hpa
    if cp_from_vm then (len, memcpy m h_ptr g_ptr len) else (len, memcpy m g_ptr h_ptr len)

/-- The loop of `copy_gpa`, run for at most `fuel` iterations; `none` when the fuel is
used up with the loop still running. -/
def copy_gpa_loop (p : Platform) (vm : acrn_vm) (cp_from_vm : Bool) :
    Nat → Mem → Nat → Nat → Nat → Option (Int × Mem)
  | fuel, m, h_ptr, gpa, size =>
    if size = 0 then some (0, m)
    else
      match fuel with
      | 0 => none
      | fuel + 1 =>
        let r := local_copy_gpa p vm m h_ptr gpa size 0 cp_from_vm
        if r.1 = 0 then some (-(p.EINVAL : Int), r.2)
        else
          copy_gpa_loop p vm cp_from_vm fuel r.2 (h_ptr + r.1) (u64 (gpa + r.1))
            (u32 (size + (2 ^ 32 - r.1)))

/-- `copy_gpa`: the return value and the memory after the call.  The loop is given
`size` iterations. -/
def copy_gpa (p : Platform) (vm : acrn_vm) (m : Mem) (h_ptr gpa size : Nat)
    (cp_from_vm : Bool) : Option (Int × Mem) :=
  copy_gpa_loop p vm cp_from_vm size m h_ptr gpa size

/-- `copy_from_gpa`. -/
def copy_from_gpa (p : Platform) (vm : acrn_vm) (m : Mem) (h_ptr gpa size : Nat) :
    Option (Int × Mem) :=
  copy_gpa p vm m h_ptr gpa size true

/-- `copy_to_gpa`. -/
def copy_to_gpa (p : Platform) (vm : acrn_vm) (m : Mem) (h_ptr gpa size : Nat) :
    Option (Int × Mem) :=
  copy_gpa p vm m h_ptr gpa size false

/-- The variables of `copy_gva` across loop iterations, with host memory and the
contents of `*err_code` and `*fault_addr`. -/
structure CopyGvaState where
  m : Mem
  h_ptr : Nat
  gpa : Nat
  ret : Int
  gva : Nat
  size : Nat
  err_code : Nat
  fault_addr : Nat

/-- One iteration of the loop of `copy_gva`. -/
def copy_gva_body (p : Platform) (vcpu : acrn_vcpu) (stack : page_walk_info)
    (cp_from_vm : Bool) (s : CopyGvaState) : CopyGvaState :=
  let r := gva2gpa p vcpu s.m stack s.gva (some s.gpa) (some s.err_code)
  let s1 : CopyGvaState :=
    { s with ret := r.1, gpa := r.2.1.getD s.gpa, err_code := r.2.2.getD s.err_code }
  if 0 ≤ s1.ret then
    let c := local_copy_gpa p vcpu.vm s1.m s1.h_ptr s1.gpa s1.size PAGE_SIZE_4K cp_from_vm
    if c.1 ≠ 0 then
      { s1 with
        m := c.2
        gva := u64 (s1.gva + c.1)
        h_ptr := s1.h_ptr + c.1
        size := u32 (s1.size + (2 ^ 32 - c.1)) }
    else { s1 with m := c.2, ret := -(p.EINVAL : Int) }
  else { s1 with fault_addr := s1.gva }

/-- The loop `while ((size > 0U) && (ret == 0))` of `copy_gva`, run for at most `fuel`
iterations; `none` when the fuel is used up with the loop still running. -/
def copy_gva_loop (p : Platform) (vcpu : acrn_vcpu) (stack : page_walk_info)
    (cp_from_vm : Bool) : Nat → CopyGvaState → Option CopyGvaState
  | fuel, s =>
    if s.size > 0 ∧ s.ret = 0 then
      match fuel with
      | 0 => none
      | fuel + 1 =>
        copy_gva_loop p vcpu stack cp_from_vm fuel (copy_gva_body p vcpu stack cp_from_vm s)
    else some s

/-- `copy_gva`, with non-NULL `err_code` and `fault_addr` holding `err_code` and
`fault_addr` on entry.  The loop is given `size` iterations. -/
def copy_gva (p : Platform) (vcpu : acrn_vcpu) (stack : page_walk_info) (m : Mem)
    (h_ptr gva size err_code fault_addr : Nat) (cp_from_vm : Bool) : Option CopyGvaState :=
  copy_gva_loop p vcpu stack cp_from_vm size
    { m := m, h_ptr := h_ptr, gpa := 0, ret := 0, gva := gva, size := size,
      err_code := err_code, fault_addr := fault_addr }

/-- `copy_from_gva`. -/
def copy_from_gva (p : Platform) (vcpu : acrn_vcpu) (stack : page_walk_info) (m : Mem)
    (h_ptr gva size err_code fault_addr : Nat) : Option CopyGvaState :=
  copy_gva p vcpu stack m h_ptr gva size err_code fault_addr true

/-! ## notify.c and clint.c: cross-core calls -/

/-- Modelled from the spec: the bit primitives are declared in a header that is not
part of the sources; `test_bit(nr, mask)` tells whether bit `nr` of the mask is set. -/
def test_bit (nr mask : Nat) : Bool := mask.testBit nr

/-- Modelled from the spec: `clear_bit(nr, &mask)` and `__clear_bit(nr, &mask)` clear
bit `nr` of the mask and no other bit (`mask & ~(1UL << nr)`). -/
def clear_bit (nr mask : Nat) : Nat := mask ^^^ (mask &&& 2 ^ nr)

/-- The state of the dispatcher in a sequential model: the pending mask
`smp_call_mask`, the per-core slots `per_cpu(smp_call_info, id)` (function, `none` for
`NULL`, and argument), the invocations of slot functions so far as
(core, function, argument) in order, and the calls of `send_single_swi` so far as
(core, vector) in order. -/
structure SmpState where
  smp_call_mask : Nat
  smp_call_info : Nat → Option Nat × Nat
  calls : List (Nat × Nat × Nat)
  swi : List (Nat × Nat)

/-- `kick_notification` running on the core `pcpu_id` (the value of `get_pcpu_id()`). -/
def kick_notification (pcpu_id : Nat) (st : SmpState) : SmpState :=
  if test_bit pcpu_id st.smp_call_mask then
    let smp_call := st.smp_call_info pcpu_id
    let st1 : SmpState :=
      match smp_call.1 with
      | some func => { st with calls := st.calls ++ [(pcpu_id, func, smp_call.2)] }
      | none => st
    { st1 with smp_call_mask := clear_bit pcpu_id st1.smp_call_mask }
  else st

/-- `send_single_swi`: recorded in the log. -/
def send_single_swi (pcpu_id vector : Nat) (st : SmpState) : SmpState :=
  { st with swi := st.swi ++ [(pcpu_id, vector)] }

/-- The `while` loop of `send_dest_ipi_mask`, run for at most `fuel` iterations; `none`
when the fuel is used up with the loop still running. -/
def send_dest_ipi_loop (p : Platform) (vector : Nat) :
    Nat → Nat → Nat → SmpState → Option SmpState
  | fuel, mask, pcpu_id, st =>
    if pcpu_id < p.NR_CPUS then
      match fuel with
      | 0 => none
      | fuel + 1 =>
        send_dest_ipi_loop p vector fuel (clear_bit pcpu_id mask)
          (u16 (p.ffs64 (clear_bit pcpu_id mask))) (send_single_swi pcpu_id vector st)
    else some st

/-- `send_dest_ipi_mask`.  `if (pcpu_id--) return;` returns when `ffs64(mask)` is not
zero and otherwise leaves `pcpu_id` at `0xFFFF`, the `uint16_t` below zero.  The loop is
given 65 iterations: one for the start value and one for each bit of the mask. -/
def send_dest_ipi_mask (p : Platform) (dest_mask vector : Nat) (st : SmpState) :
    Option SmpState :=
  let pcpu_id := u16 (p.ffs64 dest_mask)
  if pcpu_id ≠ 0 then some st
  else send_dest_ipi_loop p vector 65 dest_mask (u16 (pcpu_id + (2 ^ 16 - 1))) st

/-- The body of the `while (pcpu_id < CONFIG_NR_CPUS)` loop of `smp_call_function`,
without the increment.  The clearing of the local `mask` has no effect on the state. -/
def smp_call_body (online : Nat → Bool) (func : Option Nat) (data : Nat) (pcpu_id : Nat)
    (st : SmpState) : SmpState :=
  if online pcpu_id then
    { st with
      smp_call_info := fun i => if i = pcpu_id then (func, data) else st.smp_call_info i }
  else { st with smp_call_mask := clear_bit pcpu_id st.smp_call_mask }

/-- The `while (pcpu_id < CONFIG_NR_CPUS)` loop of `smp_call_function` with its
`uint16_t` counter, run for at most `fuel` iterations; `none` when the fuel is used up
with the loop still running. -/
def smp_call_loop (p : Platform) (online : Nat → Bool) (func : Option Nat) (data : Nat) :
    Nat → Nat → SmpState → Option SmpState
  | fuel, pcpu_id, st =>
    if pcpu_id < p.CONFIG_NR_CPUS then
      match fuel with
      | 0 => none
      | fuel + 1 =>
        smp_call_loop p online func data fuel (u16 (pcpu_id + 1))
          (smp_call_body online func data pcpu_id st)
    else some st

/-- `smp_call_function` in the sequential model, `online` being `cpu_online`.  The wait
`while (smp_call_mask);` never ends when the pending mask is not zero, no other core
running to clear it: the result is `none`.  The slot loop is given `CONFIG_NR_CPUS`
iterations. -/
def smp_call_function (p : Platform) (online : Nat → Bool) (mask : Nat)
    (func : Option Nat) (data : Nat) (st : SmpState) : Option SmpState :=
  if st.smp_call_mask ≠ 0 then none
  else
    let st1 : SmpState := { st with smp_call_mask := u64 (st.smp_call_mask ||| mask) }
    match smp_call_loop p online func data p.CONFIG_NR_CPUS 0 st1 with
    | none => none
    | some st2 => send_dest_ipi_mask p st2.smp_call_mask p.NOTIFY_VCPU_SWI st2

/-- A sequence of `kick_notification` runs, on the cores listed. -/
def kick_all (cores : List Nat) (st : SmpState) : SmpState :=
  cores.foldl (fun s c => kick_notification c s) st

/-! ## x86/mmu.c: invalidation, initial mappings, cache flush -/

/-- The constants and processor primitives used by the embedded functions of
`x86/mmu.c` whose declarations live in headers that are not part of the sources: the
memory-map entry type of RAM, the page attributes passed to `pgtable_add_map`, the high
MMIO window, the cache line size, the results of
`pcpu_has_vmx_ept_cap(VMX_EPT_INVEPT_SINGLE_CONTEXT)` and
`pcpu_has_vmx_ept_cap(VMX_EPT_INVEPT_GLOBAL_CONTEXT)`, and `hva2hpa`.  They are
parameters. -/
structure X86Platform where
  E820_TYPE_RAM : Nat
  PAGE_ATTR_USER : Nat
  PAGE_CACHE_WB : Nat
  PAGE_CACHE_UC : Nat
  HI_MMIO_START : Nat
  HI_MMIO_END : Nat
  CACHE_LINE_SIZE : Nat
  invept_single_context : Bool
  invept_global_context : Bool
  hva2hpa : Nat → Nat

/-- The constant `INVEPT_TYPE_SINGLE_CONTEXT`. -/
def INVEPT_TYPE_SINGLE_CONTEXT : Nat := 1

/-- The constant `INVEPT_TYPE_ALL_CONTEXTS`. -/
def INVEPT_TYPE_ALL_CONTEXTS : Nat := 2

/-- The record `struct invept_desc`. -/
structure invept_desc where
  eptp : Nat
  res : Nat
  deriving DecidableEq

/-- `invept`: the `invept` instructions it issues through `local_invept`, each with its
type and descriptor.  The error that the instruction reports is only logged. -/
def invept (x : X86Platform) (eptp : Nat) : List (Nat × invept_desc) :=
  let desc : invept_desc := { eptp := 0, res := 0 }
  if x.invept_single_context then
    [(INVEPT_TYPE_SINGLE_CONTEXT,
      { desc with eptp := x.hva2hpa eptp ||| u64 (3 <<< 3) ||| 6 })]
  else if x.invept_global_context then [(INVEPT_TYPE_ALL_CONTEXTS, desc)]
  else []

/-- The constant `MEM_4G`. -/
def MEM_4G : Nat := 0x100000000

/-- Modelled from the spec: `PDE_SIZE`, the size that a page-directory entry maps, is
declared in a header that is not part of the sources; it is the 2 MiB large-page size
of the spec. -/
def PDE_SIZE : Nat := 0x200000

/-- Modelled from the spec: the macro `round_pde_down` is declared in a header that is
not part of the sources; it rounds down to a multiple of `PDE_SIZE`
(`val & PDE_MASK`). -/
def round_pde_down (val : Nat) : Nat := val / PDE_SIZE * PDE_SIZE

/-- Modelled from the spec: the macro `round_pde_up` is declared in a header that is not
part of the sources; it rounds up to a multiple of `PDE_SIZE`
(`(val + PDE_SIZE - 1) & PDE_MASK` in `uint64_t`). -/
def round_pde_up (val : Nat) : Nat := u64 (val + PDE_SIZE + (2 ^ 64 - 1)) / PDE_SIZE * PDE_SIZE

/-- The record `struct e820_entry` of the platform memory map. -/
structure e820_entry where
  baseaddr : Nat
  length : Nat
  type : Nat

/-- The loop of `init_paging` over the memory map: `(low32_max_ram, high64_max_ram)`
after the entries listed, from the values given. -/
def init_paging_scan (x : X86Platform) : List e820_entry → Nat × Nat → Nat × Nat
  | [], r => r
  | entry :: rest, (low32_max_ram, high64_max_ram) =>
    if entry.type = x.E820_TYPE_RAM then
      let e := u64 (entry.baseaddr + entry.length)
      if e < MEM_4G then init_paging_scan x rest (max e low32_max_ram, high64_max_ram)
      else init_paging_scan x rest (low32_max_ram, max e high64_max_ram)
    else init_paging_scan x rest (low32_max_ram, high64_max_ram)

/-- The value of `low32_max_ram` in `init_paging` after the rounding. -/
def low32_max_ram (x : X86Platform) (entries : List e820_entry) : Nat :=
  round_pde_up (init_paging_scan x entries (0, MEM_4G)).1

/-- The value of `high64_max_ram` in `init_paging` after the rounding. -/
def high64_max_ram (x : X86Platform) (entries : List e820_entry) : Nat :=
  round_pde_down (init_paging_scan x entries (0, MEM_4G)).2

/-- A call of `pgtable_add_map` on the hypervisor's root table. -/
structure AddMap where
  paddr_base : Nat
  vaddr_base : Nat
  size : Nat
  prot : Nat
  deriving DecidableEq

/-- The calls of `pgtable_add_map` that `init_paging` makes for the memory map
`entries` (the result of `get_e820_entry` and `get_e820_entries_count`), in order.  The
calls that follow them in `init_paging` change attributes of the hypervisor image and
enable paging; they add no mapping. -/
def init_paging (x : X86Platform) (entries : List e820_entry) : List AddMap :=
  let low := low32_max_ram x entries
  let high := high64_max_ram x entries
  [ { paddr_base := 0, vaddr_base := 0, size := low,
      prot := x.PAGE_ATTR_USER ||| x.PAGE_CACHE_WB },
    { paddr_base := MEM_4G, vaddr_base := MEM_4G, size := u64 (high + (2 ^ 64 - MEM_4G)),
      prot := x.PAGE_ATTR_USER ||| x.PAGE_CACHE_WB },
    { paddr_base := low, vaddr_base := low, size := u64 (MEM_4G + (2 ^ 64 - low)),
      prot := x.PAGE_ATTR_USER ||| x.PAGE_CACHE_UC } ]
  ++ (if x.HI_MMIO_START ≠ 2 ^ 64 - 1 ∧ x.HI_MMIO_END ≠ 0 then
        [ { paddr_base := x.HI_MMIO_START, vaddr_base := x.HI_MMIO_START,
            size := u64 (x.HI_MMIO_END + (2 ^ 64 - x.HI_MMIO_START)),
            prot := x.PAGE_ATTR_USER ||| x.PAGE_CACHE_UC } ]
      else [])

/-- The loop of `flush_address_space`, run for at most `fuel` iterations: the addresses
given to `clflushopt`, in order; `none` when the fuel is used up with the loop still
running. -/
def flush_address_space_loop (x : X86Platform) (addr size : Nat) :
    Nat → Nat → List Nat → Option (List Nat)
  | fuel, n, flushed =>
    if n < size then
      match fuel with
      | 0 => none
      | fuel + 1 =>
        flush_address_space_loop x addr size fuel (u64 (n + x.CACHE_LINE_SIZE))
          (flushed ++ [addr + n])
    else some flushed

/-- `flush_address_space`: the addresses given to `clflushopt`, in order.  The loop is
given `size` iterations. -/
def flush_address_space (x : X86Platform) (addr size : Nat) : Option (List Nat) :=
  flush_address_space_loop x addr size size 0 []

/-! ## Vocabulary for statements about page-table entries -/

/-- The entry passes the test `(entry & PAGE_V) != 0`. -/
@[reducible] def entry_present (p : Platform) (e : Nat) : Prop := e &&& p.PAGE_V ≠ 0

/-- The entry passes the test `(entry & PAGE_RW_RW) != 0`. -/
@[reducible] def entry_writable (p : Platform) (e : Nat) : Prop := e &&& p.PAGE_RW_RW ≠ 0

/-- The entry passes the test `(entry & PAGE_U) != 0`. -/
@[reducible] def entry_user (p : Platform) (e : Nat) : Prop := e &&& p.PAGE_U ≠ 0

/-- The entry that the walk loads at loop counter `i` from the table whose
guest-physical address is `addr`. -/
def walk_entry (p : Platform) (vm : acrn_vm) (m : Mem) (width gva addr i : Nat) : Nat :=
  walk_load m width (gpa2hva p vm addr) (walk_index width gva i)

/-- The entry is present, writable and user-accessible. -/
def entry_permissive (p : Platform) (e : Nat) : Prop :=
  entry_present p e ∧ entry_writable p e ∧ entry_user p e

/-- The entry passes every per-level check of the loop of `local_gva2gpa_common` under
the walk context `pw`: it is present, the write check does not fault and the
user/supervisor check does not fault. -/
@[reducible] def entry_passes (p : Platform) (pw : page_walk_info) (e : Nat) : Prop :=
  entry_present p e
    ∧ (entry_writable p e
        ∨ ¬ (pw.is_write_access = true ∧ (pw.is_user_mode_access = true ∨ pw.wp = true)))
    ∧ (entry_user p e ∨ pw.is_user_mode_access = false)

/-- The guest-physical address of the table read in iteration `k` (counted from 0) of a
walk of `level` levels that starts at `root`: the root, then the entry loaded by the
iteration before. -/
def walk_table (p : Platform) (vm : acrn_vm) (m : Mem) (width gva root level : Nat) :
    Nat → Nat
  | 0 => root
  | k + 1 =>
    walk_entry p vm m width gva (walk_table p vm m width gva root level k) (level - 1 - k)

/-- The first `k` iterations of a walk of `level` levels from `root` find their table
and an entry that passes the checks. -/
def walk_passes (p : Platform) (vm : acrn_vm) (m : Mem) (pw : page_walk_info)
    (gva root level k : Nat) : Prop :=
  ∀ j, j < k →
    gpa2hva p vm (walk_table p vm m pw.width gva root level j) ≠ 0
      ∧ entry_passes p pw
          (walk_entry p vm m pw.width gva (walk_table p vm m pw.width gva root level j)
            (level - 1 - j))

/-! ## Vocabulary for statements about the chunked copy -/

/-- The second-stage page sizes are powers of two that fit `uint32_t`, as the
`uint32_t` out-parameter of `local_gpa2hpa` requires of a page size. -/
def pages_ok (vm : acrn_vm) : Prop :=
  ∀ gpa hpa pg, vm.local_gpa2hpa gpa = some (hpa, pg) → ∃ k, k < 32 ∧ pg = 2 ^ k

/-- A chunk of a copy: the guest-physical address where it starts, the host-virtual
address `g_ptr` of its guest side, and its length. -/
structure Chunk where
  gpa : Nat
  g_ptr : Nat
  len : Nat

/-- The chunks that the loop of `copy_gpa` copies, in order, when started at `gpa` with
`size` bytes to go: it stops at the first chunk start that does not resolve (or whose
computed length is zero). -/
def copy_gpa_chunks (p : Platform) (vm : acrn_vm) : Nat → Nat → Nat → List Chunk
  | fuel, gpa, size =>
    if size = 0 then []
    else
      match fuel with
      | 0 => []
      | fuel + 1 =>
        match vm.local_gpa2hpa gpa with
        | none => []
        | some (hpa, pg) =>
          let len := local_copy_len gpa size 0 pg
          if len = 0 then []
          else
            { gpa := gpa, g_ptr := p.hpa2hva hpa, len := len }
              :: copy_gpa_chunks p vm fuel (u64 (gpa + len)) (u32 (size + (2 ^ 32 - len)))

/-- The chunk start at which the loop of `copy_gpa` gives up, if it does: the first
visited chunk start that does not resolve. -/
def copy_gpa_stop (vm : acrn_vm) : Nat → Nat → Nat → Option Nat
  | fuel, gpa, size =>
    if size = 0 then none
    else
      match fuel with
      | 0 => none
      | fuel + 1 =>
        match vm.local_gpa2hpa gpa with
        | none => some gpa
        | some (_, pg) =>
          let len := local_copy_len gpa size 0 pg
          if len = 0 then some gpa
          else copy_gpa_stop vm fuel (u64 (gpa + len)) (u32 (size + (2 ^ 32 - len)))

/-- The number of bytes of a list of chunks. -/
def chunks_total : List Chunk → Nat
  | [] => 0
  | c :: cs => c.len + chunks_total cs

/-- The host-virtual address of the guest side of byte `t` of a list of chunks laid
end to end. -/
def chunks_hva : List Chunk → Nat → Nat
  | [], _ => 0
  | c :: cs, t => if t < c.len then c.g_ptr + t else chunks_hva cs (t - c.len)

/-- Host memory after copying the chunks one after the other between their guest side
and a host buffer that starts at `h_ptr`: from the guest when `cp_from_vm`, to the
guest otherwise. -/
def apply_chunks (cp_from_vm : Bool) : Mem → Nat → List Chunk → Mem
  | m, _, [] => m
  | m, h_ptr, c :: cs =>
    apply_chunks cp_from_vm
      (if cp_from_vm then memcpy m h_ptr c.g_ptr c.len else memcpy m c.g_ptr h_ptr c.len)
      (h_ptr + c.len) cs

/-- Starting from the loop state `s` of `copy_gva`, the walks of the next `k` chunks
return 0 with a guest-physical address that resolves through the second stage, and the
walk of the chunk after them fails.  The walks are the ones that the loop performs,
each in the state that the iterations before it have left. -/
def walks_ok_then_fail (p : Platform) (vcpu : acrn_vcpu) (stack : page_walk_info) :
    Nat → CopyGvaState → Prop
  | 0, s => (gva2gpa p vcpu s.m stack s.gva (some s.gpa) (some s.err_code)).1 < 0
  | k + 1, s =>
    (gva2gpa p vcpu s.m stack s.gva (some s.gpa) (some s.err_code)).1 = 0
      ∧ (∃ gpa, (gva2gpa p vcpu s.m stack s.gva (some s.gpa) (some s.err_code)).2.1 = some gpa
          ∧ (vcpu.vm.local_gpa2hpa gpa).isSome = true)
      ∧ walks_ok_then_fail p vcpu stack k (copy_gva_body p vcpu stack true s)

/-- The loop state of `copy_gva` at the start of the first iteration whose `gva2gpa`
call returns a negative value, if the loop started in state `s` reaches one. -/
def copy_gva_failed_walk (p : Platform) (vcpu : acrn_vcpu) (stack : page_walk_info)
    (cp_from_vm : Bool) : Nat → CopyGvaState → Option CopyGvaState
  | fuel, s =>
    if s.size > 0 ∧ s.ret = 0 then
      match fuel with
      | 0 => none
      | fuel + 1 =>
        if (gva2gpa p vcpu s.m stack s.gva (some s.gpa) (some s.err_code)).1 < 0 then some s
        else copy_gva_failed_walk p vcpu stack cp_from_vm fuel
          (copy_gva_body p vcpu stack cp_from_vm s)
    else none

/-! ## A concrete platform and guest used to instantiate the theorems -/

/-- Entry and error-code bits laid out as on x86, errno values 22 and 14, eight cores,
identity `hpa2hva`, and an `ffs64` that returns the index of the lowest set bit, or
`0xFFFF` for zero. -/
def demoPlatform : Platform where
  PAGE_V := 1
  PAGE_RW_RW := 2
  PAGE_U := 4
  PAGE_FAULT_P_FLAG := 1
  PAGE_FAULT_WR_FLAG := 2
  PAGE_FAULT_US_FLAG := 4
  PAGE_FAULT_ID_FLAG := 16
  EINVAL := 22
  EFAULT := 14
  CONFIG_NR_CPUS := 8
  NR_CPUS := 8
  NOTIFY_VCPU_SWI := 1
  hpa2hva := fun x => x
  ffs64 := fun x => if x = 0 then 0xFFFF else Nat.log2 (x &&& (2 ^ 64 - x % 2 ^ 64))

/-- A vm whose second stage maps every guest-physical address to itself with 4 KiB
pages. -/
def idVm : acrn_vm where
  gpa2hpa := fun x => some x
  local_gpa2hpa := fun x => some (x, 4096)

/-- A vcpu of `idVm` in the given paging state with root `0x1000`. -/
def demoVcpu (paging pae lma : Bool) : acrn_vcpu where
  vm := idVm
  is_paging_enabled := paging
  is_pae := pae
  is_long_mode := lma
  vsatp := 0x1000

/-- An arbitrary initial content for the local `pw_info`. -/
def demoStack : page_walk_info where
  top_entry := 0
  level := 0
  width := 0
  is_user_mode_access := false
  is_write_access := false
  is_inst_fetch := false
  pse := false
  wp := false
  nxe := false
  is_smap_on := false
  is_smep_on := false

/-- Host memory holding one top-level table at `0x1000` whose only non-zero 32-bit entry
is entry 3 (bytes `0x100C .. 0x100F`): `0x01000087`, that is frame `0x1000` (address
`0x1000000`) with the present, writable and user bits and the x86 page-size bit 7. -/
def largePageMem : Mem := fun a =>
  if a = 0x100C then 0x87 else if a = 0x100F then 0x01 else 0

/-- Host memory holding a top-level table at `0x1000` whose entry 0 is `0x2007`
(present, writable, user-accessible); every other byte is zero, so the table that this
entry designates holds no present entry. -/
def oneEntryMem : Mem := fun a =>
  if a = 0x1000 then 0x07 else if a = 0x1001 then 0x20 else 0

/-- Host memory holding 4-level page tables rooted at `0x1000` that map the first
guest-virtual page to the frame at `0x5000` and nothing else: entry 0 of the root is
`0x2007`, entry 0 of the table at `0x2007` is `0x3007`, entry 0 of the table at `0x3007`
is `0x4007`, entry 0 of the table at `0x4007` is `0x5007`; every other byte is zero. -/
def onePageMem : Mem := fun a =>
  if a = 0x1000 then 0x07 else if a = 0x1001 then 0x20
  else if a = 0x2007 then 0x07 else if a = 0x2008 then 0x30
  else if a = 0x3007 then 0x07 else if a = 0x3008 then 0x40
  else if a = 0x4007 then 0x07 else if a = 0x4008 then 0x50
  else 0

/-- A vm whose second stage maps every guest-physical 4 KiB page onto the one host page
at `0x10000`. -/
def aliasVm : acrn_vm where
  gpa2hpa := fun x => some (0x10000 + x % 4096)
  local_gpa2hpa := fun x => some (0x10000 + x % 4096, 4096)

/-- Host memory holding a two-page buffer at `0x100000`: the bytes of its first page
are `1`, those of its second page are `2`; every other byte is zero. -/
def twoPageMem : Mem := fun a =>
  if 0x100000 ≤ a ∧ a < 0x101000 then 1
  else if 0x101000 ≤ a ∧ a < 0x102000 then 2 else 0

/-- A vm whose second stage maps the guest-physical addresses below `0x3000` to
themselves with 4 KiB pages and nothing else. -/
def holeVm : acrn_vm where
  gpa2hpa := fun x => if x < 0x3000 then some x else none
  local_gpa2hpa := fun x => if x < 0x3000 then some (x, 4096) else none

/-- Host memory in which every byte is `7`, except the eight bytes of entry 1 of the
table at `0x0707070707070707`, which are `3`: that entry is present and writable but
not user-accessible. -/
def supervisorLeafMem : Mem := fun a =>
  if 0x0707070707070707 + 8 ≤ a ∧ a < 0x0707070707070707 + 16 then 3 else 7

/-- A 4-level walk context (width 9, root `0x1000`) with the given access flags. -/
def demoPw (write user wp smep fetch : Bool) : page_walk_info where
  top_entry := 0x1000
  level := 4
  width := 9
  is_user_mode_access := user
  is_write_access := write
  is_inst_fetch := fetch
  pse := true
  wp := wp
  nxe := false
  is_smap_on := false
  is_smep_on := smep

/-- An x86 platform with RAM type 1, 64-byte cache lines, no high MMIO window, both
INVEPT types and identity `hva2hpa`. -/
def demoX86 : X86Platform where
  E820_TYPE_RAM := 1
  PAGE_ATTR_USER := 7
  PAGE_CACHE_WB := 0
  PAGE_CACHE_UC := 0x18
  HI_MMIO_START := 2 ^ 64 - 1
  HI_MMIO_END := 0
  CACHE_LINE_SIZE := 64
  invept_single_context := true
  invept_global_context := true
  hva2hpa := fun a => a

/-- A memory map with one RAM entry that starts at 3 GiB and ends 1 MiB above 5 GiB. -/
def straddlingMap : List e820_entry :=
  [{ baseaddr := 0xC0000000, length := 0x80100000, type := 1 }]

/-- A memory map with 2 GiB of RAM at 0, a reserved hole, and 1 GiB of RAM at
4 GiB. -/
def holeMap : List e820_entry :=
  [{ baseaddr := 0, length := 0x80000000, type := 1 },
   { baseaddr := 0x80000000, length := 0x80000000, type := 2 },
   { baseaddr := 0x100000000, length := 0x40000000, type := 1 }]

/-- A vm whose second stage maps the guest-physical addresses below `0x5000` to
themselves with 4 KiB pages and nothing else: the tables of `onePageMem` resolve, the
frame at `0x5000` does not. -/
def frameHoleVm : acrn_vm where
  gpa2hpa := fun x => if x < 0x5000 then some x else none
  local_gpa2hpa := fun x => if x < 0x5000 then some (x, 4096) else none

/-- A vcpu of `frameHoleVm` in 4-level mode with root `0x1000`. -/
def frameHoleVcpu : acrn_vcpu where
  vm := frameHoleVm
  is_paging_enabled := true
  is_pae := true
  is_long_mode := true
  vsatp := 0x1000

/-- A vm whose second stage maps every guest-physical address to itself with 2 MiB
pages. -/
def twoMegVm : acrn_vm where
  gpa2hpa := fun x => some x
  local_gpa2hpa := fun x => some (x, 0x200000)

/-- A vcpu of `twoMegVm` in 4-level mode with root `0x1000`. -/
def twoMegVcpu : acrn_vcpu where
  vm := twoMegVm
  is_paging_enabled := true
  is_pae := true
  is_long_mode := true
  vsatp := 0x1000

/-- The loop state in which `copy_gva` starts six bytes at gva `0xFFE` over
`onePageMem`, into the host buffer at `0x100000`. -/
def straddleState : CopyGvaState where
  m := onePageMem
  h_ptr := 0x100000
  gpa := 0
  ret := 0
  gva := 0xFFE
  size := 6
  err_code := 0
  fault_addr := 0

/-- The dispatcher with no pending call, empty slots and empty logs. -/
def idleSmp : SmpState where
  smp_call_mask := 0
  smp_call_info := fun _ => (none, 0)
  calls := []
  swi := []

/-- Host memory whose byte at address `a` is `a % 251`. -/
def patternMem : Mem := fun a => a % 251

/-- Host memory in which every byte is `7`, except the eight bytes of entry 1 of the
table at `0x0707070707070707`, which are `5`: that entry is present and
user-accessible but denies write. -/
def readOnlyLeafMem : Mem := fun a =>
  if 0x0707070707070707 + 8 ≤ a ∧ a < 0x0707070707070707 + 16 then 5 else 7

/-- Host memory in which every byte is `7`: every loaded entry is present, writable
and user-accessible. -/
def sevenMem : Mem := fun _ => 7

/-! ## Lemmas on the walk -/

theorem frame_bits (e : Nat) :
    (((e >>> 12) <<< 24) % 2 ^ 64) >>> 12 = e &&& 0x000FFFFFFFFFF000 := by
  apply Nat.eq_of_testBit_eq
  intro i
  have hm : (0x000FFFFFFFFFF000 : Nat) = (2 ^ 40 - 1) <<< 12 := by decide
  rw [hm, Nat.testBit_shiftRight, Nat.testBit_mod_two_pow, Nat.testBit_shiftLeft,
    Nat.testBit_shiftRight, Nat.testBit_and, Nat.testBit_shiftLeft,
    Nat.testBit_two_pow_sub_one]
  by_cases h1 : 12 ≤ i
  · by_cases h2 : i < 52
    · have h3 : 12 + (12 + i - 24) = i := by omega
      have h4 : 12 + i < 64 := by omega
      have h5 : 24 ≤ 12 + i := by omega
      have h6 : i - 12 < 40 := by omega
      simp [h1, h3, h4, h5, h6]
    · have h4 : ¬ (12 + i < 64) := by omega
      have h6 : ¬ (i - 12 < 40) := by omega
      simp [h4, h6]
  · have h5 : ¬ (24 ≤ 12 + i) := by omega
    simp [h1, h5]

/-- The value written to `*gpa` when the walk ended at loop counter 0. -/
theorem walk_gpa_level0 (gva : Nat) (s : WalkState) (hs : s.shift = 12)
    (hp : s.page_size = 4096) :
    walk_gpa gva s = (s.entry &&& 0x000FFFFFFFFFF000) ||| (gva &&& 0xFFF) := by
  have h := frame_bits s.entry
  simp only [walk_gpa, hs, hp, u64]
  rw [show (12 + 12 : Nat) = 24 from rfl, h]
  rfl

/-- An iteration that finds its table and a present, writable, user-accessible entry
only advances the walk. -/
theorem walk_body_pass (p : Platform) (vm : acrn_vm) (m : Mem) (pw : page_walk_info)
    (gva i : Nat) (s : WalkState) (hf : s.fault = false)
    (hb : gpa2hva p vm s.addr ≠ 0)
    (he : entry_permissive p (walk_entry p vm m pw.width gva s.addr i)) :
    walk_body p vm m pw gva i s =
      { s with
        shift := walk_shift pw.width i
        page_size := u64 (1 <<< walk_shift pw.width i)
        entry := walk_entry p vm m pw.width gva s.addr i
        addr := walk_entry p vm m pw.width gva s.addr i } := by
  obtain ⟨hv, hw, hu⟩ := he
  simp only [entry_present, entry_writable, entry_user, walk_entry] at hv hw hu
  simp [walk_body, hb, hf, hv, hw, hu, walk_entry]

/-- A faulted walk leaves the loop at once. -/
theorem walk_loop_of_fault (p : Platform) (vm : acrn_vm) (m : Mem) (pw : page_walk_info)
    (gva n : Nat) (s : WalkState) (hf : s.fault = true) :
    walk_loop p vm m pw gva n s = s := by
  cases n with
  | zero => rfl
  | succ n => simp [walk_loop, hf]

/-- An iteration keeps `fault == 0` exactly when the table resolves and the entry passes
the checks. -/
theorem walk_body_fault_false_iff (p : Platform) (vm : acrn_vm) (m : Mem)
    (pw : page_walk_info) (gva i : Nat) (s : WalkState) (hf : s.fault = false) :
    (walk_body p vm m pw gva i s).fault = false ↔
      (gpa2hva p vm s.addr ≠ 0
        ∧ entry_passes p pw (walk_entry p vm m pw.width gva s.addr i)) := by
  unfold entry_passes entry_present entry_writable entry_user walk_entry
  by_cases hb : gpa2hva p vm s.addr = 0
  · simp [walk_body, hb]
  · by_cases hv : walk_load m pw.width (gpa2hva p vm s.addr) (walk_index pw.width gva i)
        &&& p.PAGE_V = 0
    · simp [walk_body, hb, hv]
    · by_cases hw : walk_load m pw.width (gpa2hva p vm s.addr) (walk_index pw.width gva i)
          &&& p.PAGE_RW_RW = 0
      · by_cases hu : walk_load m pw.width (gpa2hva p vm s.addr)
            (walk_index pw.width gva i) &&& p.PAGE_U = 0
        · cases h1 : pw.is_write_access <;> cases h2 : pw.is_user_mode_access <;>
            cases h3 : pw.wp <;> simp [walk_body, hb, hv, hw, hu, hf, h1, h2, h3]
        · cases h1 : pw.is_write_access <;> cases h2 : pw.is_user_mode_access <;>
            cases h3 : pw.wp <;> simp [walk_body, hb, hv, hw, hu, hf, h1, h2, h3]
      · by_cases hu : walk_load m pw.width (gpa2hva p vm s.addr)
            (walk_index pw.width gva i) &&& p.PAGE_U = 0
        · cases h2 : pw.is_user_mode_access <;> simp [walk_body, hb, hv, hw, hu, hf, h2]
        · simp [walk_body, hb, hv, hw, hu, hf]

/-- What an iteration stores when its table resolves. -/
theorem walk_body_fields (p : Platform) (vm : acrn_vm) (m : Mem) (pw : page_walk_info)
    (gva i : Nat) (s : WalkState) (hb : gpa2hva p vm s.addr ≠ 0) :
    (walk_body p vm m pw gva i s).addr = walk_entry p vm m pw.width gva s.addr i
      ∧ (walk_body p vm m pw gva i s).entry = walk_entry p vm m pw.width gva s.addr i
      ∧ (walk_body p vm m pw gva i s).shift = walk_shift pw.width i
      ∧ (walk_body p vm m pw gva i s).page_size = u64 (1 <<< walk_shift pw.width i) := by
  simp only [walk_body, walk_entry, hb, if_false]
  refine ⟨?_, ?_, ?_, ?_⟩ <;> (repeat' split) <;> rfl

theorem walk_table_shift (p : Platform) (vm : acrn_vm) (m : Mem) (width gva root L : Nat)
    (j : Nat) :
    walk_table p vm m width gva (walk_entry p vm m width gva root L) L j
      = walk_table p vm m width gva root (L + 1) (j + 1) := by
  induction j with
  | zero => simp [walk_table]
  | succ j ih =>
    rw [walk_table, ih]
    conv_rhs => rw [walk_table]
    congr 1
    omega

/-- After `k` passing iterations the loop continues, not faulted, at the table
`walk_table .. k` with `n` iterations left. -/
theorem walk_loop_passed (p : Platform) (vm : acrn_vm) (m : Mem) (pw : page_walk_info)
    (gva : Nat) (k : Nat) : ∀ (n : Nat) (s : WalkState), s.fault = false →
      walk_passes p vm m pw gva s.addr (n + k) k →
      ∃ s1, walk_loop p vm m pw gva (n + k) s = walk_loop p vm m pw gva n s1
        ∧ s1.fault = false
        ∧ s1.addr = walk_table p vm m pw.width gva s.addr (n + k) k
        ∧ (0 < k → s1.entry = s1.addr ∧ s1.shift = walk_shift pw.width n
            ∧ s1.page_size = u64 (1 <<< walk_shift pw.width n))
        ∧ (k = 0 → s1 = s) := by
  induction k with
  | zero =>
    intro n s hf _
    exact ⟨s, rfl, hf, rfl, fun h => absurd h (by decide), fun _ => rfl⟩
  | succ k ih =>
    intro n s hf hp
    have h0 := hp 0 (Nat.succ_pos k)
    simp only [walk_table] at h0
    have hL : n + (k + 1) - 1 - 0 = n + k := by omega
    rw [hL] at h0
    have hbf := (walk_body_fault_false_iff p vm m pw gva (n + k) s hf).2 h0
    obtain ⟨ha, he, hsh, hps⟩ := walk_body_fields p vm m pw gva (n + k) s h0.1
    have hp1 : walk_passes p vm m pw gva (walk_body p vm m pw gva (n + k) s).addr (n + k) k := by
      intro j hj
      have := hp (j + 1) (Nat.succ_lt_succ hj)
      rw [ha, walk_table_shift]
      have hidx : n + (k + 1) - 1 - (j + 1) = n + k - 1 - j := by omega
      rw [hidx] at this
      exact this
    obtain ⟨s1, h1, h2, h3, h4, h5⟩ := ih n (walk_body p vm m pw gva (n + k) s) hbf hp1
    refine ⟨s1, ?_, h2, ?_, ?_, fun h => absurd h (Nat.succ_ne_zero k)⟩
    · rw [← h1, show n + (k + 1) = (n + k) + 1 from rfl, walk_loop, hf]
      rfl
    · rw [h3, ha, walk_table_shift]
      rfl
    · intro _
      rcases Nat.eq_zero_or_pos k with hk | hk
      · subst hk
        rw [h5 rfl]
        exact ⟨he.trans ha.symm, hsh, hps⟩
      · exact h4 hk

/-- With at least one level, `local_gva2gpa_common` returns 0 or `-EFAULT`. -/
theorem local_gva2gpa_common_ret (p : Platform) (vcpu : acrn_vcpu) (m : Mem)
    (pw : page_walk_info) (gva gpa ec : Nat) (hl : 1 ≤ pw.level) :
    (local_gva2gpa_common p vcpu m pw gva gpa ec).1 = 0
      ∨ (local_gva2gpa_common p vcpu m pw gva gpa ec).1 = -(p.EFAULT : Int) := by
  have hl' : ¬ pw.level < 1 := by omega
  simp only [local_gva2gpa_common, hl', if_false]
  split_ifs <;> simp

/-- `local_gva2gpa_pae` returns 0 or `-EFAULT`. -/
theorem local_gva2gpa_pae_ret (p : Platform) (vcpu : acrn_vcpu) (m : Mem)
    (pw : page_walk_info) (gva gpa ec : Nat) :
    (local_gva2gpa_pae p vcpu m pw gva gpa ec).1 = 0
      ∨ (local_gva2gpa_pae p vcpu m pw gva gpa ec).1 = -(p.EFAULT : Int) := by
  simp only [local_gva2gpa_pae]
  split
  · split
    · exact local_gva2gpa_common_ret p vcpu m _ gva gpa ec (Nat.le_succ 1)
    · exact Or.inr rfl
  · exact Or.inr rfl

/-- With non-NULL out-parameters `gva2gpa` returns 0 or `-EFAULT`. -/
theorem gva2gpa_ret_some (p : Platform) (vcpu : acrn_vcpu) (m : Mem)
    (stack : page_walk_info) (gva g e : Nat) :
    (gva2gpa p vcpu m stack gva (some g) (some e)).1 = 0
      ∨ (gva2gpa p vcpu m stack gva (some g) (some e)).1 = -(p.EFAULT : Int) := by
  simp only [gva2gpa, gva2gpa_finish]
  cases hm : get_vcpu_paging_mode vcpu
  · simp
  · simp only [reduceCtorEq, if_false, if_true]
    exact local_gva2gpa_common_ret p vcpu m _ gva 0 _
      (by simp [gva2gpa_pw_info, hm, vm_paging_mode.toNat])
  · simp only [reduceCtorEq, if_false, if_true]
    exact local_gva2gpa_pae_ret p vcpu m _ gva 0 _
  · simp only [if_true]
    exact local_gva2gpa_common_ret p vcpu m _ gva 0 _
      (by simp [gva2gpa_pw_info, hm, vm_paging_mode.toNat])

/-- At loop counter 0 the shift is 12. -/
theorem walk_shift_zero (width : Nat) : walk_shift width 0 = 12 := by
  simp [walk_shift, u32]

/-- If the first `k` iterations pass and iteration `k` does not (its table does not
resolve or its entry fails a check), `local_gva2gpa_common` returns `-EFAULT`, leaves
`*gpa` alone and sets the present bit in `*err_code`. -/
theorem local_gva2gpa_common_fault_at (p : Platform) (vcpu : acrn_vcpu) (m : Mem)
    (pw : page_walk_info) (gva gpa ec k : Nat) (hk : k < pw.level)
    (hp : walk_passes p vcpu.vm m pw gva pw.top_entry pw.level k)
    (hf : ¬ (gpa2hva p vcpu.vm (walk_table p vcpu.vm m pw.width gva pw.top_entry pw.level k) ≠ 0
      ∧ entry_passes p pw (walk_entry p vcpu.vm m pw.width gva
          (walk_table p vcpu.vm m pw.width gva pw.top_entry pw.level k) (pw.level - 1 - k)))) :
    local_gva2gpa_common p vcpu m pw gva gpa ec
      = (-(p.EFAULT : Int), gpa, u32 (ec ||| p.PAGE_FAULT_P_FLAG)) := by
  obtain ⟨n, hn⟩ : ∃ n, pw.level = (n + 1) + k := ⟨pw.level - 1 - k, by omega⟩
  have hl' : ¬ pw.level < 1 := by omega
  simp only [local_gva2gpa_common, hl', if_false]
  rw [hn] at hp hf
  obtain ⟨s1, h1, h2, h3, -, -⟩ := walk_loop_passed p vcpu.vm m pw gva k (n + 1)
    { fault := false, addr := pw.top_entry, entry := 0, shift := 0,
      page_size := PAGE_SIZE_4K, is_user_mode_addr := true, is_page_rw_flags_on := true }
    rfl hp
  have hidx : n + 1 + k - 1 - k = n := by omega
  rw [hidx] at hf
  simp only at h3
  rw [← h3] at hf
  have hb : (walk_body p vcpu.vm m pw gva n s1).fault = true := by
    cases hc : (walk_body p vcpu.vm m pw gva n s1).fault
    · exact absurd ((walk_body_fault_false_iff p vcpu.vm m pw gva n s1 h2).1 hc) hf
    · rfl
  rw [hn, h1, walk_loop, h2]
  simp only [Bool.false_eq_true, if_false]
  rw [walk_loop_of_fault _ _ _ _ _ _ _ hb]
  simp [hb]

/-- If every iteration passes and the access is a user-mode access,
`local_gva2gpa_common` returns 0, stores the frame bits of the last entry with the low
12 bits of `gva` in `*gpa` and leaves `*err_code` alone. -/
theorem local_gva2gpa_common_success (p : Platform) (vcpu : acrn_vcpu) (m : Mem)
    (pw : page_walk_info) (gva gpa ec : Nat) (hl : 1 ≤ pw.level)
    (hu : pw.is_user_mode_access = true)
    (hp : walk_passes p vcpu.vm m pw gva pw.top_entry pw.level pw.level) :
    local_gva2gpa_common p vcpu m pw gva gpa ec
      = (0, (walk_table p vcpu.vm m pw.width gva pw.top_entry pw.level pw.level
              &&& 0x000FFFFFFFFFF000) ||| (gva &&& 0xFFF), ec) := by
  have hl' : ¬ pw.level < 1 := by omega
  simp only [local_gva2gpa_common, hl', if_false]
  have hp' : walk_passes p vcpu.vm m pw gva pw.top_entry (0 + pw.level) pw.level := by
    rw [Nat.zero_add]
    exact hp
  obtain ⟨s1, h1, h2, h3, h4, -⟩ := walk_loop_passed p vcpu.vm m pw gva pw.level 0
    { fault := false, addr := pw.top_entry, entry := 0, shift := 0,
      page_size := PAGE_SIZE_4K, is_user_mode_addr := true, is_page_rw_flags_on := true }
    rfl hp'
  rw [Nat.zero_add] at h1 h3
  obtain ⟨h5, h6, h7⟩ := h4 (by omega)
  rw [walk_shift_zero] at h6 h7
  rw [h1, walk_loop]
  simp only [h2, hu, Bool.true_eq_false, false_and, and_false, if_false, Bool.false_eq_true]
  rw [walk_gpa_level0 gva s1 h6 (by rw [h7]; rfl), h5, h3]

/-- The frame bits of an entry combined with the offset of `gva` keep the low 12 bits
of `gva`. -/
theorem gpa_low_bits (a b : Nat) :
    ((a &&& 0x000FFFFFFFFFF000) ||| (b &&& 0xFFF)) % 4096 = b % 4096 := by
  apply Nat.eq_of_testBit_eq
  intro i
  have hm : (0x000FFFFFFFFFF000 : Nat) = (2 ^ 40 - 1) <<< 12 := by decide
  have hk : (0xFFF : Nat) = 2 ^ 12 - 1 := by decide
  rw [show (4096 : Nat) = 2 ^ 12 from rfl, Nat.testBit_mod_two_pow, Nat.testBit_mod_two_pow,
    Nat.testBit_or, Nat.testBit_and, Nat.testBit_and, hm, hk, Nat.testBit_shiftLeft,
    Nat.testBit_two_pow_sub_one, Nat.testBit_two_pow_sub_one]
  by_cases h : i < 12
  · have h' : ¬ (12 ≤ i) := by omega
    simp [h, h']
  · simp [h]

/-- A loop of at least one iteration that ends without fault ended at counter 0: the
shift is 12 and the page size 4 KiB. -/
theorem walk_loop_final (p : Platform) (vm : acrn_vm) (m : Mem) (pw : page_walk_info)
    (gva : Nat) : ∀ (n : Nat) (s : WalkState), s.fault = false → 1 ≤ n →
      (walk_loop p vm m pw gva n s).fault = false →
      (walk_loop p vm m pw gva n s).shift = 12
        ∧ (walk_loop p vm m pw gva n s).page_size = 4096 := by
  intro n
  induction n with
  | zero => intro s _ h; omega
  | succ n ih =>
    intro s hf _ hend
    rw [walk_loop, hf] at hend ⊢
    simp only [Bool.false_eq_true, if_false] at hend ⊢
    have hb : (walk_body p vm m pw gva n s).fault = false := by
      cases hc : (walk_body p vm m pw gva n s).fault
      · rfl
      · rw [walk_loop_of_fault _ _ _ _ _ _ _ hc, hc] at hend
        exact absurd hend (by decide)
    rcases Nat.eq_zero_or_pos n with h0 | hpos
    · subst h0
      have hres := ((walk_body_fault_false_iff p vm m pw gva 0 s hf).1 hb).1
      obtain ⟨-, -, h3, h4⟩ := walk_body_fields p vm m pw gva 0 s hres
      rw [walk_loop, h3, h4, walk_shift_zero]
      exact ⟨rfl, rfl⟩
    · exact ih _ hb hpos hend

/-- When `local_gva2gpa_common` returns 0 (and `EFAULT` is not 0), the address it
stores has the low 12 bits of `gva`. -/
theorem local_gva2gpa_common_low_bits (p : Platform) (vcpu : acrn_vcpu) (m : Mem)
    (pw : page_walk_info) (gva gpa ec : Nat) (hE : p.EFAULT ≠ 0) (hl : 1 ≤ pw.level)
    (h0 : (local_gva2gpa_common p vcpu m pw gva gpa ec).1 = 0) :
    (local_gva2gpa_common p vcpu m pw gva gpa ec).2.1 % 4096 = gva % 4096 := by
  have hl' : ¬ pw.level < 1 := by omega
  have hEi : -(p.EFAULT : Int) ≠ 0 := by omega
  simp only [local_gva2gpa_common, hl', if_false] at h0 ⊢
  have hfin : ∀ S : WalkState,
      S = walk_loop p vcpu.vm m pw gva pw.level
        { fault := false, addr := pw.top_entry, entry := 0, shift := 0,
          page_size := PAGE_SIZE_4K, is_user_mode_addr := true,
          is_page_rw_flags_on := true } →
      S.fault = false → S.shift = 12 ∧ S.page_size = 4096 := by
    intro S hS hSf
    rw [hS] at hSf ⊢
    exact walk_loop_final p vcpu.vm m pw gva pw.level _ rfl hl hSf
  generalize walk_loop p vcpu.vm m pw gva pw.level
        { fault := false, addr := pw.top_entry, entry := 0, shift := 0,
          page_size := PAGE_SIZE_4K, is_user_mode_addr := true,
          is_page_rw_flags_on := true } = S at h0 hfin ⊢
  cases hSf : S.fault
  · obtain ⟨h1, h2⟩ := hfin S rfl hSf
    by_cases hsm : pw.is_smep_on = true ∧ pw.is_user_mode_access = false
        ∧ S.is_user_mode_addr = true ∧ pw.is_inst_fetch = true
    · simp [hSf, hsm, hEi] at h0
    · simp only [hSf, hsm, true_and, if_false, Bool.false_eq_true]
      rw [walk_gpa_level0 gva _ h1 h2]
      exact gpa_low_bits _ _
  · simp [hSf, hEi] at h0

/-- When `gva2gpa` returns 0 (and `EFAULT` is not 0), the address it stores has the low
12 bits of `gva`. -/
theorem gva2gpa_low_bits (p : Platform) (vcpu : acrn_vcpu) (m : Mem)
    (stack : page_walk_info) (gva g e : Nat) (hE : p.EFAULT ≠ 0)
    (h0 : (gva2gpa p vcpu m stack gva (some g) (some e)).1 = 0) :
    ∃ gpa, (gva2gpa p vcpu m stack gva (some g) (some e)).2.1 = some gpa
      ∧ gpa % 4096 = gva % 4096 := by
  have hEi : -(p.EFAULT : Int) ≠ 0 := by omega
  simp only [gva2gpa, gva2gpa_finish] at h0 ⊢
  refine ⟨_, rfl, ?_⟩
  cases hm : get_vcpu_paging_mode vcpu
  · simp
  · simp only [hm, reduceCtorEq, if_false, if_true] at h0 ⊢
    exact local_gva2gpa_common_low_bits p vcpu m _ gva 0 _ hE
      (by simp [gva2gpa_pw_info, hm, vm_paging_mode.toNat]) h0
  · simp only [hm, reduceCtorEq, if_false, if_true] at h0 ⊢
    simp only [local_gva2gpa_pae] at h0 ⊢
    split at h0
    · split at h0
      · rename_i hb hv
        rw [if_pos hb, if_pos hv]
        exact local_gva2gpa_common_low_bits p vcpu m _ gva 0 _ hE (Nat.le_succ 1) h0
      · exact absurd h0 hEi
    · exact absurd h0 hEi
  · simp only [hm, if_true] at h0 ⊢
    exact local_gva2gpa_common_low_bits p vcpu m _ gva 0 _ hE
      (by simp [gva2gpa_pw_info, hm, vm_paging_mode.toNat]) h0

/-- An iteration that does not fault keeps `is_user_mode_addr` exactly when its entry is
user-accessible. -/
theorem walk_body_user_addr (p : Platform) (vm : acrn_vm) (m : Mem) (pw : page_walk_info)
    (gva i : Nat) (s : WalkState) (hf : s.fault = false)
    (hb : (walk_body p vm m pw gva i s).fault = false) :
    ((walk_body p vm m pw gva i s).is_user_mode_addr = true ↔
      (s.is_user_mode_addr = true
        ∧ entry_user p (walk_entry p vm m pw.width gva s.addr i))) := by
  have hpass := (walk_body_fault_false_iff p vm m pw gva i s hf).1 hb
  obtain ⟨hres, hv, hw, hu⟩ := hpass
  simp only [entry_present, entry_writable, entry_user, walk_entry] at hv hw hu ⊢
  by_cases hU : walk_load m pw.width (gpa2hva p vm s.addr) (walk_index pw.width gva i)
      &&& p.PAGE_U = 0 <;>
    by_cases hW : walk_load m pw.width (gpa2hva p vm s.addr) (walk_index pw.width gva i)
      &&& p.PAGE_RW_RW = 0 <;>
    cases h1 : pw.is_write_access <;> cases h2 : pw.is_user_mode_access <;>
    cases h3 : pw.wp <;>
    simp [h1, h2, h3, hU, hW] at hw hu <;>
    simp [walk_body, hres, hf, hv, hW, hU, h1, h2, h3]

/-- A loop whose `k` iterations all pass ends without fault, and `is_user_mode_addr`
holds at its end exactly when it held at the start and every entry is
user-accessible. -/
theorem walk_loop_all_pass (p : Platform) (vm : acrn_vm) (m : Mem) (pw : page_walk_info)
    (gva : Nat) : ∀ (k : Nat) (s : WalkState), s.fault = false →
      walk_passes p vm m pw gva s.addr k k →
      (walk_loop p vm m pw gva k s).fault = false
        ∧ ((walk_loop p vm m pw gva k s).is_user_mode_addr = true ↔
            (s.is_user_mode_addr = true
              ∧ ∀ j, j < k → entry_user p (walk_entry p vm m pw.width gva
                  (walk_table p vm m pw.width gva s.addr k j) (k - 1 - j)))) := by
  intro k
  induction k with
  | zero =>
    intro s hf _
    refine ⟨hf, ?_⟩
    simp [walk_loop]
  | succ k ih =>
    intro s hf hp
    have h0 := hp 0 (Nat.succ_pos k)
    simp only [walk_table] at h0
    have hL : k + 1 - 1 - 0 = k := by omega
    rw [hL] at h0
    have hbf := (walk_body_fault_false_iff p vm m pw gva k s hf).2 h0
    obtain ⟨ha, -, -, -⟩ := walk_body_fields p vm m pw gva k s h0.1
    have hp1 : walk_passes p vm m pw gva (walk_body p vm m pw gva k s).addr k k := by
      intro j hj
      have := hp (j + 1) (Nat.succ_lt_succ hj)
      rw [ha, walk_table_shift]
      have hidx : k + 1 - 1 - (j + 1) = k - 1 - j := by omega
      rw [hidx] at this
      exact this
    obtain ⟨i1, i2⟩ := ih (walk_body p vm m pw gva k s) hbf hp1
    have hstep : walk_loop p vm m pw gva (k + 1) s
        = walk_loop p vm m pw gva k (walk_body p vm m pw gva k s) := by
      rw [walk_loop, hf]
      rfl
    rw [hstep]
    refine ⟨i1, ?_⟩
    rw [i2, walk_body_user_addr p vm m pw gva k s hf hbf, ha]
    constructor
    · rintro ⟨⟨h1, h2⟩, h3⟩
      refine ⟨h1, ?_⟩
      intro j hj
      rcases Nat.eq_zero_or_pos j with hj0 | hjp
      · subst hj0
        simp only [walk_table]
        rw [hL]
        exact h2
      · obtain ⟨j', rfl⟩ : ∃ j', j = j' + 1 := ⟨j - 1, by omega⟩
        have := h3 j' (by omega)
        rw [walk_table_shift] at this
        have hidx : k + 1 - 1 - (j' + 1) = k - 1 - j' := by omega
        rw [hidx]
        exact this
    · rintro ⟨h1, h2⟩
      refine ⟨⟨h1, ?_⟩, ?_⟩
      · have := h2 0 (Nat.succ_pos k)
        simp only [walk_table] at this
        rw [hL] at this
        exact this
      · intro j hj
        have := h2 (j + 1) (by omega)
        rw [walk_table_shift]
        have hidx : k + 1 - 1 - (j + 1) = k - 1 - j := by omega
        rw [hidx] at this
        exact this

/-- The result of `local_gva2gpa_common` when every iteration passes: the check after
the loop faults when SMEP is on, the access is a supervisor instruction fetch and every
entry is user-accessible; otherwise the walk succeeds with the frame bits of the last
entry and the low 12 bits of `gva`. -/
theorem local_gva2gpa_common_all_pass (p : Platform) (vcpu : acrn_vcpu) (m : Mem)
    (pw : page_walk_info) (gva gpa ec : Nat) (hl : 1 ≤ pw.level)
    (hp : walk_passes p vcpu.vm m pw gva pw.top_entry pw.level pw.level) :
    ((pw.is_smep_on = true ∧ pw.is_user_mode_access = false ∧ pw.is_inst_fetch = true
        ∧ (∀ j, j < pw.level → entry_user p (walk_entry p vcpu.vm m pw.width gva
            (walk_table p vcpu.vm m pw.width gva pw.top_entry pw.level j)
            (pw.level - 1 - j)))) →
      local_gva2gpa_common p vcpu m pw gva gpa ec
        = (-(p.EFAULT : Int), gpa, u32 (ec ||| p.PAGE_FAULT_P_FLAG)))
    ∧ (¬ (pw.is_smep_on = true ∧ pw.is_user_mode_access = false ∧ pw.is_inst_fetch = true
        ∧ (∀ j, j < pw.level → entry_user p (walk_entry p vcpu.vm m pw.width gva
            (walk_table p vcpu.vm m pw.width gva pw.top_entry pw.level j)
            (pw.level - 1 - j)))) →
      local_gva2gpa_common p vcpu m pw gva gpa ec
        = (0, (walk_table p vcpu.vm m pw.width gva pw.top_entry pw.level pw.level
                &&& 0x000FFFFFFFFFF000) ||| (gva &&& 0xFFF), ec)) := by
  have hl' : ¬ pw.level < 1 := by omega
  have hp' : walk_passes p vcpu.vm m pw gva pw.top_entry (0 + pw.level) pw.level := by
    rw [Nat.zero_add]
    exact hp
  obtain ⟨s1, h1, h2, h3, h4, -⟩ := walk_loop_passed p vcpu.vm m pw gva pw.level 0
    { fault := false, addr := pw.top_entry, entry := 0, shift := 0,
      page_size := PAGE_SIZE_4K, is_user_mode_addr := true, is_page_rw_flags_on := true }
    rfl hp'
  rw [Nat.zero_add] at h1 h3
  obtain ⟨h5, h6, h7⟩ := h4 (by omega)
  rw [walk_shift_zero] at h6 h7
  obtain ⟨-, a2⟩ := walk_loop_all_pass p vcpu.vm m pw gva pw.level
    { fault := false, addr := pw.top_entry, entry := 0, shift := 0,
      page_size := PAGE_SIZE_4K, is_user_mode_addr := true, is_page_rw_flags_on := true }
    rfl hp
  rw [h1, walk_loop] at a2
  simp only [true_and] at a2
  simp only [local_gva2gpa_common, hl', if_false]
  rw [h1, walk_loop]
  constructor
  · rintro ⟨c1, c2, c3, c4⟩
    have hu : s1.is_user_mode_addr = true := a2.2 c4
    simp [h2, c1, c2, c3, hu]
  · intro hn
    have hcond : ¬ (s1.fault = false ∧ pw.is_smep_on = true ∧ pw.is_user_mode_access = false
        ∧ s1.is_user_mode_addr = true ∧ pw.is_inst_fetch = true) := by
      rintro ⟨-, c1, c2, c4, c3⟩
      exact hn ⟨c1, c2, c3, a2.1 c4⟩
    rw [if_neg hcond, h2]
    simp only [Bool.false_eq_true, if_false]
    rw [walk_gpa_level0 gva s1 h6 (by rw [h7]; rfl), h5, h3]

/-- When some iteration does not pass, `local_gva2gpa_common` returns `-EFAULT`. -/
theorem local_gva2gpa_common_not_all_pass (p : Platform) (vcpu : acrn_vcpu) (m : Mem)
    (pw : page_walk_info) (gva gpa ec : Nat)
    (hn : ¬ walk_passes p vcpu.vm m pw gva pw.top_entry pw.level pw.level) :
    local_gva2gpa_common p vcpu m pw gva gpa ec
      = (-(p.EFAULT : Int), gpa, u32 (ec ||| p.PAGE_FAULT_P_FLAG)) := by
  classical
  have hex : ∃ k, k < pw.level
      ∧ ¬ (gpa2hva p vcpu.vm (walk_table p vcpu.vm m pw.width gva pw.top_entry pw.level k) ≠ 0
        ∧ entry_passes p pw (walk_entry p vcpu.vm m pw.width gva
          (walk_table p vcpu.vm m pw.width gva pw.top_entry pw.level k)
          (pw.level - 1 - k))) := by
    by_contra hne
    apply hn
    intro j hj
    by_contra hc
    exact hne ⟨j, hj, hc⟩
  obtain ⟨hk, hfail⟩ := Nat.find_spec hex
  refine local_gva2gpa_common_fault_at p vcpu m pw gva gpa ec (Nat.find hex) hk ?_ hfail
  intro j hj
  by_contra hc
  exact Nat.find_min hex hj ⟨Nat.lt_trans hj hk, hc⟩

/-- For a user-mode access an iteration depends on the walk context only through the
width and the write flag. -/
theorem walk_body_user_congr (p : Platform) (vm : acrn_vm) (m : Mem)
    (pw1 pw2 : page_walk_info) (gva i : Nat) (s : WalkState)
    (hw : pw1.width = pw2.width) (hwr : pw1.is_write_access = pw2.is_write_access)
    (hu1 : pw1.is_user_mode_access = true) (hu2 : pw2.is_user_mode_access = true) :
    walk_body p vm m pw1 gva i s = walk_body p vm m pw2 gva i s := by
  simp only [walk_body, hw, hwr, hu1, hu2, Bool.true_or]

/-- For a user-mode access the loop depends on the walk context only through the width
and the write flag. -/
theorem walk_loop_user_congr (p : Platform) (vm : acrn_vm) (m : Mem)
    (pw1 pw2 : page_walk_info) (gva : Nat)
    (hw : pw1.width = pw2.width) (hwr : pw1.is_write_access = pw2.is_write_access)
    (hu1 : pw1.is_user_mode_access = true) (hu2 : pw2.is_user_mode_access = true) :
    ∀ (n : Nat) (s : WalkState),
      walk_loop p vm m pw1 gva n s = walk_loop p vm m pw2 gva n s := by
  intro n
  induction n with
  | zero => intro s; rfl
  | succ n ih =>
    intro s
    rw [walk_loop, walk_loop, walk_body_user_congr p vm m pw1 pw2 gva n s hw hwr hu1 hu2,
      ih]

/-- For a user-mode access `local_gva2gpa_common` depends on the walk context only
through the root, the level, the width and the write flag: `wp`, `nxe`, `pse`,
`is_inst_fetch`, `is_smap_on` and `is_smep_on` have no effect. -/
theorem local_gva2gpa_common_user_congr (p : Platform) (vcpu : acrn_vcpu) (m : Mem)
    (pw1 pw2 : page_walk_info) (gva gpa ec : Nat)
    (ht : pw1.top_entry = pw2.top_entry) (hl : pw1.level = pw2.level)
    (hw : pw1.width = pw2.width) (hwr : pw1.is_write_access = pw2.is_write_access)
    (hu1 : pw1.is_user_mode_access = true) (hu2 : pw2.is_user_mode_access = true) :
    local_gva2gpa_common p vcpu m pw1 gva gpa ec
      = local_gva2gpa_common p vcpu m pw2 gva gpa ec := by
  simp only [local_gva2gpa_common, ht, hl, hu1, hu2,
    walk_loop_user_congr p vcpu.vm m pw1 pw2 gva hw hwr hu1 hu2, Bool.true_eq_false,
    false_and, and_false, if_false]

/-- For a user-mode access `local_gva2gpa_pae` depends on the walk context only through
the root, the width and the write flag. -/
theorem local_gva2gpa_pae_user_congr (p : Platform) (vcpu : acrn_vcpu) (m : Mem)
    (pw1 pw2 : page_walk_info) (gva gpa ec : Nat)
    (ht : pw1.top_entry = pw2.top_entry)
    (hw : pw1.width = pw2.width) (hwr : pw1.is_write_access = pw2.is_write_access)
    (hu1 : pw1.is_user_mode_access = true) (hu2 : pw2.is_user_mode_access = true) :
    local_gva2gpa_pae p vcpu m pw1 gva gpa ec
      = local_gva2gpa_pae p vcpu m pw2 gva gpa ec := by
  simp only [local_gva2gpa_pae, ht]
  split_ifs
  · exact local_gva2gpa_common_user_congr p vcpu m _ _ gva gpa ec rfl rfl hw hwr hu1 hu2
  · rfl
  · rfl

/-- Two 32-bit flags or-ed one after the other into a 32-bit word are both set in the
result. -/
theorem flags_set (x P US : Nat) (hP : P < 2 ^ 32) (hUS : US < 2 ^ 32) :
    u32 (u32 (x ||| P) ||| US) &&& P = P ∧ u32 (u32 (x ||| P) ||| US) &&& US = US := by
  have hbit : ∀ (y i : Nat), y < 2 ^ 32 → y.testBit i = true → i < 32 := by
    intro y i hy hi
    by_contra hge
    have h1 : 2 ^ 32 ≤ 2 ^ i := Nat.pow_le_pow_right (by decide) (by omega)
    have h2 : y.testBit i = false := Nat.testBit_lt_two_pow (by omega)
    rw [h2] at hi
    exact Bool.noConfusion hi
  constructor
  · apply Nat.eq_of_testBit_eq
    intro i
    simp only [u32, Nat.testBit_and, Nat.testBit_or, Nat.testBit_mod_two_pow]
    cases hPi : P.testBit i
    · simp
    · have := hbit P i hP hPi
      simp [this]
  · apply Nat.eq_of_testBit_eq
    intro i
    simp only [u32, Nat.testBit_and, Nat.testBit_or, Nat.testBit_mod_two_pow]
    cases hUi : US.testBit i
    · simp
    · have := hbit US i hUS hUi
      simp [this]

/-! ## Lemmas on the chunked copy -/

theorem local_copy_offset (gpa k : Nat) (hk : k < 32) :
    u32 gpa &&& u32 (2 ^ k + (2 ^ 32 - 1)) = gpa % 2 ^ k := by
  have h1 : (1 : Nat) ≤ 2 ^ k := Nat.one_le_two_pow
  have h2 : 2 ^ k < 2 ^ 32 := Nat.pow_lt_pow_right (by decide) hk
  have h3 : u32 (2 ^ k + (2 ^ 32 - 1)) = 2 ^ k - 1 := by
    unfold u32
    have : 2 ^ k + (2 ^ 32 - 1) = (2 ^ k - 1) + 2 ^ 32 := by omega
    rw [this, Nat.add_mod_right, Nat.mod_eq_of_lt (by omega)]
  rw [h3, Nat.and_pow_two_sub_one_eq_mod]
  unfold u32
  exact Nat.mod_mod_of_dvd gpa (Nat.pow_dvd_pow 2 (Nat.le_of_lt hk))

/-- With an effective page size `2 ^ k` the chunk length is the smaller of `size` and
the distance from `gpa` to the end of its page. -/
theorem local_copy_len_eq (gpa size fix pg k : Nat) (hk : k < 32)
    (hpg : (if fix ≠ 0 then fix else pg) = 2 ^ k) :
    local_copy_len gpa size fix pg = min size (2 ^ k - gpa % 2 ^ k) := by
  have h1 : (1 : Nat) ≤ 2 ^ k := Nat.one_le_two_pow
  have h2 : 2 ^ k < 2 ^ 32 := Nat.pow_lt_pow_right (by decide) hk
  have h4 : gpa % 2 ^ k < 2 ^ k := Nat.mod_lt _ (by omega)
  simp only [local_copy_len, hpg, local_copy_offset gpa k hk]
  have h5 : u32 (2 ^ k + (2 ^ 32 - gpa % 2 ^ k)) = 2 ^ k - gpa % 2 ^ k := by
    unfold u32
    have : 2 ^ k + (2 ^ 32 - gpa % 2 ^ k) = (2 ^ k - gpa % 2 ^ k) + 2 ^ 32 := by omega
    rw [this, Nat.add_mod_right, Nat.mod_eq_of_lt (by omega)]
  rw [h5]
  split <;> omega

/-- A resolved chunk of a non-empty copy has between 1 and `size` bytes. -/
theorem local_copy_len_bounds (vm : acrn_vm) (hvm : pages_ok vm) (gpa size hpa pg : Nat)
    (hs : 0 < size) (hl : vm.local_gpa2hpa gpa = some (hpa, pg)) :
    1 ≤ local_copy_len gpa size 0 pg ∧ local_copy_len gpa size 0 pg ≤ size := by
  obtain ⟨k, hk, rfl⟩ := hvm gpa hpa pg hl
  rw [local_copy_len_eq gpa size 0 (2 ^ k) k hk (by simp)]
  have h1 : (1 : Nat) ≤ 2 ^ k := Nat.one_le_two_pow
  have h4 : gpa % 2 ^ k < 2 ^ k := Nat.mod_lt _ (by omega)
  omega

/-- The loop of `copy_gpa` with enough fuel: it ends, returns 0 when no chunk start
failed to resolve and `-EINVAL` otherwise, and has copied exactly the chunks listed by
`copy_gpa_chunks`. -/
theorem copy_gpa_loop_eq (p : Platform) (vm : acrn_vm) (hvm : pages_ok vm) (cp : Bool) :
    ∀ (fuel : Nat) (m : Mem) (h_ptr gpa size : Nat), size ≤ fuel → size < 2 ^ 32 →
      copy_gpa_loop p vm cp fuel m h_ptr gpa size
        = some (if copy_gpa_stop vm fuel gpa size = none then 0 else -(p.EINVAL : Int),
            apply_chunks cp m h_ptr (copy_gpa_chunks p vm fuel gpa size)) := by
  intro fuel
  induction fuel with
  | zero =>
    intro m h_ptr gpa size hs _
    have : size = 0 := by omega
    subst this
    simp [copy_gpa_loop, copy_gpa_stop, copy_gpa_chunks, apply_chunks]
  | succ fuel ih =>
    intro m h_ptr gpa size hs hlt
    by_cases h0 : size = 0
    · subst h0
      simp [copy_gpa_loop, copy_gpa_stop, copy_gpa_chunks, apply_chunks]
    · rw [copy_gpa_loop, copy_gpa_stop, copy_gpa_chunks]
      simp only [h0, if_false]
      cases hl : vm.local_gpa2hpa gpa with
      | none => simp [local_copy_gpa, hl, apply_chunks]
      | some r =>
        obtain ⟨hpa, pg⟩ := r
        obtain ⟨hb1, hb2⟩ := local_copy_len_bounds vm hvm gpa size hpa pg (by omega) hl
        have hne : local_copy_len gpa size 0 pg ≠ 0 := by omega
        have hsz : u32 (size + (2 ^ 32 - local_copy_len gpa size 0 pg))
            = size - local_copy_len gpa size 0 pg := by
          unfold u32
          have : size + (2 ^ 32 - local_copy_len gpa size 0 pg)
              = (size - local_copy_len gpa size 0 pg) + 2 ^ 32 := by omega
          rw [this, Nat.add_mod_right, Nat.mod_eq_of_lt (by omega)]
        have hrec := ih
          (if cp then memcpy m h_ptr (p.hpa2hva hpa) (local_copy_len gpa size 0 pg)
            else memcpy m (p.hpa2hva hpa) h_ptr (local_copy_len gpa size 0 pg))
          (h_ptr + local_copy_len gpa size 0 pg) (u64 (gpa + local_copy_len gpa size 0 pg))
          (size - local_copy_len gpa size 0 pg) (by omega) (by omega)
        rw [← hsz] at hrec
        cases cp <;> simp [local_copy_gpa, hl, hne, apply_chunks] at hrec ⊢ <;> exact hrec

theorem u64_add_u64 (a b c : Nat) : u64 (u64 (a + b) + c) = u64 (a + (b + c)) := by
  unfold u64
  omega

/-- The chunks listed for a copy: every chunk start resolves, the lengths add up to at
most `size`, to exactly `size` when the loop does not give up, and the chunk start at
which it gives up does not resolve and lies right after the listed chunks. -/
theorem copy_gpa_chunks_props (p : Platform) (vm : acrn_vm) (hvm : pages_ok vm) :
    ∀ (fuel gpa size : Nat), size ≤ fuel → size < 2 ^ 32 → gpa < 2 ^ 64 →
      (∀ c ∈ copy_gpa_chunks p vm fuel gpa size,
          (vm.local_gpa2hpa c.gpa).isSome = true ∧ 1 ≤ c.len)
        ∧ chunks_total (copy_gpa_chunks p vm fuel gpa size) ≤ size
        ∧ (copy_gpa_stop vm fuel gpa size = none →
            chunks_total (copy_gpa_chunks p vm fuel gpa size) = size)
        ∧ (∀ c, copy_gpa_stop vm fuel gpa size = some c →
            vm.local_gpa2hpa c = none
              ∧ c = u64 (gpa + chunks_total (copy_gpa_chunks p vm fuel gpa size))
              ∧ chunks_total (copy_gpa_chunks p vm fuel gpa size) < size) := by
  intro fuel
  induction fuel with
  | zero =>
    intro gpa size hs _ _
    have : size = 0 := by omega
    subst this
    simp [copy_gpa_stop, copy_gpa_chunks, chunks_total]
  | succ fuel ih =>
    intro gpa size hs hlt hg
    by_cases h0 : size = 0
    · subst h0
      simp [copy_gpa_stop, copy_gpa_chunks, chunks_total]
    · rw [copy_gpa_stop, copy_gpa_chunks]
      simp only [h0, if_false]
      cases hl : vm.local_gpa2hpa gpa with
      | none =>
        simp only [List.not_mem_nil, false_implies, implies_true, chunks_total, Nat.zero_le,
          reduceCtorEq, Option.some.injEq, true_and, Nat.add_zero]
        intro c hc
        subst hc
        exact ⟨hl, (Nat.mod_eq_of_lt hg).symm, by omega⟩
      | some r =>
        obtain ⟨hpa, pg⟩ := r
        obtain ⟨hb1, hb2⟩ := local_copy_len_bounds vm hvm gpa size hpa pg (by omega) hl
        have hne : local_copy_len gpa size 0 pg ≠ 0 := by omega
        have hsz : u32 (size + (2 ^ 32 - local_copy_len gpa size 0 pg))
            = size - local_copy_len gpa size 0 pg := by
          unfold u32
          have : size + (2 ^ 32 - local_copy_len gpa size 0 pg)
              = (size - local_copy_len gpa size 0 pg) + 2 ^ 32 := by omega
          rw [this, Nat.add_mod_right, Nat.mod_eq_of_lt (by omega)]
        obtain ⟨i1, i2, i3, i4⟩ := ih (u64 (gpa + local_copy_len gpa size 0 pg))
          (size - local_copy_len gpa size 0 pg) (by omega) (by omega)
          (Nat.mod_lt _ (by decide))
        simp only [hne, if_false, hsz, chunks_total, List.mem_cons]
        refine ⟨?_, by omega, fun h => by have := i3 h; omega, ?_⟩
        · rintro c (rfl | hc)
          · exact ⟨by simp [hl], hb1⟩
          · exact i1 c hc
        · intro c hc
          obtain ⟨j1, j2, j3⟩ := i4 c hc
          refine ⟨j1, ?_, by omega⟩
          rw [j2, u64_add_u64]

/-- Copying from the guest writes only the host buffer, up to the bytes copied. -/
theorem apply_chunks_from_frame : ∀ (cs : List Chunk) (m : Mem) (h_ptr a : Nat),
    ¬ (h_ptr ≤ a ∧ a < h_ptr + chunks_total cs) →
      apply_chunks true m h_ptr cs a = m a := by
  intro cs
  induction cs with
  | nil => intro m h_ptr a _; rfl
  | cons c cs ih =>
    intro m h_ptr a ha
    simp only [chunks_total] at ha
    rw [apply_chunks, ih _ _ _ (by omega)]
    simp only [if_true, memcpy]
    rw [if_neg (by omega)]

/-- Copying to the guest writes only the guest side of the chunks. -/
theorem apply_chunks_to_frame : ∀ (cs : List Chunk) (m : Mem) (h_ptr a : Nat),
    (∀ t, t < chunks_total cs → chunks_hva cs t ≠ a) →
      apply_chunks false m h_ptr cs a = m a := by
  intro cs
  induction cs with
  | nil => intro m h_ptr a _; rfl
  | cons c cs ih =>
    intro m h_ptr a ha
    simp only [chunks_total] at ha
    have hrest : ∀ t, t < chunks_total cs → chunks_hva cs t ≠ a := by
      intro t ht
      have := ha (c.len + t) (by omega)
      simp only [chunks_hva] at this
      rw [if_neg (by omega), Nat.add_sub_cancel_left] at this
      exact this
    have hout : ¬ (c.g_ptr ≤ a ∧ a < c.g_ptr + c.len) := by
      intro hin
      have := ha (a - c.g_ptr) (by omega)
      simp only [chunks_hva] at this
      rw [if_pos (by omega)] at this
      omega
    rw [apply_chunks, ih _ _ _ hrest]
    simp only [Bool.false_eq_true, if_false, memcpy]
    rw [if_neg hout]

/-- After copying from the guest, byte `t` of the host buffer holds what the guest side
of byte `t` held, when no guest-side byte lies in the host buffer. -/
theorem apply_chunks_from_bytes : ∀ (cs : List Chunk) (m : Mem) (h_ptr : Nat),
    (∀ t, t < chunks_total cs →
      ¬ (h_ptr ≤ chunks_hva cs t ∧ chunks_hva cs t < h_ptr + chunks_total cs)) →
    ∀ t, t < chunks_total cs →
      apply_chunks true m h_ptr cs (h_ptr + t) = m (chunks_hva cs t) := by
  intro cs
  induction cs with
  | nil => intro m h_ptr _ t ht; simp [chunks_total] at ht
  | cons c cs ih =>
    intro m h_ptr hsep t ht
    simp only [chunks_total] at hsep ht
    rw [apply_chunks]
    simp only [if_true]
    by_cases hlt : t < c.len
    · rw [apply_chunks_from_frame cs _ _ _ (by omega)]
      simp only [chunks_hva, memcpy, if_pos hlt]
      rw [if_pos (by omega), Nat.add_sub_cancel_left]
    · have hrest : ∀ u, u < chunks_total cs →
          ¬ (h_ptr + c.len ≤ chunks_hva cs u
              ∧ chunks_hva cs u < h_ptr + c.len + chunks_total cs) := by
        intro u hu
        have := hsep (c.len + u) (by omega)
        simp only [chunks_hva] at this
        rw [if_neg (by omega), Nat.add_sub_cancel_left] at this
        omega
      have hstep := ih (memcpy m h_ptr c.g_ptr c.len) (h_ptr + c.len) hrest (t - c.len)
        (by omega)
      have ht' : h_ptr + c.len + (t - c.len) = h_ptr + t := by omega
      rw [ht'] at hstep
      rw [hstep]
      simp only [chunks_hva, if_neg hlt, memcpy]
      have := hsep t ht
      simp only [chunks_hva, if_neg hlt] at this
      rw [if_neg (by omega)]

/-- After copying to the guest, the guest side of byte `t` holds byte `t` of the host
buffer, when the guest-side bytes are pairwise distinct and none lies in the host
buffer. -/
theorem apply_chunks_to_bytes : ∀ (cs : List Chunk) (m : Mem) (h_ptr : Nat),
    (∀ t, t < chunks_total cs →
      ¬ (h_ptr ≤ chunks_hva cs t ∧ chunks_hva cs t < h_ptr + chunks_total cs)) →
    (∀ t u, t < chunks_total cs → u < chunks_total cs →
      chunks_hva cs t = chunks_hva cs u → t = u) →
    ∀ t, t < chunks_total cs →
      apply_chunks false m h_ptr cs (chunks_hva cs t) = m (h_ptr + t) := by
  intro cs
  induction cs with
  | nil => intro m h_ptr _ _ t ht; simp [chunks_total] at ht
  | cons c cs ih =>
    intro m h_ptr hsep hinj t ht
    simp only [chunks_total] at hsep hinj ht
    rw [apply_chunks]
    simp only [Bool.false_eq_true, if_false]
    have hhead : ∀ u, u < c.len → chunks_hva (c :: cs) u = c.g_ptr + u := by
      intro u hu
      simp only [chunks_hva, if_pos hu]
    have htail : ∀ u, u < chunks_total cs →
        chunks_hva (c :: cs) (c.len + u) = chunks_hva cs u := by
      intro u hu
      simp only [chunks_hva]
      rw [if_neg (by omega), Nat.add_sub_cancel_left]
    by_cases hlt : t < c.len
    · rw [hhead t hlt]
      have hfr : ∀ u, u < chunks_total cs → chunks_hva cs u ≠ c.g_ptr + t := by
        intro u hu heq
        have := hinj (c.len + u) t (by omega) (by omega) (by rw [htail u hu, hhead t hlt, heq])
        omega
      rw [apply_chunks_to_frame cs _ _ _ hfr]
      simp only [memcpy]
      rw [if_pos (by omega), Nat.add_sub_cancel_left]
    · obtain ⟨u, rfl⟩ : ∃ u, t = c.len + u := ⟨t - c.len, by omega⟩
      have hu : u < chunks_total cs := by omega
      rw [htail u hu]
      have hsep' : ∀ v, v < chunks_total cs →
          ¬ (h_ptr + c.len ≤ chunks_hva cs v
              ∧ chunks_hva cs v < h_ptr + c.len + chunks_total cs) := by
        intro v hv
        have := hsep (c.len + v) (by omega)
        rw [htail v hv] at this
        omega
      have hinj' : ∀ v w, v < chunks_total cs → w < chunks_total cs →
          chunks_hva cs v = chunks_hva cs w → v = w := by
        intro v w hv hw heq
        have := hinj (c.len + v) (c.len + w) (by omega) (by omega)
          (by rw [htail v hv, htail w hw, heq])
        omega
      rw [ih (memcpy m c.g_ptr h_ptr c.len) (h_ptr + c.len) hsep' hinj' u hu]
      simp only [memcpy]
      have hnot : ¬ (c.g_ptr ≤ h_ptr + c.len + u ∧ h_ptr + c.len + u < c.g_ptr + c.len) := by
        intro hin
        have := hsep (h_ptr + c.len + u - c.g_ptr) (by omega)
        rw [hhead _ (by omega)] at this
        omega
      rw [if_neg hnot, Nat.add_assoc]

/-- The identity second stage has 4 KiB pages. -/
theorem pages_ok_idVm : pages_ok idVm := by
  intro gpa hpa pg h
  simp only [idVm, Option.some.injEq, Prod.mk.injEq] at h
  exact ⟨12, by decide, h.2.symm⟩

/-- The second stage with a hole has 4 KiB pages. -/
theorem pages_ok_holeVm : pages_ok holeVm := by
  intro gpa hpa pg h
  simp only [holeVm] at h
  split at h
  · simp only [Option.some.injEq, Prod.mk.injEq] at h
    exact ⟨12, by decide, h.2.symm⟩
  · exact absurd h (by simp)

/-- An iteration of `copy_gva` whose walk succeeds with a resolving address, in a range
that goes beyond the page of `gva`: it copies up to the end of that page and goes on. -/
theorem copy_gva_body_ok (p : Platform) (vcpu : acrn_vcpu) (stack : page_walk_info)
    (cp : Bool) (s : CopyGvaState) (hE : p.EFAULT ≠ 0)
    (h0 : (gva2gpa p vcpu s.m stack s.gva (some s.gpa) (some s.err_code)).1 = 0)
    (hres : ∃ gpa, (gva2gpa p vcpu s.m stack s.gva (some s.gpa) (some s.err_code)).2.1
        = some gpa ∧ (vcpu.vm.local_gpa2hpa gpa).isSome = true)
    (hsz : 4096 - s.gva % 4096 < s.size) (hlt : s.size < 2 ^ 32) :
    (copy_gva_body p vcpu stack cp s).ret = 0
      ∧ (copy_gva_body p vcpu stack cp s).gva = u64 (s.gva + (4096 - s.gva % 4096))
      ∧ (copy_gva_body p vcpu stack cp s).size = s.size - (4096 - s.gva % 4096)
      ∧ (copy_gva_body p vcpu stack cp s).fault_addr = s.fault_addr := by
  obtain ⟨gpa, hg, hsome⟩ := hres
  obtain ⟨gpa2, hg2, hlow⟩ := gva2gpa_low_bits p vcpu s.m stack s.gva s.gpa s.err_code hE h0
  rw [hg] at hg2
  obtain rfl : gpa = gpa2 := Option.some.inj hg2
  obtain ⟨⟨hpa, pg⟩, hl⟩ := Option.isSome_iff_exists.1 hsome
  have hlen : local_copy_len gpa s.size 4096 pg = 4096 - s.gva % 4096 := by
    rw [local_copy_len_eq gpa s.size 4096 pg 12 (by decide) (by simp)]
    have h1 : s.gva % 4096 < 4096 := Nat.mod_lt _ (by decide)
    have h2 : (2 : Nat) ^ 12 = 4096 := by decide
    rw [h2, hlow]
    omega
  have hmod : s.gva % 4096 < 4096 := Nat.mod_lt _ (by decide)
  have hne : ¬ (4096 - s.gva % 4096 = 0) := by omega
  have hsize : u32 (s.size + (4294967296 - (4096 - s.gva % 4096)))
      = s.size - (4096 - s.gva % 4096) := by
    unfold u32
    omega
  simp only [copy_gva_body, h0, hg, Option.getD_some, le_refl, if_true, local_copy_gpa, hl,
    PAGE_SIZE_4K, hlen]
  cases cp <;> simp [hne, hsize]

/-- An iteration of `copy_gva` whose walk fails records the gva and the error. -/
theorem copy_gva_body_fail (p : Platform) (vcpu : acrn_vcpu) (stack : page_walk_info)
    (cp : Bool) (s : CopyGvaState)
    (h : (gva2gpa p vcpu s.m stack s.gva (some s.gpa) (some s.err_code)).1 < 0) :
    (copy_gva_body p vcpu stack cp s).ret
        = (gva2gpa p vcpu s.m stack s.gva (some s.gpa) (some s.err_code)).1
      ∧ (copy_gva_body p vcpu stack cp s).fault_addr = s.gva := by
  have hn : ¬ (0 ≤ (gva2gpa p vcpu s.m stack s.gva (some s.gpa) (some s.err_code)).1) := by
    omega
  simp [copy_gva_body, hn]

/-- The loop of `copy_gva` ends when its condition fails. -/
theorem copy_gva_loop_done (p : Platform) (vcpu : acrn_vcpu) (stack : page_walk_info)
    (cp : Bool) (fuel : Nat) (s : CopyGvaState) (h : ¬ (s.size > 0 ∧ s.ret = 0)) :
    copy_gva_loop p vcpu stack cp fuel s = some s := by
  cases fuel <;> rw [copy_gva_loop, if_neg h]

/-- The loop of `copy_gva` runs its body when its condition holds. -/
theorem copy_gva_loop_step (p : Platform) (vcpu : acrn_vcpu) (stack : page_walk_info)
    (cp : Bool) (fuel : Nat) (s : CopyGvaState) (h : s.size > 0 ∧ s.ret = 0) :
    copy_gva_loop p vcpu stack cp (fuel + 1) s
      = copy_gva_loop p vcpu stack cp fuel (copy_gva_body p vcpu stack cp s) := by
  rw [copy_gva_loop, if_pos h]

/-- The loop of `copy_gva` from a state in which the next `k` walks succeed and the one
after them fails, the range reaching into the chunk of the failing walk: it ends with
`-EFAULT` and the fault address is the start of that chunk. -/
theorem copy_gva_loop_fault (p : Platform) (vcpu : acrn_vcpu) (stack : page_walk_info)
    (cp : Bool) (hE : p.EFAULT ≠ 0) (hcp : cp = true) :
    ∀ (k fuel : Nat) (s : CopyGvaState), s.ret = 0 → s.size < 2 ^ 32 → s.size ≤ fuel →
      s.gva < 2 ^ 64 →
      (if k = 0 then 0 else (4096 - s.gva % 4096) + (k - 1) * 4096) < s.size →
      walks_ok_then_fail p vcpu stack k s →
      ∃ s1, copy_gva_loop p vcpu stack cp fuel s = some s1
        ∧ s1.ret = -(p.EFAULT : Int)
        ∧ s1.fault_addr = u64 (if k = 0 then s.gva else (s.gva / 4096 + k) * 4096) := by
  subst hcp
  intro k
  induction k with
  | zero =>
    intro fuel s hret hlt hfuel hgva hspan hw
    simp only [if_true] at hspan
    simp only [walks_ok_then_fail] at hw
    obtain ⟨f, rfl⟩ : ∃ f, fuel = f + 1 := ⟨fuel - 1, by omega⟩
    obtain ⟨b1, b2⟩ := copy_gva_body_fail p vcpu stack true s hw
    have hr : (copy_gva_body p vcpu stack true s).ret = -(p.EFAULT : Int) := by
      rw [b1]
      rcases gva2gpa_ret_some p vcpu s.m stack s.gva s.gpa s.err_code with h | h
      · omega
      · exact h
    have hne : ¬ ((copy_gva_body p vcpu stack true s).size > 0
        ∧ (copy_gva_body p vcpu stack true s).ret = 0) := by
      rw [b1]
      omega
    refine ⟨copy_gva_body p vcpu stack true s, ?_, hr, ?_⟩
    · rw [copy_gva_loop_step _ _ _ _ _ _ ⟨hspan, hret⟩, copy_gva_loop_done _ _ _ _ _ _ hne]
    · rw [b2]
      simp only [if_true]
      exact (Nat.mod_eq_of_lt hgva).symm
  | succ k ih =>
    intro fuel s hret hlt hfuel hgva hspan hw
    simp only [Nat.succ_ne_zero, if_false, Nat.add_sub_cancel] at hspan
    simp only [walks_ok_then_fail] at hw
    obtain ⟨hw0, hwres, hwrest⟩ := hw
    obtain ⟨f, rfl⟩ : ∃ f, fuel = f + 1 := ⟨fuel - 1, by omega⟩
    have hmod : s.gva % 4096 < 4096 := Nat.mod_lt _ (by decide)
    obtain ⟨b1, b2, b3, b4⟩ := copy_gva_body_ok p vcpu stack true s hE hw0 hwres (by omega) hlt
    have hspan1 : (if k = 0 then 0
        else (4096 - (copy_gva_body p vcpu stack true s).gva % 4096) + (k - 1) * 4096)
          < (copy_gva_body p vcpu stack true s).size := by
      rw [b2, b3]
      unfold u64
      split
      · omega
      · omega
    obtain ⟨s1, e1, e2, e3⟩ := ih f (copy_gva_body p vcpu stack true s) b1
      (by rw [b3]; omega) (by rw [b3]; omega)
      (by rw [b2]; exact Nat.mod_lt _ (by decide)) hspan1 hwrest
    refine ⟨s1, ?_, e2, ?_⟩
    · rw [copy_gva_loop_step _ _ _ _ _ _ ⟨by omega, hret⟩, e1]
    · rw [e3, b2]
      simp only [Nat.succ_ne_zero, if_false]
      unfold u64
      split
      · omega
      · omega

/-- The chunk length never exceeds the remaining size, whatever the page size. -/
theorem local_copy_len_le (gpa size fix pg : Nat) :
    local_copy_len gpa size fix pg ≤ size := by
  simp only [local_copy_len]
  split_ifs <;> omega

/-- The length returned by `local_copy_gpa` never exceeds the remaining size. -/
theorem local_copy_gpa_le (p : Platform) (vm : acrn_vm) (m : Mem)
    (h_ptr gpa size fix : Nat) (cp : Bool) :
    (local_copy_gpa p vm m h_ptr gpa size fix cp).1 ≤ size := by
  simp only [local_copy_gpa]
  cases hl : vm.local_gpa2hpa gpa with
  | none => exact Nat.zero_le _
  | some r =>
    obtain ⟨hpa, pg⟩ := r
    cases cp <;> exact local_copy_len_le gpa size fix pg

/-- The `uint32_t` subtraction `size - len` does not wrap when `len ≤ size`. -/
theorem u32_sub_le (size len : Nat) (hl : len ≤ size) (hs : size < 2 ^ 32) :
    u32 (size + (2 ^ 32 - len)) = size - len := by
  unfold u32
  omega

/-- The loop of `copy_gpa` ends within `size` iterations, whatever the second stage. -/
theorem copy_gpa_loop_total (p : Platform) (vm : acrn_vm) (cp : Bool) :
    ∀ (fuel : Nat) (m : Mem) (h_ptr gpa size : Nat), size ≤ fuel → size < 2 ^ 32 →
      ∃ r, copy_gpa_loop p vm cp fuel m h_ptr gpa size = some r := by
  intro fuel
  induction fuel with
  | zero =>
    intro m h_ptr gpa size hs _
    have : size = 0 := by omega
    subst this
    exact ⟨(0, m), by simp [copy_gpa_loop]⟩
  | succ fuel ih =>
    intro m h_ptr gpa size hs hlt
    by_cases h0 : size = 0
    · subst h0
      exact ⟨(0, m), by simp [copy_gpa_loop]⟩
    · rw [copy_gpa_loop]
      simp only [h0, if_false]
      have hle := local_copy_gpa_le p vm m h_ptr gpa size 0 cp
      by_cases hz : (local_copy_gpa p vm m h_ptr gpa size 0 cp).1 = 0
      · simp only [hz, if_true]
        exact ⟨_, rfl⟩
      · simp only [hz, if_false]
        rw [u32_sub_le size _ hle hlt]
        exact ih _ _ _ _ (by omega) (by omega)

/-- An iteration of `copy_gva` entered with bytes to go either leaves a non-zero `ret`
or takes between 1 and `size` bytes off the remaining size. -/
theorem copy_gva_body_progress (p : Platform) (vcpu : acrn_vcpu) (stack : page_walk_info)
    (cp : Bool) (s : CopyGvaState) (hE : p.EINVAL ≠ 0) (hlt : s.size < 2 ^ 32) :
    (copy_gva_body p vcpu stack cp s).ret ≠ 0
      ∨ ((copy_gva_body p vcpu stack cp s).ret = 0
          ∧ ∃ len, 1 ≤ len ∧ len ≤ s.size
              ∧ (copy_gva_body p vcpu stack cp s).size = s.size - len) := by
  have hle := local_copy_gpa_le p vcpu.vm s.m s.h_ptr
    ((gva2gpa p vcpu s.m stack s.gva (some s.gpa) (some s.err_code)).2.1.getD s.gpa)
    s.size PAGE_SIZE_4K cp
  simp only [copy_gva_body]
  by_cases hr : 0 ≤ (gva2gpa p vcpu s.m stack s.gva (some s.gpa) (some s.err_code)).1
  · simp only [hr, if_true]
    by_cases hc : (local_copy_gpa p vcpu.vm s.m s.h_ptr
        ((gva2gpa p vcpu s.m stack s.gva (some s.gpa) (some s.err_code)).2.1.getD s.gpa)
        s.size PAGE_SIZE_4K cp).1 ≠ 0
    · simp only [if_pos hc]
      by_cases h0 : (gva2gpa p vcpu s.m stack s.gva (some s.gpa) (some s.err_code)).1 = 0
      · exact Or.inr ⟨h0, _, by omega, hle, u32_sub_le _ _ hle hlt⟩
      · exact Or.inl h0
    · simp only [if_neg hc]
      left
      show -(p.EINVAL : Int) ≠ 0
      omega
  · simp only [hr, if_false]
    left
    show (gva2gpa p vcpu s.m stack s.gva (some s.gpa) (some s.err_code)).1 ≠ 0
    omega

/-- The loop of `copy_gva` ends within `size` iterations, whatever the walks and the
second stage. -/
theorem copy_gva_loop_total (p : Platform) (vcpu : acrn_vcpu) (stack : page_walk_info)
    (cp : Bool) (hE : p.EINVAL ≠ 0) :
    ∀ (fuel : Nat) (s : CopyGvaState), s.size ≤ fuel → s.size < 2 ^ 32 →
      ∃ s1, copy_gva_loop p vcpu stack cp fuel s = some s1 := by
  intro fuel
  induction fuel with
  | zero =>
    intro s hs _
    exact ⟨s, copy_gva_loop_done p vcpu stack cp 0 s (by omega)⟩
  | succ fuel ih =>
    intro s hs hlt
    by_cases hc : s.size > 0 ∧ s.ret = 0
    · rw [copy_gva_loop_step p vcpu stack cp fuel s hc]
      rcases copy_gva_body_progress p vcpu stack cp s hE hlt with h | ⟨-, len, h1, h2, h3⟩
      · exact ⟨_, copy_gva_loop_done p vcpu stack cp fuel _ (fun hh => h hh.2)⟩
      · exact ih _ (by omega) (by omega)
    · exact ⟨s, copy_gva_loop_done p vcpu stack cp (fuel + 1) s hc⟩

/-- An iteration of `copy_gva` whose walk does not fail leaves `*fault_addr` alone. -/
theorem copy_gva_body_keeps_fault_addr (p : Platform) (vcpu : acrn_vcpu)
    (stack : page_walk_info) (cp : Bool) (s : CopyGvaState)
    (h : 0 ≤ (gva2gpa p vcpu s.m stack s.gva (some s.gpa) (some s.err_code)).1) :
    (copy_gva_body p vcpu stack cp s).fault_addr = s.fault_addr := by
  simp only [copy_gva_body, h, if_true]
  split <;> rfl

/-- An iteration of `copy_gva` whose walk does not fail but whose address does not
resolve at the second stage: `ret` becomes `-EINVAL`, nothing is copied and
`*fault_addr` is left alone. -/
theorem copy_gva_body_unresolved (p : Platform) (vcpu : acrn_vcpu)
    (stack : page_walk_info) (cp : Bool) (s : CopyGvaState)
    (h : 0 ≤ (gva2gpa p vcpu s.m stack s.gva (some s.gpa) (some s.err_code)).1)
    (hu : vcpu.vm.local_gpa2hpa
      ((gva2gpa p vcpu s.m stack s.gva (some s.gpa) (some s.err_code)).2.1.getD s.gpa)
        = none) :
    (copy_gva_body p vcpu stack cp s).ret = -(p.EINVAL : Int)
      ∧ (copy_gva_body p vcpu stack cp s).fault_addr = s.fault_addr
      ∧ (copy_gva_body p vcpu stack cp s).m = s.m
      ∧ (copy_gva_body p vcpu stack cp s).size = s.size
      ∧ (copy_gva_body p vcpu stack cp s).gpa
          = (gva2gpa p vcpu s.m stack s.gva (some s.gpa) (some s.err_code)).2.1.getD
              s.gpa := by
  simp [copy_gva_body, h, local_copy_gpa, hu]

/-- With bytes to go, the fixed 4 KiB page size makes `local_copy_gpa` return 0 only
for an address that does not resolve. -/
theorem local_copy_gpa_4k_zero (p : Platform) (vm : acrn_vm) (m : Mem)
    (h_ptr gpa size : Nat) (cp : Bool) (hs : 0 < size)
    (hz : (local_copy_gpa p vm m h_ptr gpa size PAGE_SIZE_4K cp).1 = 0) :
    vm.local_gpa2hpa gpa = none := by
  cases hl : vm.local_gpa2hpa gpa with
  | none => rfl
  | some r =>
    obtain ⟨hpa, pg⟩ := r
    have hlen := local_copy_len_eq gpa size PAGE_SIZE_4K pg 12 (by decide)
      (by simp [PAGE_SIZE_4K])
    have hmod : gpa % 2 ^ 12 < 2 ^ 12 := Nat.mod_lt _ (by decide)
    have hpos : 1 ≤ local_copy_len gpa size PAGE_SIZE_4K pg := by
      rw [hlen]
      omega
    simp only [local_copy_gpa, hl] at hz
    cases cp <;> simp at hz <;> omega

/-- No walk fails in a loop that does not run. -/
theorem copy_gva_failed_walk_done (p : Platform) (vcpu : acrn_vcpu)
    (stack : page_walk_info) (cp : Bool) (fuel : Nat) (s : CopyGvaState)
    (h : ¬ (s.size > 0 ∧ s.ret = 0)) :
    copy_gva_failed_walk p vcpu stack cp fuel s = none := by
  cases fuel <;> rw [copy_gva_failed_walk, if_neg h]

/-- The first failing walk of a loop that runs is the walk of its first iteration or
the first failing walk of the rest. -/
theorem copy_gva_failed_walk_step (p : Platform) (vcpu : acrn_vcpu)
    (stack : page_walk_info) (cp : Bool) (fuel : Nat) (s : CopyGvaState)
    (h : s.size > 0 ∧ s.ret = 0) :
    copy_gva_failed_walk p vcpu stack cp (fuel + 1) s
      = if (gva2gpa p vcpu s.m stack s.gva (some s.gpa) (some s.err_code)).1 < 0 then some s
        else copy_gva_failed_walk p vcpu stack cp fuel (copy_gva_body p vcpu stack cp s) := by
  rw [copy_gva_failed_walk, if_pos h]

/-- An iteration of `copy_gva` whose walk does not fail and whose chunk is copied keeps
the return value of the walk and takes the chunk length off the remaining size. -/
theorem copy_gva_body_copied (p : Platform) (vcpu : acrn_vcpu)
    (stack : page_walk_info) (cp : Bool) (s : CopyGvaState)
    (h : 0 ≤ (gva2gpa p vcpu s.m stack s.gva (some s.gpa) (some s.err_code)).1)
    (hc : (local_copy_gpa p vcpu.vm s.m s.h_ptr
        ((gva2gpa p vcpu s.m stack s.gva (some s.gpa) (some s.err_code)).2.1.getD s.gpa)
        s.size PAGE_SIZE_4K cp).1 ≠ 0) :
    (copy_gva_body p vcpu stack cp s).ret
        = (gva2gpa p vcpu s.m stack s.gva (some s.gpa) (some s.err_code)).1
      ∧ (copy_gva_body p vcpu stack cp s).size
        = u32 (s.size + (2 ^ 32 - (local_copy_gpa p vcpu.vm s.m s.h_ptr
            ((gva2gpa p vcpu s.m stack s.gva (some s.gpa) (some s.err_code)).2.1.getD s.gpa)
            s.size PAGE_SIZE_4K cp).1)) := by
  simp only [copy_gva_body, h, if_true, if_pos hc, and_self]

/-- The loop of `copy_gva` started with `ret = 0`: it ends; if no walk fails,
`*fault_addr` is left alone and the loop ends with everything copied or with `-EINVAL`
at an address that does not resolve; if a walk fails, `*fault_addr` is the gva of that
walk and `ret` its return value. -/
theorem copy_gva_loop_fault_addr (p : Platform) (vcpu : acrn_vcpu)
    (stack : page_walk_info) (cp : Bool) (hE : p.EINVAL ≠ 0) :
    ∀ (fuel : Nat) (s : CopyGvaState), s.size ≤ fuel → s.size < 2 ^ 32 → s.ret = 0 →
      ∃ s1, copy_gva_loop p vcpu stack cp fuel s = some s1
        ∧ (copy_gva_failed_walk p vcpu stack cp fuel s = none →
            s1.fault_addr = s.fault_addr
              ∧ ((s1.ret = 0 ∧ s1.size = 0)
                  ∨ (s1.ret = -(p.EINVAL : Int) ∧ vcpu.vm.local_gpa2hpa s1.gpa = none)))
        ∧ (∀ t, copy_gva_failed_walk p vcpu stack cp fuel s = some t →
            s1.fault_addr = t.gva
              ∧ s1.ret = (gva2gpa p vcpu t.m stack t.gva (some t.gpa) (some t.err_code)).1
              ∧ (gva2gpa p vcpu t.m stack t.gva (some t.gpa) (some t.err_code)).1 < 0) := by
  intro fuel
  induction fuel with
  | zero =>
    intro s hs _ hr
    have hn : ¬ (s.size > 0 ∧ s.ret = 0) := by omega
    refine ⟨s, copy_gva_loop_done p vcpu stack cp 0 s hn, ?_, ?_⟩
    · intro _
      exact ⟨rfl, Or.inl ⟨hr, by omega⟩⟩
    · intro t ht
      rw [copy_gva_failed_walk_done p vcpu stack cp 0 s hn] at ht
      exact Option.noConfusion ht
  | succ fuel ih =>
    intro s hs hlt hr
    by_cases hc : s.size > 0 ∧ s.ret = 0
    · rw [copy_gva_loop_step p vcpu stack cp fuel s hc,
        copy_gva_failed_walk_step p vcpu stack cp fuel s hc]
      by_cases hw : (gva2gpa p vcpu s.m stack s.gva (some s.gpa) (some s.err_code)).1 < 0
      · obtain ⟨b1, b2⟩ := copy_gva_body_fail p vcpu stack cp s hw
        have hn : ¬ ((copy_gva_body p vcpu stack cp s).size > 0
            ∧ (copy_gva_body p vcpu stack cp s).ret = 0) := by
          rw [b1]
          omega
        refine ⟨_, copy_gva_loop_done p vcpu stack cp fuel _ hn, ?_, ?_⟩
        · intro h
          rw [if_pos hw] at h
          exact Option.noConfusion h
        · intro t ht
          rw [if_pos hw] at ht
          obtain rfl : s = t := Option.some.inj ht
          exact ⟨b2, b1, hw⟩
      · have h0 : 0 ≤ (gva2gpa p vcpu s.m stack s.gva (some s.gpa) (some s.err_code)).1 := by
          omega
        have hfa := copy_gva_body_keeps_fault_addr p vcpu stack cp s h0
        rw [if_neg hw]
        by_cases hz : (local_copy_gpa p vcpu.vm s.m s.h_ptr
            ((gva2gpa p vcpu s.m stack s.gva (some s.gpa) (some s.err_code)).2.1.getD s.gpa)
            s.size PAGE_SIZE_4K cp).1 = 0
        · have hu := local_copy_gpa_4k_zero p vcpu.vm s.m s.h_ptr _ s.size cp hc.1 hz
          obtain ⟨u1, -, -, -, u5⟩ := copy_gva_body_unresolved p vcpu stack cp s h0 hu
          have hn : ¬ ((copy_gva_body p vcpu stack cp s).size > 0
              ∧ (copy_gva_body p vcpu stack cp s).ret = 0) := by
            rw [u1]
            omega
          refine ⟨_, copy_gva_loop_done p vcpu stack cp fuel _ hn, ?_, ?_⟩
          · intro _
            refine ⟨hfa, Or.inr ⟨u1, ?_⟩⟩
            rw [u5]
            exact hu
          · intro t ht
            rw [copy_gva_failed_walk_done p vcpu stack cp fuel _ hn] at ht
            exact Option.noConfusion ht
        · obtain ⟨c1, c2⟩ := copy_gva_body_copied p vcpu stack cp s h0 hz
          have hle := local_copy_gpa_le p vcpu.vm s.m s.h_ptr
            ((gva2gpa p vcpu s.m stack s.gva (some s.gpa) (some s.err_code)).2.1.getD s.gpa)
            s.size PAGE_SIZE_4K cp
          rw [u32_sub_le _ _ hle hlt] at c2
          have hret : (copy_gva_body p vcpu stack cp s).ret = 0 := by
            rw [c1]
            rcases gva2gpa_ret_some p vcpu s.m stack s.gva s.gpa s.err_code with h | h
            · exact h
            · omega
          obtain ⟨s1, e1, e2, e3⟩ := ih (copy_gva_body p vcpu stack cp s) (by omega)
            (by omega) hret
          refine ⟨s1, e1, ?_, e3⟩
          intro h
          obtain ⟨f1, f2⟩ := e2 h
          exact ⟨f1.trans hfa, f2⟩
    · refine ⟨s, copy_gva_loop_done p vcpu stack cp (fuel + 1) s hc, ?_, ?_⟩
      · intro _
        exact ⟨rfl, Or.inl ⟨hr, by omega⟩⟩
      · intro t ht
        rw [copy_gva_failed_walk_done p vcpu stack cp (fuel + 1) s hc] at ht
        exact Option.noConfusion ht

/-- A range of `len ≥ 1` bytes that fits between `gpa` and the end of its page of size
`P` ends in the page in which it starts. -/
theorem chunk_no_cross (gpa len P : Nat) (hP : 0 < P) (h1 : 1 ≤ len)
    (h2 : gpa % P + len ≤ P) : (gpa + len - 1) / P = gpa / P := by
  have h := Nat.div_add_mod gpa P
  have e : gpa + len - 1 = (gpa % P + len - 1) + P * (gpa / P) := by omega
  rw [e, Nat.add_mul_div_left _ _ hP, Nat.div_eq_of_lt (by omega), Nat.zero_add]

/-- For a resolved address `local_copy_gpa` returns the chunk length computed from the
page size reported by the second stage. -/
theorem local_copy_gpa_len (p : Platform) (vm : acrn_vm) (m : Mem)
    (h_ptr gpa size fix hpa pg : Nat) (cp : Bool)
    (hl : vm.local_gpa2hpa gpa = some (hpa, pg)) :
    (local_copy_gpa p vm m h_ptr gpa size fix cp).1 = local_copy_len gpa size fix pg := by
  cases cp <;> simp [local_copy_gpa, hl]

/-- The chunk of a non-empty copy under an effective page size `2 ^ k`: its length is
the smaller of `size` and the distance to the end of the page, it has between 1 and
`size` bytes and it ends in the page in which it starts. -/
theorem local_copy_len_chunk (gpa size fix pg k : Nat) (hk : k < 32)
    (hpg : (if fix ≠ 0 then fix else pg) = 2 ^ k) (hs : 0 < size) :
    local_copy_len gpa size fix pg = min size (2 ^ k - gpa % 2 ^ k)
      ∧ 1 ≤ local_copy_len gpa size fix pg
      ∧ local_copy_len gpa size fix pg ≤ size
      ∧ gpa % 2 ^ k + local_copy_len gpa size fix pg ≤ 2 ^ k
      ∧ (gpa + local_copy_len gpa size fix pg - 1) / 2 ^ k = gpa / 2 ^ k := by
  have hlen := local_copy_len_eq gpa size fix pg k hk hpg
  have hP : 0 < 2 ^ k := Nat.one_le_two_pow
  have hmod : gpa % 2 ^ k < 2 ^ k := Nat.mod_lt _ hP
  have h1 : 1 ≤ local_copy_len gpa size fix pg := by rw [hlen]; omega
  have h2 : local_copy_len gpa size fix pg ≤ size := by rw [hlen]; omega
  have h3 : gpa % 2 ^ k + local_copy_len gpa size fix pg ≤ 2 ^ k := by rw [hlen]; omega
  exact ⟨hlen, h1, h2, h3, chunk_no_cross gpa _ (2 ^ k) hP h1 h3⟩

/-- For a resolved address `local_copy_gpa` returns the chunk length and the memory
after a `memcpy` of that many bytes between the host buffer and the host-virtual
address of the guest page. -/
theorem local_copy_gpa_resolved (p : Platform) (vm : acrn_vm) (m : Mem)
    (h_ptr gpa size fix hpa pg : Nat) (cp : Bool)
    (hl : vm.local_gpa2hpa gpa = some (hpa, pg)) :
    local_copy_gpa p vm m h_ptr gpa size fix cp
      = (local_copy_len gpa size fix pg,
          if cp then memcpy m h_ptr (p.hpa2hva hpa) (local_copy_len gpa size fix pg)
          else memcpy m (p.hpa2hva hpa) h_ptr (local_copy_len gpa size fix pg)) := by
  cases cp <;> simp [local_copy_gpa, hl]

/-- The copy of six bytes from gpa `0x2FFE` of `idVm`: two bytes up to the end of the
page, then four. -/
theorem copy_gpa_idVm_straddle :
    copy_gpa demoPlatform idVm patternMem 0x100000 0x2FFE 6 true
      = some (0, memcpy (memcpy patternMem 0x100000 0x2FFE 2) 0x100002 0x3000 4) := by
  have h1 : (12286 &&& 4095 : Nat) = 4094 := by decide
  have h2 : (12288 &&& 4095 : Nat) = 0 := by decide
  simp only [copy_gpa]
  rw [copy_gpa_loop]
  simp [local_copy_gpa, local_copy_len, idVm, u32, u64, demoPlatform, h1]
  rw [copy_gpa_loop]
  simp [local_copy_gpa, local_copy_len, idVm, u32, u64, demoPlatform, h2]
  rw [copy_gpa_loop]
  simp

/-! ## Lemmas on the cross-core calls -/

theorem testBit_clear_bit (nr m i : Nat) :
    (clear_bit nr m).testBit i = (m.testBit i && decide (i ≠ nr)) := by
  unfold clear_bit
  rw [Nat.testBit_xor, Nat.testBit_and, Nat.testBit_two_pow]
  by_cases h : nr = i
  · subst h; cases m.testBit nr <;> simp
  · have h' : i ≠ nr := fun e => h e.symm
    cases m.testBit i <;> simp [h, h']

theorem clear_bit_two_pow (a : Nat) : clear_bit a (2 ^ a) = 0 := by
  apply Nat.eq_of_testBit_eq
  intro i
  rw [testBit_clear_bit, Nat.testBit_two_pow]
  by_cases h : a = i <;> simp [h]

/-- The slot loop of `smp_call_function` from counter `k` with the iterations it needs:
it ends; it has cleared the pending bit of every offline core in `[k, CONFIG_NR_CPUS)`
and no other bit, installed the slot of every online core in that range and no other
slot, and left the logs alone. -/
theorem smp_call_loop_spec (p : Platform) (online : Nat → Bool) (func : Option Nat)
    (data : Nat) (hNR : p.CONFIG_NR_CPUS ≤ 65535) :
    ∀ (fuel k : Nat) (st : SmpState), k + fuel = p.CONFIG_NR_CPUS →
      ∃ st1, smp_call_loop p online func data fuel k st = some st1
        ∧ (∀ i, st1.smp_call_mask.testBit i
            = (st.smp_call_mask.testBit i
                && !(decide (k ≤ i) && decide (i < p.CONFIG_NR_CPUS) && !online i)))
        ∧ (∀ i, st1.smp_call_info i
            = if k ≤ i ∧ i < p.CONFIG_NR_CPUS ∧ online i = true then (func, data)
              else st.smp_call_info i)
        ∧ st1.calls = st.calls ∧ st1.swi = st.swi := by
  intro fuel
  induction fuel with
  | zero =>
    intro k st hk
    refine ⟨st, ?_, ?_, ?_, rfl, rfl⟩
    · rw [smp_call_loop, if_neg (by omega)]
    · intro i
      by_cases h1 : k ≤ i
      · have h2 : ¬ (i < p.CONFIG_NR_CPUS) := by omega
        simp [h2]
      · simp [h1]
    · intro i
      rw [if_neg (by omega)]
  | succ fuel ih =>
    intro k st hk
    have hlt : k < p.CONFIG_NR_CPUS := by omega
    have hu : u16 (k + 1) = k + 1 := by
      unfold u16
      omega
    obtain ⟨st1, e1, e2, e3, e4, e5⟩ := ih (k + 1) (smp_call_body online func data k st)
      (by omega)
    refine ⟨st1, ?_, ?_, ?_, ?_, ?_⟩
    · rw [smp_call_loop, if_pos hlt]
      simp only [hu]
      exact e1
    · intro i
      rw [e2 i]
      unfold smp_call_body
      cases hon : online k
      · simp only [Bool.false_eq_true, if_false, testBit_clear_bit]
        by_cases hik : i = k
        · subst hik
          simp [hon, hlt]
        · have h1 : (k + 1 ≤ i) = (k ≤ i) := by
            apply propext
            constructor <;> intro h <;> omega
          simp [hik, h1]
      · simp only [if_true]
        by_cases hik : i = k
        · subst hik
          simp [hon]
        · have h1 : (k + 1 ≤ i) = (k ≤ i) := by
            apply propext
            constructor <;> intro h <;> omega
          simp [h1]
    · intro i
      rw [e3 i]
      unfold smp_call_body
      cases hon : online k
      · simp only [Bool.false_eq_true, if_false]
        by_cases hik : i = k
        · subst hik
          simp [hon]
        · have h1 : (k + 1 ≤ i) = (k ≤ i) := by
            apply propext
            constructor <;> intro h <;> omega
          simp [h1]
      · simp only [if_true]
        by_cases hik : i = k
        · subst hik
          simp [hon, hlt]
        · have h1 : (k + 1 ≤ i) = (k ≤ i) := by
            apply propext
            constructor <;> intro h <;> omega
          simp [hik, h1]
    · rw [e4]
      unfold smp_call_body
      split <;> rfl
    · rw [e5]
      unfold smp_call_body
      split <;> rfl

/-- With at most 65535 cores `send_dest_ipi_mask` sends nothing: it returns at once
when `ffs64` is not zero, and otherwise its loop starts at `0xFFFF`, which is not below
`NR_CPUS`. -/
theorem send_dest_ipi_mask_none (p : Platform) (hN : p.NR_CPUS ≤ 65535)
    (dest_mask vector : Nat) (st : SmpState) :
    send_dest_ipi_mask p dest_mask vector st = some st := by
  unfold send_dest_ipi_mask
  by_cases h : u16 (p.ffs64 dest_mask) = 0
  · simp only [h, ne_eq, not_true_eq_false, if_false]
    rw [send_dest_ipi_loop, if_neg]
    simp only [u16]
    omega
  · simp [h]

/-- With no pending bit `kick_notification` changes nothing, on any cores. -/
theorem kick_all_idle (cores : List Nat) (st : SmpState) (h0 : st.smp_call_mask = 0) :
    kick_all cores st = st := by
  induction cores with
  | nil => rfl
  | cons c cs ih =>
    have hk : kick_notification c st = st := by
      simp [kick_notification, test_bit, h0]
    simp only [kick_all, List.foldl_cons, hk]
    exact ih

/-- With the one pending bit `a` and the slot of `a` holding `(f, d)`, runs of
`kick_notification` that include core `a` invoke `f(d)` once, on `a`. -/
theorem kick_all_single (a f d : Nat) (cores : List Nat) :
    ∀ (st : SmpState), st.smp_call_mask = 2 ^ a → st.smp_call_info a = (some f, d) →
      a ∈ cores → (kick_all cores st).calls = st.calls ++ [(a, f, d)] := by
  induction cores with
  | nil => intro st _ _ h; simp at h
  | cons c cs ih =>
    intro st hm hs hin
    by_cases hc : c = a
    · subst hc
      have hk : kick_notification c st
          = { st with calls := st.calls ++ [(c, f, d)], smp_call_mask := 0 } := by
        simp [kick_notification, test_bit, hm, hs, clear_bit_two_pow]
      simp only [kick_all, List.foldl_cons, hk]
      exact congrArg SmpState.calls (kick_all_idle cs _ rfl)
    · have hk : kick_notification c st = st := by
        have hne : ¬ (a = c) := fun e => hc e.symm
        simp [kick_notification, test_bit, hm, Nat.testBit_two_pow, hne]
      simp only [kick_all, List.foldl_cons, hk]
      rcases List.mem_cons.1 hin with h | h
      · exact absurd h.symm hc
      · exact ih st hm hs h

/-- `smp_call_function` entered with no pending bit and at most 65535 cores: it
returns; the pending mask is the requested mask without the bits of the offline cores
below `CONFIG_NR_CPUS`; the slots of the online cores below `CONFIG_NR_CPUS` hold
`(func, data)` and the other slots are unchanged; both logs are unchanged. -/
theorem smp_call_function_spec (p : Platform) (online : Nat → Bool) (mask : Nat)
    (func : Option Nat) (data : Nat) (st : SmpState)
    (hNR : p.CONFIG_NR_CPUS ≤ 65535) (hN : p.NR_CPUS ≤ 65535)
    (hidle : st.smp_call_mask = 0) :
    ∃ st1, smp_call_function p online mask func data st = some st1
      ∧ (∀ i, st1.smp_call_mask.testBit i
          = ((u64 mask).testBit i && !(decide (i < p.CONFIG_NR_CPUS) && !online i)))
      ∧ (∀ i, st1.smp_call_info i
          = if i < p.CONFIG_NR_CPUS ∧ online i = true then (func, data)
            else st.smp_call_info i)
      ∧ st1.calls = st.calls ∧ st1.swi = st.swi := by
  obtain ⟨st2, e1, e2, e3, e4, e5⟩ := smp_call_loop_spec p online func data hNR
    p.CONFIG_NR_CPUS 0 { st with smp_call_mask := u64 (st.smp_call_mask ||| mask) }
    (Nat.zero_add _)
  refine ⟨st2, ?_, ?_, ?_, e4, e5⟩
  · have hne : ¬ (st.smp_call_mask ≠ 0) := fun h => h hidle
    rw [smp_call_function, if_neg hne]
    simp only [e1]
    exact send_dest_ipi_mask_none p hN _ _ _
  · intro i
    rw [e2 i]
    simp [hidle]
  · intro i
    rw [e3 i]
    simp

/-! ## Lemmas on the initial mappings -/

theorem round_pde_down_le (v : Nat) : round_pde_down v ≤ v := by
  unfold round_pde_down PDE_SIZE
  omega

theorem round_pde_down_mono (a b : Nat) (h : a ≤ b) : round_pde_down a ≤ round_pde_down b := by
  unfold round_pde_down PDE_SIZE
  omega

/-- Below 4 GiB rounding up does not wrap: the result is between the value and
4 GiB. -/
theorem round_pde_up_bounds (v : Nat) (h : v < MEM_4G) :
    v ≤ round_pde_up v ∧ round_pde_up v ≤ MEM_4G := by
  unfold MEM_4G at h
  unfold round_pde_up PDE_SIZE MEM_4G u64
  omega

/-- The loop over the memory map keeps `low32_max_ram` below 4 GiB and `high64_max_ram`
at or above 4 GiB, never lowers them, and raises the one an end of a RAM entry falls
under to at least that end. -/
theorem init_paging_scan_props (x : X86Platform) :
    ∀ (entries : List e820_entry) (low high : Nat), low < MEM_4G → MEM_4G ≤ high →
      low ≤ (init_paging_scan x entries (low, high)).1
        ∧ (init_paging_scan x entries (low, high)).1 < MEM_4G
        ∧ high ≤ (init_paging_scan x entries (low, high)).2
        ∧ (∀ e ∈ entries, e.type = x.E820_TYPE_RAM →
            (u64 (e.baseaddr + e.length) < MEM_4G →
              u64 (e.baseaddr + e.length) ≤ (init_paging_scan x entries (low, high)).1)
            ∧ (MEM_4G ≤ u64 (e.baseaddr + e.length) →
              u64 (e.baseaddr + e.length) ≤ (init_paging_scan x entries (low, high)).2)) := by
  intro entries
  induction entries with
  | nil =>
    intro low high hl hh
    simp [init_paging_scan, hl]
  | cons c cs ih =>
    intro low high hl hh
    by_cases ht : c.type = x.E820_TYPE_RAM
    · by_cases hlt : u64 (c.baseaddr + c.length) < MEM_4G
      · obtain ⟨i1, i2, i3, i4⟩ := ih (max (u64 (c.baseaddr + c.length)) low) high
          (max_lt hlt hl) hh
        simp only [init_paging_scan, ht, if_true, hlt]
        refine ⟨le_trans (le_max_right _ _) i1, i2, i3, ?_⟩
        intro e he hram
        rcases List.mem_cons.1 he with rfl | hin
        · exact ⟨fun _ => le_trans (le_max_left _ _) i1, fun h => absurd hlt (by omega)⟩
        · exact i4 e hin hram
      · obtain ⟨i1, i2, i3, i4⟩ := ih low (max (u64 (c.baseaddr + c.length)) high) hl
          (le_trans hh (le_max_right _ _))
        simp only [init_paging_scan, ht, if_true, hlt, if_false]
        refine ⟨i1, i2, le_trans (le_max_right _ _) i3, ?_⟩
        intro e he hram
        rcases List.mem_cons.1 he with rfl | hin
        · exact ⟨fun h => absurd h hlt, fun _ => le_trans (le_max_left _ _) i3⟩
        · exact i4 e hin hram
    · obtain ⟨i1, i2, i3, i4⟩ := ih low high hl hh
      simp only [init_paging_scan, ht, if_false]
      refine ⟨i1, i2, i3, ?_⟩
      intro e he hram
      rcases List.mem_cons.1 he with rfl | hin
      · exact absurd hram ht
      · exact i4 e hin hram

/-- The loop over the memory map keeps `high64_max_ram` a `uint64_t`. -/
theorem init_paging_scan_lt (x : X86Platform) :
    ∀ (entries : List e820_entry) (low high : Nat), high < 2 ^ 64 →
      (init_paging_scan x entries (low, high)).2 < 2 ^ 64 := by
  intro entries
  induction entries with
  | nil => intro low high hh; simpa [init_paging_scan] using hh
  | cons c cs ih =>
    intro low high hh
    have hu : u64 (c.baseaddr + c.length) < 2 ^ 64 := Nat.mod_lt _ (by decide)
    simp only [init_paging_scan]
    split
    · split
      · exact ih _ _ hh
      · exact ih _ _ (max_lt hu hh)
    · exact ih _ _ hh

/-! ## Lemmas on the cache flush -/

/-- The loop of `flush_address_space` from offset `n` with the iterations it needs: it
ends, and the addresses flushed from here on are the `addr + n + j * CACHE_LINE_SIZE`
whose offset is below `size`. -/
theorem flush_address_space_loop_spec (x : X86Platform) (addr size : Nat)
    (hc : 0 < x.CACHE_LINE_SIZE) (hs : size + x.CACHE_LINE_SIZE ≤ 2 ^ 64) :
    ∀ (fuel n : Nat) (flushed : List Nat), size - n ≤ fuel →
      ∃ l, flush_address_space_loop x addr size fuel n flushed = some l
        ∧ ∀ a, a ∈ l ↔
            (a ∈ flushed
              ∨ ∃ j, a = addr + (n + j * x.CACHE_LINE_SIZE)
                  ∧ n + j * x.CACHE_LINE_SIZE < size) := by
  intro fuel
  induction fuel with
  | zero =>
    intro n flushed hf
    refine ⟨flushed, ?_, ?_⟩
    · rw [flush_address_space_loop, if_neg (by omega)]
    · intro a
      constructor
      · exact fun h => Or.inl h
      · rintro (h | ⟨j, -, hj⟩)
        · exact h
        · have : n ≤ n + j * x.CACHE_LINE_SIZE := Nat.le_add_right _ _
          omega
  | succ fuel ih =>
    intro n flushed hf
    by_cases hn : n < size
    · have hu : u64 (n + x.CACHE_LINE_SIZE) = n + x.CACHE_LINE_SIZE := by
        unfold u64
        exact Nat.mod_eq_of_lt (by omega)
      obtain ⟨l, e1, e2⟩ := ih (n + x.CACHE_LINE_SIZE) (flushed ++ [addr + n]) (by omega)
      refine ⟨l, ?_, ?_⟩
      · rw [flush_address_space_loop, if_pos hn]
        simp only [hu]
        exact e1
      · intro a
        rw [e2 a]
        constructor
        · rintro (h | ⟨j, h1, h2⟩)
          · rcases List.mem_append.1 h with h | h
            · exact Or.inl h
            · refine Or.inr ⟨0, ?_, by simpa using hn⟩
              simpa using h
          · refine Or.inr ⟨j + 1, ?_, ?_⟩
            · rw [h1, Nat.add_mul, Nat.one_mul]
              omega
            · rw [Nat.add_mul, Nat.one_mul]
              omega
        · rintro (h | ⟨j, h1, h2⟩)
          · exact Or.inl (List.mem_append.2 (Or.inl h))
          · rcases Nat.eq_zero_or_pos j with hj | hj
            · subst hj
              refine Or.inl (List.mem_append.2 (Or.inr ?_))
              simpa using h1
            · obtain ⟨i, rfl⟩ : ∃ i, j = i + 1 := ⟨j - 1, by omega⟩
              rw [Nat.add_mul, Nat.one_mul] at h1 h2
              refine Or.inr ⟨i, ?_, ?_⟩
              · rw [h1]
                omega
              · omega
    · refine ⟨flushed, ?_, ?_⟩
      · rw [flush_address_space_loop, if_neg hn]
      · intro a
        constructor
        · exact fun h => Or.inl h
        · rintro (h | ⟨j, -, hj⟩)
          · exact h
          · have : n ≤ n + j * x.CACHE_LINE_SIZE := Nat.le_add_right _ _
            omega

/-- For a start address that is a multiple of the cache line size,
`flush_address_space` ends and every byte of the range lies in the cache line of a
flushed address. -/
theorem flush_address_space_aligned (x : X86Platform) (addr size : Nat)
    (hc : 0 < x.CACHE_LINE_SIZE) (hs : size + x.CACHE_LINE_SIZE ≤ 2 ^ 64)
    (hal : addr % x.CACHE_LINE_SIZE = 0) :
    ∃ l, flush_address_space x addr size = some l
      ∧ ∀ b, addr ≤ b → b < addr + size →
          ∃ a ∈ l, a / x.CACHE_LINE_SIZE = b / x.CACHE_LINE_SIZE := by
  obtain ⟨l, e1, e2⟩ := flush_address_space_loop_spec x addr size hc hs size 0 []
    (Nat.sub_le _ _)
  refine ⟨l, e1, ?_⟩
  intro b hb1 hb2
  have hdm := Nat.div_add_mod (b - addr) x.CACHE_LINE_SIZE
  have hmod : (b - addr) % x.CACHE_LINE_SIZE < x.CACHE_LINE_SIZE := Nat.mod_lt _ hc
  have hmul : (b - addr) / x.CACHE_LINE_SIZE * x.CACHE_LINE_SIZE
      = x.CACHE_LINE_SIZE * ((b - addr) / x.CACHE_LINE_SIZE) := Nat.mul_comm _ _
  refine ⟨addr + (0 + (b - addr) / x.CACHE_LINE_SIZE * x.CACHE_LINE_SIZE), ?_, ?_⟩
  · rw [e2]
    refine Or.inr ⟨(b - addr) / x.CACHE_LINE_SIZE, rfl, ?_⟩
    omega
  · obtain ⟨q, hq⟩ := Nat.dvd_of_mod_eq_zero hal
    have hb : b = x.CACHE_LINE_SIZE * (q + (b - addr) / x.CACHE_LINE_SIZE)
        + (b - addr) % x.CACHE_LINE_SIZE := by
      rw [Nat.mul_add, ← hq]
      omega
    have ha : addr + (0 + (b - addr) / x.CACHE_LINE_SIZE * x.CACHE_LINE_SIZE)
        = x.CACHE_LINE_SIZE * (q + (b - addr) / x.CACHE_LINE_SIZE) := by
      rw [Nat.mul_add, ← hq]
      omega
    rw [ha, Nat.mul_div_cancel_left _ hc]
    conv_rhs => rw [hb]
    rw [Nat.mul_add_div hc, Nat.div_eq_of_lt hmod, Nat.add_zero]

/-! ## Theorems -/

/-- C1: when paging is disabled (mode none), `gva2gpa` called with non-NULL `gpa` and
`err_code` returns 0 and stores `*gpa = gva`. -/
theorem gva2gpa_mode_none_identity (p : Platform) (vcpu : acrn_vcpu) (m : Mem)
    (stack : page_walk_info) (gva g e : Nat) (hoff : vcpu.is_paging_enabled = false) :
    (gva2gpa p vcpu m stack gva (some g) (some e)).1 = 0
      ∧ (gva2gpa p vcpu m stack gva (some g) (some e)).2.1 = some gva := by
  simp [gva2gpa, gva2gpa_finish, get_vcpu_paging_mode, hoff]

/-- Witness of C1 at gva `0xDEADBEEF`. -/
theorem gva2gpa_mode_none_identity_witness :
    (gva2gpa demoPlatform (demoVcpu false false false) sevenMem demoStack 0xDEADBEEF
        (some 5) (some 3)).1 = 0
      ∧ (gva2gpa demoPlatform (demoVcpu false false false) sevenMem demoStack 0xDEADBEEF
        (some 5) (some 3)).2.1 = some 0xDEADBEEF :=
  gva2gpa_mode_none_identity demoPlatform (demoVcpu false false false) sevenMem demoStack
    0xDEADBEEF 5 3 rfl

/-- C2: in a 4-level walk (level 4, width 9) in which the four table bases resolve and
the four visited entries are present, writable and user-accessible, `gva2gpa` returns
0 and stores `*gpa = (leaf & 0x000FFFFFFFFFF000) | (gva & 0xFFF)`, whose low 12 bits
are those of `gva`. -/
theorem gva2gpa_4level_permissive (p : Platform) (vcpu : acrn_vcpu) (m : Mem)
    (stack : page_walk_info) (gva g e : Nat) (e3 e2 e1 leaf : Nat)
    (hpg : vcpu.is_paging_enabled = true) (hpae : vcpu.is_pae = true)
    (hlm : vcpu.is_long_mode = true)
    (hb3 : gpa2hva p vcpu.vm vcpu.vsatp ≠ 0)
    (h3 : e3 = walk_entry p vcpu.vm m 9 gva vcpu.vsatp 3) (hp3 : entry_permissive p e3)
    (hb2 : gpa2hva p vcpu.vm e3 ≠ 0)
    (h2 : e2 = walk_entry p vcpu.vm m 9 gva e3 2) (hp2 : entry_permissive p e2)
    (hb1 : gpa2hva p vcpu.vm e2 ≠ 0)
    (h1 : e1 = walk_entry p vcpu.vm m 9 gva e2 1) (hp1 : entry_permissive p e1)
    (hb0 : gpa2hva p vcpu.vm e1 ≠ 0)
    (h0 : leaf = walk_entry p vcpu.vm m 9 gva e1 0) (hp0 : entry_permissive p leaf) :
    (gva2gpa p vcpu m stack gva (some g) (some e)).1 = 0
      ∧ (gva2gpa p vcpu m stack gva (some g) (some e)).2.1
          = some ((leaf &&& 0x000FFFFFFFFFF000) ||| (gva &&& 0xFFF))
      ∧ ((leaf &&& 0x000FFFFFFFFFF000) ||| (gva &&& 0xFFF)) % 4096 = gva % 4096 := by
  subst h3 h2 h1 h0
  have hlow := gpa_low_bits
  have key : gva2gpa p vcpu m stack gva (some g) (some e)
      = (0, some ((walk_entry p vcpu.vm m 9 gva (walk_entry p vcpu.vm m 9 gva
            (walk_entry p vcpu.vm m 9 gva (walk_entry p vcpu.vm m 9 gva vcpu.vsatp 3) 2) 1) 0
            &&& 0x000FFFFFFFFFF000) ||| (gva &&& 0xFFF)),
          some (if (0 : Int) = -(p.EFAULT : Int)
            then u32 (e &&& not32 p.PAGE_FAULT_P_FLAG ||| p.PAGE_FAULT_US_FLAG)
            else e &&& not32 p.PAGE_FAULT_P_FLAG)) := by
    simp only [gva2gpa, gva2gpa_finish, gva2gpa_pw_info, get_vcpu_paging_mode, hpg, hpae,
      hlm, if_true, vm_paging_mode.toNat, local_gva2gpa_common, walk_loop]
    rw [walk_body_pass _ _ _ _ _ _ _ rfl hb3 hp3]
    rw [walk_body_pass _ _ _ _ _ _ _ rfl hb2 hp2]
    rw [walk_body_pass _ _ _ _ _ _ _ rfl hb1 hp1]
    rw [walk_body_pass _ _ _ _ _ _ _ rfl hb0 hp0]
    simp [walk_gpa_level0, walk_shift, u32, u64]
  rw [key]
  exact ⟨rfl, rfl, hlow _ _⟩

/-- Witness of C2: root `0x1000`, every entry `0x0707070707070707`, gva `0x123456789ABC`. -/
theorem gva2gpa_4level_permissive_witness :
    (gva2gpa demoPlatform (demoVcpu true true true) sevenMem demoStack 0x123456789ABC
        (some 0) (some 0)).1 = 0
      ∧ (gva2gpa demoPlatform (demoVcpu true true true) sevenMem demoStack 0x123456789ABC
          (some 0) (some 0)).2.1
          = some ((0x0707070707070707 &&& 0x000FFFFFFFFFF000) ||| (0x123456789ABC &&& 0xFFF))
      ∧ ((0x0707070707070707 &&& 0x000FFFFFFFFFF000) ||| (0x123456789ABC &&& 0xFFF)) % 4096
          = 0x123456789ABC % 4096 :=
  gva2gpa_4level_permissive demoPlatform (demoVcpu true true true) sevenMem demoStack
    0x123456789ABC 0 0 0x0707070707070707 0x0707070707070707 0x0707070707070707
    0x0707070707070707 rfl rfl rfl
    (by decide) (by decide) ⟨by decide, by decide, by decide⟩
    (by decide) (by decide) ⟨by decide, by decide, by decide⟩
    (by decide) (by decide) ⟨by decide, by decide, by decide⟩
    (by decide) (by decide) ⟨by decide, by decide, by decide⟩

/-- C3: the large-page scenario evaluated on the code.  In 2-level mode with the single
4 MiB entry at index 3 of the top-level table, translating `0x00C00123` does not stop
at that entry: the loop runs a second iteration that uses the entry as a table
address, finds no present entry there, and `gva2gpa` returns `-EFAULT` with `*gpa = 0`
and the present and user bits set in `*err_code`, where the claim has success with
`*gpa = 0x1000123` and no fault bit. -/
theorem gva2gpa_large_page_scenario :
    walk_entry demoPlatform idVm largePageMem 10 0x00C00123 0x1000 1 = 0x01000087
      ∧ gva2gpa demoPlatform (demoVcpu true false false) largePageMem demoStack 0x00C00123
          (some 0) (some 0) = (-14, some 0, some 5) := by
  decide

/-- C4: `gva2gpa` returns only 0, `-EINVAL` or `-EFAULT`; when `gpa` or `err_code` is
NULL it returns `-EINVAL` and writes nothing; and, the errno values `EINVAL` and
`EFAULT` being distinct and `EINVAL` non-zero, it returns `-EINVAL` only then, for
every paging mode, gva and memory content. -/
theorem gva2gpa_return_values (p : Platform) (vcpu : acrn_vcpu) (m : Mem)
    (stack : page_walk_info) (gva : Nat) (gpa err_code : Option Nat)
    (hne0 : p.EINVAL ≠ 0) (hne : p.EINVAL ≠ p.EFAULT) :
    ((gva2gpa p vcpu m stack gva gpa err_code).1 = 0
        ∨ (gva2gpa p vcpu m stack gva gpa err_code).1 = -(p.EINVAL : Int)
        ∨ (gva2gpa p vcpu m stack gva gpa err_code).1 = -(p.EFAULT : Int))
      ∧ ((gva2gpa p vcpu m stack gva gpa err_code).1 = -(p.EINVAL : Int)
          ↔ (gpa = none ∨ err_code = none))
      ∧ ((gpa = none ∨ err_code = none) →
          (gva2gpa p vcpu m stack gva gpa err_code).2 = (gpa, err_code)) := by
  cases gpa with
  | none => simp [gva2gpa]
  | some g =>
    cases err_code with
    | none => simp [gva2gpa]
    | some e =>
      have h := gva2gpa_ret_some p vcpu m stack gva g e
      refine ⟨?_, ?_, by simp⟩
      · rcases h with h | h
        · exact Or.inl h
        · exact Or.inr (Or.inr h)
      · simp only [reduceCtorEq, or_self, iff_false]
        rcases h with h | h
        · rw [h]
          omega
        · rw [h]
          omega

/-- Witness of C4 on the demo platform (`EINVAL = 22`, `EFAULT = 14`) with a NULL
`err_code`. -/
theorem gva2gpa_return_values_witness :
    ((gva2gpa demoPlatform (demoVcpu true true true) sevenMem demoStack 0x1234 (some 9)
          none).1 = 0
        ∨ (gva2gpa demoPlatform (demoVcpu true true true) sevenMem demoStack 0x1234 (some 9)
          none).1 = -(demoPlatform.EINVAL : Int)
        ∨ (gva2gpa demoPlatform (demoVcpu true true true) sevenMem demoStack 0x1234 (some 9)
          none).1 = -(demoPlatform.EFAULT : Int))
      ∧ ((gva2gpa demoPlatform (demoVcpu true true true) sevenMem demoStack 0x1234 (some 9)
          none).1 = -(demoPlatform.EINVAL : Int)
          ↔ ((some 9 : Option Nat) = none ∨ (none : Option Nat) = none))
      ∧ (((some 9 : Option Nat) = none ∨ (none : Option Nat) = none) →
          (gva2gpa demoPlatform (demoVcpu true true true) sevenMem demoStack 0x1234 (some 9)
            none).2 = (some 9, none)) :=
  gva2gpa_return_values demoPlatform (demoVcpu true true true) sevenMem demoStack 0x1234
    (some 9) none (by decide) (by decide)

/-- C5: in a 4-level (width 9) or 2-level (width 10) walk whose first `k` iterations
pass their checks and whose iteration `k` loads an entry with the present bit clear,
`gva2gpa` returns `-EFAULT` with `*gpa = 0` and the present and user-mode bits added to
`*err_code`; the user-mode bit is added under the test of `is_user_mode_access`, which
the walk context of `gva2gpa` has set. -/
theorem gva2gpa_not_present_fault (p : Platform) (vcpu : acrn_vcpu) (m : Mem)
    (stack : page_walk_info) (gva g e level width k : Nat)
    (hmode : (get_vcpu_paging_mode vcpu = .PAGING_MODE_4_LEVEL ∧ level = 4 ∧ width = 9)
      ∨ (get_vcpu_paging_mode vcpu = .PAGING_MODE_2_LEVEL ∧ level = 2 ∧ width = 10))
    (hk : k < level)
    (hpass : walk_passes p vcpu.vm m { gva2gpa_pw_info p vcpu stack e with width := width }
      gva vcpu.vsatp level k)
    (hres : gpa2hva p vcpu.vm (walk_table p vcpu.vm m width gva vcpu.vsatp level k) ≠ 0)
    (hnp : ¬ entry_present p (walk_entry p vcpu.vm m width gva
      (walk_table p vcpu.vm m width gva vcpu.vsatp level k) (level - 1 - k))) :
    gva2gpa p vcpu m stack gva (some g) (some e)
        = (-(p.EFAULT : Int), some 0,
            some (u32 (u32 ((e &&& not32 p.PAGE_FAULT_P_FLAG) ||| p.PAGE_FAULT_P_FLAG)
              ||| p.PAGE_FAULT_US_FLAG)))
      ∧ (gva2gpa_pw_info p vcpu stack e).is_user_mode_access = true := by
  refine ⟨?_, rfl⟩
  rcases hmode with ⟨hm, hl, hw⟩ | ⟨hm, hl, hw⟩
  · subst hl hw
    have hc := local_gva2gpa_common_fault_at p vcpu m
      { gva2gpa_pw_info p vcpu stack e with width := 9 } gva 0
      (e &&& not32 p.PAGE_FAULT_P_FLAG) k
      (by simpa [gva2gpa_pw_info, hm, vm_paging_mode.toNat] using hk)
      (by simpa [gva2gpa_pw_info, hm, vm_paging_mode.toNat] using hpass)
      (by
        simp only [gva2gpa_pw_info, hm, vm_paging_mode.toNat]
        exact fun h => hnp h.2.1)
    simp only [gva2gpa, hm, if_true, hc, gva2gpa_finish]
    simp [gva2gpa_pw_info]
  · subst hl hw
    have hc := local_gva2gpa_common_fault_at p vcpu m
      { gva2gpa_pw_info p vcpu stack e with width := 10, nxe := false } gva 0
      (e &&& not32 p.PAGE_FAULT_P_FLAG) k
      (by simpa [gva2gpa_pw_info, hm, vm_paging_mode.toNat] using hk)
      (by simpa [gva2gpa_pw_info, hm, vm_paging_mode.toNat] using hpass)
      (by
        simp only [gva2gpa_pw_info, hm, vm_paging_mode.toNat]
        exact fun h => hnp h.2.1)
    simp only [gva2gpa, hm, reduceCtorEq, if_false, if_true, hc, gva2gpa_finish]
    simp [gva2gpa_pw_info]

/-- Witness of C5: a 4-level walk of gva 0 over `oneEntryMem`; the first iteration
passes and the second loads a zero entry. -/
theorem gva2gpa_not_present_fault_witness :
    gva2gpa demoPlatform (demoVcpu true true true) oneEntryMem demoStack 0 (some 77)
        (some 0)
        = (-(demoPlatform.EFAULT : Int), some 0,
            some (u32 (u32 ((0 &&& not32 demoPlatform.PAGE_FAULT_P_FLAG)
              ||| demoPlatform.PAGE_FAULT_P_FLAG) ||| demoPlatform.PAGE_FAULT_US_FLAG)))
      ∧ (gva2gpa_pw_info demoPlatform (demoVcpu true true true) demoStack 0).is_user_mode_access
          = true :=
  gva2gpa_not_present_fault demoPlatform (demoVcpu true true true) oneEntryMem demoStack
    0 77 0 4 9 1 (Or.inl ⟨by decide, rfl, rfl⟩) (by decide)
    (fun j hj => by
      obtain rfl : j = 0 := by omega
      decide)
    (by decide) (by decide)

/-- C6: a write access evaluated on the code.  In a 4-level walk of gva `0x1123` over
`readOnlyLeafMem` every table resolves and every visited entry is present; the last
entry `0x0505050505050505` denies write.  `gva2gpa` returns `-EFAULT` and leaves
`*gpa = 0`; it does not store the frame bits of the last entry with the offset of the
gva (`0x5050505050123`), which the documentation of the function promises. -/
theorem gva2gpa_write_violation_scenario :
    walk_passes demoPlatform idVm readOnlyLeafMem
        { gva2gpa_pw_info demoPlatform (demoVcpu true true true) demoStack 2 with width := 9 }
        0x1123 0x1000 4 3
      ∧ gpa2hva demoPlatform idVm
          (walk_table demoPlatform idVm readOnlyLeafMem 9 0x1123 0x1000 4 3) ≠ 0
      ∧ walk_table demoPlatform idVm readOnlyLeafMem 9 0x1123 0x1000 4 4 = 0x0505050505050505
      ∧ entry_present demoPlatform 0x0505050505050505
      ∧ ¬ entry_writable demoPlatform 0x0505050505050505
      ∧ (0x0505050505050505 &&& 0x000FFFFFFFFFF000) ||| (0x1123 &&& 0xFFF) = 0x5050505050123
      ∧ gva2gpa demoPlatform (demoVcpu true true true) readOnlyLeafMem demoStack 0x1123
          (some 0) (some 2) = (-14, some 0, some 7) := by
  refine ⟨?_, by decide, by decide, by decide, by decide, by decide, by decide⟩
  intro j hj
  have h : j = 0 ∨ j = 1 ∨ j = 2 := by omega
  rcases h with rfl | rfl | rfl <;> decide

/-- C7, counterexample: with a second stage that maps two guest pages onto one host
page, `copy_to_gpa` of a two-page buffer to gpa 0 and `copy_from_gpa` of the same range
both return 0, and the first byte read back is `2` where `1` was written. -/
theorem copy_gpa_round_trip_alias_counterexample :
    ∃ m1 m2 : Mem,
      copy_to_gpa demoPlatform aliasVm twoPageMem 0x100000 0 8192 = some (0, m1)
        ∧ copy_from_gpa demoPlatform aliasVm m1 0x200000 0 8192 = some (0, m2)
        ∧ twoPageMem (0x100000 + 0) = 1 ∧ m2 (0x200000 + 0) = 2 := by
  have h1 : (4096 &&& 4095 : Nat) = 0 := by decide
  refine ⟨memcpy (memcpy twoPageMem 0x10000 0x100000 4096) 0x10000 0x101000 4096,
    memcpy (memcpy (memcpy (memcpy twoPageMem 0x10000 0x100000 4096) 0x10000 0x101000 4096)
      0x200000 0x10000 4096) 0x201000 0x10000 4096, ?_, ?_, by decide, by decide⟩
  · simp only [copy_to_gpa, copy_gpa]
    rw [copy_gpa_loop]
    simp [local_copy_gpa, local_copy_len, aliasVm, u32, u64, demoPlatform]
    rw [copy_gpa_loop]
    simp [local_copy_gpa, local_copy_len, aliasVm, u32, u64, demoPlatform, h1]
    rw [copy_gpa_loop]
    simp
  · simp only [copy_from_gpa, copy_gpa]
    rw [copy_gpa_loop]
    simp [local_copy_gpa, local_copy_len, aliasVm, u32, u64, demoPlatform]
    rw [copy_gpa_loop]
    simp [local_copy_gpa, local_copy_len, aliasVm, u32, u64, demoPlatform, h1]
    rw [copy_gpa_loop]
    simp

/-- C7, amended: if `copy_to_gpa` of `n` bytes from the buffer at `h_ptr` returns 0 and
then `copy_from_gpa` of the same `(gpa, n)` into the buffer at `h_ptr2` returns 0, the
bytes read back are the bytes written, provided the guest side of the `n` bytes
consists of pairwise distinct host-virtual addresses that lie in neither buffer.  The
second-stage page sizes are powers of two and `EINVAL` is not zero. -/
theorem copy_gpa_round_trip (p : Platform) (vm : acrn_vm) (m m1 m2 : Mem)
    (h_ptr h_ptr2 gpa n : Nat) (hvm : pages_ok vm) (hE : p.EINVAL ≠ 0)
    (hn : n < 2 ^ 32) (hg : gpa < 2 ^ 64)
    (hto : copy_to_gpa p vm m h_ptr gpa n = some (0, m1))
    (hfrom : copy_from_gpa p vm m1 h_ptr2 gpa n = some (0, m2))
    (hinj : ∀ t u, t < n → u < n →
      chunks_hva (copy_gpa_chunks p vm n gpa n) t
        = chunks_hva (copy_gpa_chunks p vm n gpa n) u → t = u)
    (hsrc : ∀ t, t < n →
      ¬ (h_ptr ≤ chunks_hva (copy_gpa_chunks p vm n gpa n) t
          ∧ chunks_hva (copy_gpa_chunks p vm n gpa n) t < h_ptr + n))
    (hdst : ∀ t, t < n →
      ¬ (h_ptr2 ≤ chunks_hva (copy_gpa_chunks p vm n gpa n) t
          ∧ chunks_hva (copy_gpa_chunks p vm n gpa n) t < h_ptr2 + n)) :
    ∀ t, t < n → m2 (h_ptr2 + t) = m (h_ptr + t) := by
  have hEi : -(p.EINVAL : Int) ≠ 0 := by omega
  have e1 := copy_gpa_loop_eq p vm hvm false n m h_ptr gpa n (Nat.le_refl n) hn
  have e2 := copy_gpa_loop_eq p vm hvm true n m1 h_ptr2 gpa n (Nat.le_refl n) hn
  simp only [copy_to_gpa, copy_gpa] at hto
  simp only [copy_from_gpa, copy_gpa] at hfrom
  rw [e1] at hto
  rw [e2] at hfrom
  simp only [Option.some.injEq, Prod.mk.injEq] at hto hfrom
  obtain ⟨hc, hm1⟩ := hto
  obtain ⟨-, hm2⟩ := hfrom
  have hstop : copy_gpa_stop vm n gpa n = none := by
    by_contra hne
    rw [if_neg hne] at hc
    exact hEi hc
  obtain ⟨-, -, htot, -⟩ := copy_gpa_chunks_props p vm hvm n gpa n (Nat.le_refl n) hn hg
  have htot := htot hstop
  intro t ht
  rw [← hm2, ← hm1]
  have hsrc' : ∀ t, t < chunks_total (copy_gpa_chunks p vm n gpa n) →
      ¬ (h_ptr ≤ chunks_hva (copy_gpa_chunks p vm n gpa n) t
          ∧ chunks_hva (copy_gpa_chunks p vm n gpa n) t
              < h_ptr + chunks_total (copy_gpa_chunks p vm n gpa n)) := by
    rw [htot]
    exact hsrc
  have hdst' : ∀ t, t < chunks_total (copy_gpa_chunks p vm n gpa n) →
      ¬ (h_ptr2 ≤ chunks_hva (copy_gpa_chunks p vm n gpa n) t
          ∧ chunks_hva (copy_gpa_chunks p vm n gpa n) t
              < h_ptr2 + chunks_total (copy_gpa_chunks p vm n gpa n)) := by
    rw [htot]
    exact hdst
  have hinj' : ∀ t u, t < chunks_total (copy_gpa_chunks p vm n gpa n) →
      u < chunks_total (copy_gpa_chunks p vm n gpa n) →
      chunks_hva (copy_gpa_chunks p vm n gpa n) t
        = chunks_hva (copy_gpa_chunks p vm n gpa n) u → t = u := by
    rw [htot]
    exact hinj
  rw [apply_chunks_from_bytes _ _ _ hdst' t (by rw [htot]; exact ht)]
  exact apply_chunks_to_bytes _ _ _ hsrc' hinj' t (by rw [htot]; exact ht)

/-- Witness of the amended C7: four bytes written at gpa `0x2FFE`, across the page
boundary `0x3000` of the identity second stage, and read back. -/
theorem copy_gpa_round_trip_witness :
    memcpy (memcpy (memcpy (memcpy patternMem 0x2FFE 0x100000 2) 0x3000 0x100002 2)
        0x200000 0x2FFE 2) 0x200002 0x3000 2 (0x200000 + 1) = patternMem (0x100000 + 1)
      ∧ memcpy (memcpy (memcpy (memcpy patternMem 0x2FFE 0x100000 2) 0x3000 0x100002 2)
        0x200000 0x2FFE 2) 0x200002 0x3000 2 (0x200000 + 2) = patternMem (0x100000 + 2) := by
  have h1 : (12286 &&& 4095 : Nat) = 4094 := by decide
  have h2 : (12288 &&& 4095 : Nat) = 0 := by decide
  have key : ∀ t, t < 4 →
      memcpy (memcpy (memcpy (memcpy patternMem 0x2FFE 0x100000 2) 0x3000 0x100002 2)
        0x200000 0x2FFE 2) 0x200002 0x3000 2 (0x200000 + t) = patternMem (0x100000 + t) := by
    refine copy_gpa_round_trip demoPlatform idVm patternMem
      (memcpy (memcpy patternMem 0x2FFE 0x100000 2) 0x3000 0x100002 2)
      (memcpy (memcpy (memcpy (memcpy patternMem 0x2FFE 0x100000 2) 0x3000 0x100002 2)
          0x200000 0x2FFE 2) 0x200002 0x3000 2)
      0x100000 0x200000 0x2FFE 4 pages_ok_idVm (by decide) (by decide) (by decide)
      ?_ ?_ ?_ ?_ ?_
    · simp only [copy_to_gpa, copy_gpa]
      rw [copy_gpa_loop]
      simp [local_copy_gpa, local_copy_len, idVm, u32, u64, demoPlatform, h1]
      rw [copy_gpa_loop]
      simp [local_copy_gpa, local_copy_len, idVm, u32, u64, demoPlatform, h2]
      rw [copy_gpa_loop]
      simp
    · simp only [copy_from_gpa, copy_gpa]
      rw [copy_gpa_loop]
      simp [local_copy_gpa, local_copy_len, idVm, u32, u64, demoPlatform, h1]
      rw [copy_gpa_loop]
      simp [local_copy_gpa, local_copy_len, idVm, u32, u64, demoPlatform, h2]
      rw [copy_gpa_loop]
      simp
    · intro t u ht hu
      interval_cases t <;> interval_cases u <;> decide
    · intro t ht
      interval_cases t <;> decide
    · intro t ht
      interval_cases t <;> decide
  exact ⟨key 1 (by decide), key 2 (by decide)⟩

/-- C9: `copy_from_gpa` and `copy_to_gpa` end and return 0 exactly when every chunk
start they visit resolves through the second stage, `-EINVAL` otherwise; the memory
they leave is the memory after copying, in order, the chunks before the first chunk
start that does not resolve, and nothing else: the host buffer beyond the copied bytes
(`copy_from_gpa`) and every address outside the guest side of the copied chunks
(`copy_to_gpa`) are unchanged; a copy that returns 0 has copied `size` bytes and a copy
of 0 bytes changes nothing.  The second-stage page sizes are powers of two and
`EINVAL` is not zero. -/
theorem copy_gpa_stops_at_first_unresolved (p : Platform) (vm : acrn_vm) (m : Mem)
    (h_ptr gpa size : Nat) (hvm : pages_ok vm) (hE : p.EINVAL ≠ 0)
    (hs : size < 2 ^ 32) (hg : gpa < 2 ^ 64) :
    ∃ (ret : Int) (chunks : List Chunk) (stop : Option Nat),
      chunks = copy_gpa_chunks p vm size gpa size
        ∧ stop = copy_gpa_stop vm size gpa size
        ∧ copy_from_gpa p vm m h_ptr gpa size = some (ret, apply_chunks true m h_ptr chunks)
        ∧ copy_to_gpa p vm m h_ptr gpa size = some (ret, apply_chunks false m h_ptr chunks)
        ∧ (ret = 0 ∨ ret = -(p.EINVAL : Int))
        ∧ (ret = 0 ↔
            ∀ c ∈ chunks.map Chunk.gpa ++ stop.toList, (vm.local_gpa2hpa c).isSome = true)
        ∧ (∀ c ∈ chunks, (vm.local_gpa2hpa c.gpa).isSome = true ∧ 1 ≤ c.len)
        ∧ (ret = 0 → stop = none ∧ chunks_total chunks = size)
        ∧ (ret ≠ 0 → ∃ c, stop = some c ∧ vm.local_gpa2hpa c = none
            ∧ c = u64 (gpa + chunks_total chunks) ∧ chunks_total chunks < size)
        ∧ (size = 0 → ret = 0 ∧ chunks = [])
        ∧ (∀ a, ¬ (h_ptr ≤ a ∧ a < h_ptr + chunks_total chunks) →
            apply_chunks true m h_ptr chunks a = m a)
        ∧ (∀ a, (∀ t, t < chunks_total chunks → chunks_hva chunks t ≠ a) →
            apply_chunks false m h_ptr chunks a = m a) := by
  have hEi : -(p.EINVAL : Int) ≠ 0 := by omega
  have e1 := copy_gpa_loop_eq p vm hvm true size m h_ptr gpa size (Nat.le_refl _) hs
  have e2 := copy_gpa_loop_eq p vm hvm false size m h_ptr gpa size (Nat.le_refl _) hs
  obtain ⟨q1, q2, q3, q4⟩ := copy_gpa_chunks_props p vm hvm size gpa size (Nat.le_refl _) hs hg
  refine ⟨if copy_gpa_stop vm size gpa size = none then 0 else -(p.EINVAL : Int),
    copy_gpa_chunks p vm size gpa size, copy_gpa_stop vm size gpa size, rfl, rfl, e1, e2,
    ?_, ?_, q1, ?_, ?_, ?_, apply_chunks_from_frame _ _ _, apply_chunks_to_frame _ _ _⟩
  · split
    · exact Or.inl rfl
    · exact Or.inr rfl
  · cases hst : copy_gpa_stop vm size gpa size with
    | none =>
      simp only [if_true, Option.toList, List.append_nil, List.mem_map, true_iff]
      rintro c ⟨ch, hch, rfl⟩
      exact (q1 ch hch).1
    | some c =>
      simp only [reduceCtorEq, if_false, hEi, false_iff, not_forall]
      refine ⟨c, by simp, ?_⟩
      rw [(q4 c hst).1]
      simp
  · intro h
    have hst : copy_gpa_stop vm size gpa size = none := by
      by_contra hne
      rw [if_neg hne] at h
      exact hEi h
    exact ⟨hst, q3 hst⟩
  · intro h
    cases hst : copy_gpa_stop vm size gpa size with
    | none => rw [hst] at h; simp at h
    | some c => exact ⟨c, rfl, q4 c hst⟩
  · intro h0
    subst h0
    simp [copy_gpa_stop, copy_gpa_chunks]

/-- Witness of C9: four bytes at gpa `0x2FFE` when the second stage maps nothing from
`0x3000` on. -/
theorem copy_gpa_stops_at_first_unresolved_witness :
    ∃ (ret : Int) (chunks : List Chunk) (stop : Option Nat),
      chunks = copy_gpa_chunks demoPlatform holeVm 4 0x2FFE 4
        ∧ stop = copy_gpa_stop holeVm 4 0x2FFE 4
        ∧ copy_from_gpa demoPlatform holeVm patternMem 0x100000 0x2FFE 4
            = some (ret, apply_chunks true patternMem 0x100000 chunks)
        ∧ copy_to_gpa demoPlatform holeVm patternMem 0x100000 0x2FFE 4
            = some (ret, apply_chunks false patternMem 0x100000 chunks)
        ∧ (ret = 0 ∨ ret = -(demoPlatform.EINVAL : Int))
        ∧ (ret = 0 ↔
            ∀ c ∈ chunks.map Chunk.gpa ++ stop.toList, (holeVm.local_gpa2hpa c).isSome = true)
        ∧ (∀ c ∈ chunks, (holeVm.local_gpa2hpa c.gpa).isSome = true ∧ 1 ≤ c.len)
        ∧ (ret = 0 → stop = none ∧ chunks_total chunks = 4)
        ∧ (ret ≠ 0 → ∃ c, stop = some c ∧ holeVm.local_gpa2hpa c = none
            ∧ c = u64 (0x2FFE + chunks_total chunks) ∧ chunks_total chunks < 4)
        ∧ ((4 : Nat) = 0 → ret = 0 ∧ chunks = [])
        ∧ (∀ a, ¬ (0x100000 ≤ a ∧ a < 0x100000 + chunks_total chunks) →
            apply_chunks true patternMem 0x100000 chunks a = patternMem a)
        ∧ (∀ a, (∀ t, t < chunks_total chunks → chunks_hva chunks t ≠ a) →
            apply_chunks false patternMem 0x100000 chunks a = patternMem a) :=
  copy_gpa_stops_at_first_unresolved demoPlatform holeVm patternMem 0x100000 0x2FFE 4
    pages_ok_holeVm (by decide) (by decide) (by decide)

/-- C8: a `copy_from_gva` call whose range reaches into the chunk number `k` (`k ≥ 1`,
chunks counted from 0), in which the walks of the first `k` chunks succeed with
addresses that resolve and the walk of chunk `k` fails, ends with the error of the
walk (`-EFAULT`) and `*fault_addr` set to the first byte of that chunk,
`(gva / 4096) * 4096 + k * 4096` as a `uint64_t`, which is not the start address `gva`.
`EFAULT` is not zero. -/
theorem copy_from_gva_fault_addr (p : Platform) (vcpu : acrn_vcpu) (stack : page_walk_info)
    (m : Mem) (h_ptr gva size err_code fault_addr k : Nat) (hE : p.EFAULT ≠ 0)
    (hk : 1 ≤ k) (hgva : gva < 2 ^ 64) (hsize : size < 2 ^ 32)
    (hspan : (4096 - gva % 4096) + (k - 1) * 4096 < size)
    (hwalks : walks_ok_then_fail p vcpu stack k
      { m := m, h_ptr := h_ptr, gpa := 0, ret := 0, gva := gva, size := size,
        err_code := err_code, fault_addr := fault_addr }) :
    ∃ s, copy_from_gva p vcpu stack m h_ptr gva size err_code fault_addr = some s
      ∧ s.ret = -(p.EFAULT : Int)
      ∧ s.fault_addr = u64 (gva / 4096 * 4096 + k * 4096)
      ∧ s.fault_addr ≠ gva := by
  have hk0 : k ≠ 0 := by omega
  obtain ⟨s1, e1, e2, e3⟩ := copy_gva_loop_fault p vcpu stack true hE rfl k size
    { m := m, h_ptr := h_ptr, gpa := 0, ret := 0, gva := gva, size := size,
      err_code := err_code, fault_addr := fault_addr }
    rfl hsize (Nat.le_refl _) hgva (by simp only [hk0, if_false]; exact hspan) hwalks
  simp only [hk0, if_false] at e3
  have hmod : gva % 4096 < 4096 := Nat.mod_lt _ (by decide)
  refine ⟨s1, e1, e2, ?_, ?_⟩
  · rw [e3, Nat.add_mul]
  · rw [e3]
    unfold u64
    omega

/-- Witness of C8: four bytes at gva `0xFFE` in 4-level mode over `onePageMem`; the
walk of the first page succeeds and the walk of the second page, at `0x1000`, fails. -/
theorem copy_from_gva_fault_addr_witness :
    ∃ s, copy_from_gva demoPlatform (demoVcpu true true true) demoStack onePageMem
        0x100000 0xFFE 4 0 0 = some s
      ∧ s.ret = -(demoPlatform.EFAULT : Int)
      ∧ s.fault_addr = u64 (0xFFE / 4096 * 4096 + 1 * 4096)
      ∧ s.fault_addr ≠ 0xFFE :=
  copy_from_gva_fault_addr demoPlatform (demoVcpu true true true) demoStack onePageMem
    0x100000 0xFFE 4 0 0 1 (by decide) (by decide) (by decide) (by decide) (by decide)
    ⟨by decide, ⟨0x5FFE, by decide, by decide⟩,
      show (gva2gpa demoPlatform (demoVcpu true true true)
          (copy_gva_body demoPlatform (demoVcpu true true true) demoStack true
            { m := onePageMem, h_ptr := 0x100000, gpa := 0, ret := 0, gva := 0xFFE, size := 4,
              err_code := 0, fault_addr := 0 }).m demoStack
          (copy_gva_body demoPlatform (demoVcpu true true true) demoStack true
            { m := onePageMem, h_ptr := 0x100000, gpa := 0, ret := 0, gva := 0xFFE, size := 4,
              err_code := 0, fault_addr := 0 }).gva
          (some (copy_gva_body demoPlatform (demoVcpu true true true) demoStack true
            { m := onePageMem, h_ptr := 0x100000, gpa := 0, ret := 0, gva := 0xFFE, size := 4,
              err_code := 0, fault_addr := 0 }).gpa)
          (some (copy_gva_body demoPlatform (demoVcpu true true true) demoStack true
            { m := onePageMem, h_ptr := 0x100000, gpa := 0, ret := 0, gva := 0xFFE, size := 4,
              err_code := 0, fault_addr := 0 }).err_code)).1 < 0 from by decide⟩

/-- C10: in the sequential model, with no pending bit on entry, at most 65535 cores and
a non-NULL function `f`, `smp_call_function` with the mask of one online core `a` and
one offline core `b` (both below `CONFIG_NR_CPUS` and 64) returns, and any runs of
`kick_notification` after it that include core `a` add exactly one invocation to the
log: `f(d)` on core `a`; nothing is invoked on `b`. -/
theorem smp_call_one_online_one_offline (p : Platform) (online : Nat → Bool)
    (a b f d : Nat) (st : SmpState) (cores : List Nat)
    (hNR : p.CONFIG_NR_CPUS ≤ 65535) (hN : p.NR_CPUS ≤ 65535)
    (ha : a < p.CONFIG_NR_CPUS) (hb : b < p.CONFIG_NR_CPUS) (ha64 : a < 64) (hb64 : b < 64)
    (hon : online a = true) (hoff : online b = false)
    (hidle : st.smp_call_mask = 0) (hkick : a ∈ cores) :
    ∃ st1, smp_call_function p online (2 ^ a ||| 2 ^ b) (some f) d st = some st1
      ∧ (kick_all cores st1).calls = st.calls ++ [(a, f, d)] := by
  obtain ⟨st2, e1, e2, e3, e4, -⟩ := smp_call_loop_spec p online (some f) d hNR
    p.CONFIG_NR_CPUS 0 { st with smp_call_mask := u64 (st.smp_call_mask ||| (2 ^ a ||| 2 ^ b)) }
    (Nat.zero_add _)
  have hlt : 2 ^ a ||| 2 ^ b < 2 ^ 64 :=
    Nat.or_lt_two_pow (Nat.pow_lt_pow_right (by decide) ha64)
      (Nat.pow_lt_pow_right (by decide) hb64)
  have hmask : st2.smp_call_mask = 2 ^ a := by
    apply Nat.eq_of_testBit_eq
    intro i
    rw [e2 i]
    simp only [hidle, Nat.zero_or, u64, Nat.mod_eq_of_lt hlt, Nat.testBit_or,
      Nat.testBit_two_pow]
    by_cases hia : a = i
    · subst hia
      simp [hon]
    · by_cases hib : b = i
      · subst hib
        simp [hoff, hb, hia]
      · simp [hia, hib]
  have hslot : st2.smp_call_info a = (some f, d) := by
    rw [e3 a]
    simp [ha, hon]
  refine ⟨st2, ?_, ?_⟩
  · have hne : ¬ (st.smp_call_mask ≠ 0) := fun h => h hidle
    rw [smp_call_function, if_neg hne]
    simp only [e1]
    exact send_dest_ipi_mask_none p hN _ _ _
  · rw [kick_all_single a f d cores st2 hmask hslot hkick, e4]

/-- Witness of C10: eight cores of which core 2 is offline, the mask of cores 1 and 2,
function 42 with argument 7, and kicks on cores 2, 1, 1 and 0. -/
theorem smp_call_one_online_one_offline_witness :
    ∃ st1, smp_call_function demoPlatform (fun i => decide (i ≠ 2)) (2 ^ 1 ||| 2 ^ 2)
        (some 42) 7 idleSmp = some st1
      ∧ (kick_all [2, 1, 1, 0] st1).calls = idleSmp.calls ++ [(1, 42, 7)] :=
  smp_call_one_online_one_offline demoPlatform (fun i => decide (i ≠ 2)) 1 2 42 7 idleSmp
    [2, 1, 1, 0] (by decide) (by decide) (by decide) (by decide) (by decide) (by decide)
    (by decide) (by decide) rfl (by decide)

/-- C11: the sending of the software interrupt evaluated on the code.  With eight
cores, all online, `smp_call_function` for the mask of core 1 leaves bit 1 pending and
makes no call of `send_single_swi`: `send_dest_ipi_mask` returns at `if (pcpu_id--)`
because `ffs64` found a bit.  For the mask of core 0 `ffs64` is 0, the decrement
leaves `0xFFFF`, the loop is not entered and again nothing is sent. -/
theorem smp_call_function_sends_no_swi_scenario :
    (∃ st1, smp_call_function demoPlatform (fun _ => true) (2 ^ 1) (some 42) 7 idleSmp
        = some st1 ∧ st1.smp_call_mask.testBit 1 = true ∧ st1.swi = [])
      ∧ (∃ st1, smp_call_function demoPlatform (fun _ => true) (2 ^ 0) (some 42) 7 idleSmp
        = some st1 ∧ st1.smp_call_mask.testBit 0 = true ∧ st1.swi = []) := by
  constructor
  · obtain ⟨st1, e1, e2, -, -, e5⟩ := smp_call_function_spec demoPlatform (fun _ => true)
      (2 ^ 1) (some 42) 7 idleSmp (by decide) (by decide) rfl
    exact ⟨st1, e1, by rw [e2 1]; decide, e5⟩
  · obtain ⟨st1, e1, e2, -, -, e5⟩ := smp_call_function_spec demoPlatform (fun _ => true)
      (2 ^ 0) (some 42) 7 idleSmp (by decide) (by decide) rfl
    exact ⟨st1, e1, by rw [e2 0]; decide, e5⟩

/-- C12: entered with no pending bit, for a mask whose set bits are all below
`CONFIG_NR_CPUS`, `smp_call_function` returns with the pending mask equal to the mask
restricted to the online cores, and the slot of every offline core is unchanged.  The
core counts are at most 65535. -/
theorem smp_call_function_pending_mask (p : Platform) (online : Nat → Bool) (mask : Nat)
    (func : Option Nat) (data : Nat) (st : SmpState)
    (hNR : p.CONFIG_NR_CPUS ≤ 65535) (hN : p.NR_CPUS ≤ 65535) (hm : mask < 2 ^ 64)
    (hbits : ∀ i, mask.testBit i = true → i < p.CONFIG_NR_CPUS)
    (hidle : st.smp_call_mask = 0) :
    ∃ st1, smp_call_function p online mask func data st = some st1
      ∧ (∀ i, st1.smp_call_mask.testBit i = (mask.testBit i && online i))
      ∧ (∀ i, online i = false → st1.smp_call_mask.testBit i = false)
      ∧ (∀ i, online i = false → st1.smp_call_info i = st.smp_call_info i) := by
  obtain ⟨st1, e1, e2, e3, -, -⟩ := smp_call_function_spec p online mask func data st hNR hN
    hidle
  have hmask : ∀ i, st1.smp_call_mask.testBit i = (mask.testBit i && online i) := by
    intro i
    rw [e2 i, u64, Nat.mod_eq_of_lt hm]
    cases hb : mask.testBit i
    · simp
    · simp [hbits i hb]
  refine ⟨st1, e1, hmask, ?_, ?_⟩
  · intro i hoff
    rw [hmask i, hoff, Bool.and_false]
  · intro i hoff
    rw [e3 i, if_neg]
    simp [hoff]

/-- Witness of C12: eight cores of which core 2 is offline and the mask of cores 1, 2
and 3. -/
theorem smp_call_function_pending_mask_witness :
    ∃ st1, smp_call_function demoPlatform (fun i => decide (i ≠ 2)) 14 (some 42) 7 idleSmp
        = some st1
      ∧ (∀ i, st1.smp_call_mask.testBit i
          = (Nat.testBit 14 i && (fun i => decide (i ≠ 2)) i))
      ∧ (∀ i, (fun i => decide (i ≠ 2)) i = false → st1.smp_call_mask.testBit i = false)
      ∧ (∀ i, (fun i => decide (i ≠ 2)) i = false →
          st1.smp_call_info i = idleSmp.smp_call_info i) :=
  smp_call_function_pending_mask demoPlatform (fun i => decide (i ≠ 2)) 14 (some 42) 7
    idleSmp (by decide) (by decide) (by decide)
    (fun i h => by
      by_contra hge
      have h4 : (14 : Nat) < 2 ^ i :=
        Nat.lt_of_lt_of_le (by decide) (Nat.pow_le_pow_right (by decide) (Nat.le_of_not_lt hge))
      rw [Nat.testBit_lt_two_pow h4] at h
      exact absurd h (by decide))
    rfl

/-- C13: `kick_notification` on core `pcpu_id` changes no slot, sends nothing and
changes no pending bit of another core; when the bit of `pcpu_id` is pending it
invokes the function of its slot with the argument of its slot once (nothing when the
function is NULL) and clears the bit; when the bit is not pending it changes nothing. -/
theorem kick_notification_effect (pcpu_id : Nat) (st : SmpState) :
    (kick_notification pcpu_id st).smp_call_info = st.smp_call_info
      ∧ (kick_notification pcpu_id st).swi = st.swi
      ∧ (∀ i, i ≠ pcpu_id →
          (kick_notification pcpu_id st).smp_call_mask.testBit i
            = st.smp_call_mask.testBit i)
      ∧ (if test_bit pcpu_id st.smp_call_mask = true then
          (kick_notification pcpu_id st).calls
              = st.calls ++
                (match (st.smp_call_info pcpu_id).1 with
                  | some func => [(pcpu_id, func, (st.smp_call_info pcpu_id).2)]
                  | none => [])
            ∧ (kick_notification pcpu_id st).smp_call_mask.testBit pcpu_id = false
        else kick_notification pcpu_id st = st) := by
  unfold kick_notification
  cases hb : test_bit pcpu_id st.smp_call_mask
  · simp
  · simp only [if_true]
    cases hf : (st.smp_call_info pcpu_id).1 with
    | none =>
      refine ⟨rfl, rfl, ?_, ?_, ?_⟩
      · intro i hi
        simp [testBit_clear_bit, hi]
      · simp
      · simp [testBit_clear_bit]
    | some func =>
      refine ⟨rfl, rfl, ?_, ?_, ?_⟩
      · intro i hi
        simp [testBit_clear_bit, hi]
      · simp
      · simp [testBit_clear_bit]

/-- C17: `get_vcpu_paging_mode` is the decision table on paging, PAE and long mode, the
modes count 0, 2, 3 and 4 levels, and `gva2gpa` runs the 2-level walk with index width
10 (index `(gva >> (10 i + 12)) & 0x3FF` at counter `i`) and the 3- and 4-level walks
with index width 9 (index `(gva >> (9 i + 12)) & 0x1FF`). -/
theorem paging_mode_table (p : Platform) (vcpu : acrn_vcpu) (m : Mem)
    (stack : page_walk_info) (gva g e : Nat) :
    (get_vcpu_paging_mode vcpu = .PAGING_MODE_0_LEVEL ↔ vcpu.is_paging_enabled = false)
      ∧ (get_vcpu_paging_mode vcpu = .PAGING_MODE_2_LEVEL ↔
          (vcpu.is_paging_enabled = true ∧ vcpu.is_pae = false))
      ∧ (get_vcpu_paging_mode vcpu = .PAGING_MODE_3_LEVEL ↔
          (vcpu.is_paging_enabled = true ∧ vcpu.is_pae = true ∧ vcpu.is_long_mode = false))
      ∧ (get_vcpu_paging_mode vcpu = .PAGING_MODE_4_LEVEL ↔
          (vcpu.is_paging_enabled = true ∧ vcpu.is_pae = true ∧ vcpu.is_long_mode = true))
      ∧ (vm_paging_mode.PAGING_MODE_0_LEVEL.toNat = 0
          ∧ vm_paging_mode.PAGING_MODE_2_LEVEL.toNat = 2
          ∧ vm_paging_mode.PAGING_MODE_3_LEVEL.toNat = 3
          ∧ vm_paging_mode.PAGING_MODE_4_LEVEL.toNat = 4)
      ∧ (get_vcpu_paging_mode vcpu = .PAGING_MODE_2_LEVEL →
          gva2gpa p vcpu m stack gva (some g) (some e)
            = gva2gpa_finish p (gva2gpa_pw_info p vcpu stack e)
                (local_gva2gpa_common p vcpu m
                  { gva2gpa_pw_info p vcpu stack e with width := 10, nxe := false }
                  gva 0 (e &&& not32 p.PAGE_FAULT_P_FLAG)))
      ∧ (get_vcpu_paging_mode vcpu = .PAGING_MODE_3_LEVEL →
          gva2gpa p vcpu m stack gva (some g) (some e)
            = gva2gpa_finish p (gva2gpa_pw_info p vcpu stack e)
                (local_gva2gpa_pae p vcpu m
                  { gva2gpa_pw_info p vcpu stack e with width := 9 }
                  gva 0 (e &&& not32 p.PAGE_FAULT_P_FLAG)))
      ∧ (get_vcpu_paging_mode vcpu = .PAGING_MODE_4_LEVEL →
          gva2gpa p vcpu m stack gva (some g) (some e)
            = gva2gpa_finish p (gva2gpa_pw_info p vcpu stack e)
                (local_gva2gpa_common p vcpu m
                  { gva2gpa_pw_info p vcpu stack e with width := 9 }
                  gva 0 (e &&& not32 p.PAGE_FAULT_P_FLAG)))
      ∧ (∀ i, i < 4 → walk_index 10 gva i = (gva >>> (10 * i + 12)) &&& 0x3FF)
      ∧ (∀ i, i < 4 → walk_index 9 gva i = (gva >>> (9 * i + 12)) &&& 0x1FF) := by
  refine ⟨?_, ?_, ?_, ?_, ⟨rfl, rfl, rfl, rfl⟩, ?_, ?_, ?_, ?_, ?_⟩
  · unfold get_vcpu_paging_mode
    cases vcpu.is_paging_enabled <;> cases vcpu.is_pae <;> cases vcpu.is_long_mode <;> simp
  · unfold get_vcpu_paging_mode
    cases vcpu.is_paging_enabled <;> cases vcpu.is_pae <;> cases vcpu.is_long_mode <;> simp
  · unfold get_vcpu_paging_mode
    cases vcpu.is_paging_enabled <;> cases vcpu.is_pae <;> cases vcpu.is_long_mode <;> simp
  · unfold get_vcpu_paging_mode
    cases vcpu.is_paging_enabled <;> cases vcpu.is_pae <;> cases vcpu.is_long_mode <;> simp
  · intro hm
    simp [gva2gpa, hm]
  · intro hm
    simp [gva2gpa, hm]
  · intro hm
    simp [gva2gpa, hm]
  · intro i hi
    have h : i = 0 ∨ i = 1 ∨ i = 2 ∨ i = 3 := by omega
    rcases h with rfl | rfl | rfl | rfl <;> rfl
  · intro i hi
    have h : i = 0 ∨ i = 1 ∨ i = 2 ∨ i = 3 := by omega
    rcases h with rfl | rfl | rfl | rfl <;> rfl

/-- C18: the write check of `local_gva2gpa_common`.  For every walk context, a walk that
reaches, after `k` passing iterations, a present entry that denies write returns
`-EFAULT` when the access is a write and `is_user_mode_access` or `wp` holds.  A walk
whose tables all resolve and whose entries are all present and user-accessible leaves
the loop without fault when the access is not a write, or is a supervisor write with
`wp` off; it then returns 0 unless the SMEP check after the loop applies (SMEP on,
supervisor instruction fetch). -/
theorem local_gva2gpa_common_write_check (p : Platform) (vcpu : acrn_vcpu) (m : Mem)
    (pw : page_walk_info) (gva gpa ec : Nat) (hl : 1 ≤ pw.level) :
    (∀ k, k < pw.level →
      walk_passes p vcpu.vm m pw gva pw.top_entry pw.level k →
      gpa2hva p vcpu.vm (walk_table p vcpu.vm m pw.width gva pw.top_entry pw.level k) ≠ 0 →
      entry_present p (walk_entry p vcpu.vm m pw.width gva
        (walk_table p vcpu.vm m pw.width gva pw.top_entry pw.level k) (pw.level - 1 - k)) →
      ¬ entry_writable p (walk_entry p vcpu.vm m pw.width gva
        (walk_table p vcpu.vm m pw.width gva pw.top_entry pw.level k) (pw.level - 1 - k)) →
      pw.is_write_access = true →
      (pw.is_user_mode_access = true ∨ pw.wp = true) →
      local_gva2gpa_common p vcpu m pw gva gpa ec
        = (-(p.EFAULT : Int), gpa, u32 (ec ||| p.PAGE_FAULT_P_FLAG)))
    ∧ ((∀ j, j < pw.level →
          gpa2hva p vcpu.vm (walk_table p vcpu.vm m pw.width gva pw.top_entry pw.level j) ≠ 0
          ∧ entry_present p (walk_entry p vcpu.vm m pw.width gva
              (walk_table p vcpu.vm m pw.width gva pw.top_entry pw.level j)
              (pw.level - 1 - j))
          ∧ entry_user p (walk_entry p vcpu.vm m pw.width gva
              (walk_table p vcpu.vm m pw.width gva pw.top_entry pw.level j)
              (pw.level - 1 - j))) →
        (pw.is_write_access = false
          ∨ (pw.is_user_mode_access = false ∧ pw.wp = false)) →
        (walk_loop p vcpu.vm m pw gva pw.level
            { fault := false, addr := pw.top_entry, entry := 0, shift := 0,
              page_size := PAGE_SIZE_4K, is_user_mode_addr := true,
              is_page_rw_flags_on := true }).fault = false
          ∧ (¬ (pw.is_smep_on = true ∧ pw.is_user_mode_access = false
                ∧ pw.is_inst_fetch = true) →
              local_gva2gpa_common p vcpu m pw gva gpa ec
                = (0, (walk_table p vcpu.vm m pw.width gva pw.top_entry pw.level pw.level
                        &&& 0x000FFFFFFFFFF000) ||| (gva &&& 0xFFF), ec))) := by
  constructor
  · intro k hk hp hres hpres hnw hwr hctx
    refine local_gva2gpa_common_fault_at p vcpu m pw gva gpa ec k hk hp ?_
    rintro ⟨-, -, hw, -⟩
    rcases hw with hw | hw
    · exact hnw hw
    · exact hw ⟨hwr, hctx⟩
  · intro hall hacc
    have hp : walk_passes p vcpu.vm m pw gva pw.top_entry pw.level pw.level := by
      intro j hj
      obtain ⟨h1, h2, h3⟩ := hall j hj
      refine ⟨h1, h2, Or.inr ?_, Or.inl h3⟩
      rintro ⟨hw, hc⟩
      rcases hacc with ha | ⟨ha, hb⟩
      · rw [ha] at hw
        exact absurd hw (by decide)
      · rcases hc with hc | hc
        · rw [ha] at hc
          exact absurd hc (by decide)
        · rw [hb] at hc
          exact absurd hc (by decide)
    refine ⟨(walk_loop_all_pass p vcpu.vm m pw gva pw.level _ rfl hp).1, ?_⟩
    intro hsm
    refine (local_gva2gpa_common_all_pass p vcpu m pw gva gpa ec hl hp).2 ?_
    rintro ⟨c1, c2, c3, -⟩
    exact hsm ⟨c1, c2, c3⟩

/-- Witness of C18: the 4-level walk of gva `0x1123` over `readOnlyLeafMem`, whose last
entry denies write: a user-mode write faults at the last level, and over `sevenMem` a
supervisor write with `wp` off succeeds. -/
theorem local_gva2gpa_common_write_check_witness :
    local_gva2gpa_common demoPlatform (demoVcpu true true true) readOnlyLeafMem
        (demoPw true true false false false) 0x1123 0 0
        = (-(demoPlatform.EFAULT : Int), 0, u32 (0 ||| demoPlatform.PAGE_FAULT_P_FLAG))
      ∧ local_gva2gpa_common demoPlatform (demoVcpu true true true) sevenMem
          (demoPw true false false false false) 0x1123 0 0
          = (0, (walk_table demoPlatform (demoVcpu true true true).vm sevenMem 9 0x1123
                  0x1000 4 4 &&& 0x000FFFFFFFFFF000) ||| (0x1123 &&& 0xFFF), 0) :=
  ⟨(local_gva2gpa_common_write_check demoPlatform (demoVcpu true true true) readOnlyLeafMem
      (demoPw true true false false false) 0x1123 0 0 (by decide)).1 3 (by decide)
      (fun j hj => by
        have h : j = 0 ∨ j = 1 ∨ j = 2 := by omega
        rcases h with rfl | rfl | rfl <;> decide)
      (by decide) (by decide) (by decide) rfl (Or.inl rfl),
    ((local_gva2gpa_common_write_check demoPlatform (demoVcpu true true true) sevenMem
      (demoPw true false false false false) 0x1123 0 0 (by decide)).2
      (fun j hj => by
        have hj4 : j < 4 := hj
        have h : j = 0 ∨ j = 1 ∨ j = 2 ∨ j = 3 := by omega
        rcases h with rfl | rfl | rfl | rfl <;> decide)
      (Or.inr ⟨rfl, rfl⟩)).2 (by decide)⟩

/-- C19: the SMEP check of `local_gva2gpa_common`.  With SMEP on, for a supervisor
instruction fetch: a walk whose tables all resolve and whose entries are all present
and user-accessible returns `-EFAULT`; a walk whose iterations all pass and that meets
an entry that is not user-accessible at some level, whichever it is, returns 0 with
the translated address.  The outcome is decided by the entries of all levels together,
after the loop. -/
theorem local_gva2gpa_common_smep_check (p : Platform) (vcpu : acrn_vcpu) (m : Mem)
    (pw : page_walk_info) (gva gpa ec : Nat) (hl : 1 ≤ pw.level)
    (hsmep : pw.is_smep_on = true) (hfetch : pw.is_inst_fetch = true)
    (hsup : pw.is_user_mode_access = false) :
    ((∀ j, j < pw.level →
          gpa2hva p vcpu.vm (walk_table p vcpu.vm m pw.width gva pw.top_entry pw.level j) ≠ 0
          ∧ entry_present p (walk_entry p vcpu.vm m pw.width gva
              (walk_table p vcpu.vm m pw.width gva pw.top_entry pw.level j)
              (pw.level - 1 - j))
          ∧ entry_user p (walk_entry p vcpu.vm m pw.width gva
              (walk_table p vcpu.vm m pw.width gva pw.top_entry pw.level j)
              (pw.level - 1 - j))) →
        local_gva2gpa_common p vcpu m pw gva gpa ec
          = (-(p.EFAULT : Int), gpa, u32 (ec ||| p.PAGE_FAULT_P_FLAG)))
    ∧ (walk_passes p vcpu.vm m pw gva pw.top_entry pw.level pw.level →
        (∃ j, j < pw.level ∧ ¬ entry_user p (walk_entry p vcpu.vm m pw.width gva
            (walk_table p vcpu.vm m pw.width gva pw.top_entry pw.level j)
            (pw.level - 1 - j))) →
        local_gva2gpa_common p vcpu m pw gva gpa ec
          = (0, (walk_table p vcpu.vm m pw.width gva pw.top_entry pw.level pw.level
                  &&& 0x000FFFFFFFFFF000) ||| (gva &&& 0xFFF), ec)) := by
  constructor
  · intro hall
    by_cases hp : walk_passes p vcpu.vm m pw gva pw.top_entry pw.level pw.level
    · exact (local_gva2gpa_common_all_pass p vcpu m pw gva gpa ec hl hp).1
        ⟨hsmep, hsup, hfetch, fun j hj => (hall j hj).2.2⟩
    · exact local_gva2gpa_common_not_all_pass p vcpu m pw gva gpa ec hp
  · intro hp hex
    refine (local_gva2gpa_common_all_pass p vcpu m pw gva gpa ec hl hp).2 ?_
    rintro ⟨-, -, -, hu⟩
    obtain ⟨j, hj, hnu⟩ := hex
    exact hnu (hu j hj)

/-- Witness of C19: a supervisor instruction fetch with SMEP on at gva `0x1123`, over
`sevenMem` (every entry user-accessible) and over `supervisorLeafMem` (the last entry
is not user-accessible). -/
theorem local_gva2gpa_common_smep_check_witness :
    local_gva2gpa_common demoPlatform (demoVcpu true true true) sevenMem
        (demoPw false false false true true) 0x1123 0 0
        = (-(demoPlatform.EFAULT : Int), 0, u32 (0 ||| demoPlatform.PAGE_FAULT_P_FLAG))
      ∧ local_gva2gpa_common demoPlatform (demoVcpu true true true) supervisorLeafMem
          (demoPw false false false true true) 0x1123 0 0
          = (0, (walk_table demoPlatform (demoVcpu true true true).vm supervisorLeafMem 9
                  0x1123 0x1000 4 4 &&& 0x000FFFFFFFFFF000) ||| (0x1123 &&& 0xFFF), 0) :=
  ⟨(local_gva2gpa_common_smep_check demoPlatform (demoVcpu true true true) sevenMem
      (demoPw false false false true true) 0x1123 0 0 (by decide) rfl rfl rfl).1
      (fun j hj => by
        have hj4 : j < 4 := hj
        have h : j = 0 ∨ j = 1 ∨ j = 2 ∨ j = 3 := by omega
        rcases h with rfl | rfl | rfl | rfl <;> decide),
    (local_gva2gpa_common_smep_check demoPlatform (demoVcpu true true true)
      supervisorLeafMem (demoPw false false false true true) 0x1123 0 0 (by decide)
      rfl rfl rfl).2
      (fun j hj => by
        have hj4 : j < 4 := hj
        have h : j = 0 ∨ j = 1 ∨ j = 2 ∨ j = 3 := by omega
        rcases h with rfl | rfl | rfl | rfl <;> decide)
      ⟨3, by decide, by decide⟩⟩

/-- C20: `local_gva2gpa_pae` reads the directory at the guest-physical address
`top_entry & 0xFFFFFFE0` with the index `(gva >> 30) & 3`, bits 31:30 of `gva`, below
4; when that address does not resolve or the entry read is not present it returns
`-EFAULT` and writes nothing; otherwise its result is that of `local_gva2gpa_common`
with `level = 2` and `top_entry` the entry read, the width being the one it was given,
which `gva2gpa` sets to 9 in 3-level mode. -/
theorem local_gva2gpa_pae_spec (p : Platform) (vcpu : acrn_vcpu) (m : Mem)
    (pw stack : page_walk_info) (gva gpa ec g e : Nat) :
    ((gva >>> 30) &&& 3 = gva / 2 ^ 30 % 4 ∧ (gva >>> 30) &&& 3 < 4)
      ∧ get_pae_pdpt_addr pw.top_entry = pw.top_entry &&& 0xFFFFFFE0
      ∧ (gpa2hva p vcpu.vm (pw.top_entry &&& 0xFFFFFFE0) = 0 →
          local_gva2gpa_pae p vcpu m pw gva gpa ec = (-(p.EFAULT : Int), gpa, ec))
      ∧ (¬ entry_present p (load64 m (gpa2hva p vcpu.vm (pw.top_entry &&& 0xFFFFFFE0)
            + 8 * ((gva >>> 30) &&& 3))) →
          local_gva2gpa_pae p vcpu m pw gva gpa ec = (-(p.EFAULT : Int), gpa, ec))
      ∧ (gpa2hva p vcpu.vm (pw.top_entry &&& 0xFFFFFFE0) ≠ 0 →
          entry_present p (load64 m (gpa2hva p vcpu.vm (pw.top_entry &&& 0xFFFFFFE0)
            + 8 * ((gva >>> 30) &&& 3))) →
          local_gva2gpa_pae p vcpu m pw gva gpa ec
            = local_gva2gpa_common p vcpu m
                { pw with
                  level := 2
                  top_entry := load64 m (gpa2hva p vcpu.vm (pw.top_entry &&& 0xFFFFFFE0)
                    + 8 * ((gva >>> 30) &&& 3)) }
                gva gpa ec)
      ∧ (get_vcpu_paging_mode vcpu = .PAGING_MODE_3_LEVEL →
          gva2gpa p vcpu m stack gva (some g) (some e)
            = gva2gpa_finish p (gva2gpa_pw_info p vcpu stack e)
                (local_gva2gpa_pae p vcpu m
                  { gva2gpa_pw_info p vcpu stack e with width := 9 }
                  gva 0 (e &&& not32 p.PAGE_FAULT_P_FLAG))) := by
  have hidx : (gva >>> 30) &&& 3 = gva / 2 ^ 30 % 4 := by
    rw [Nat.shiftRight_eq_div_pow]
    exact Nat.and_pow_two_sub_one_eq_mod (gva / 2 ^ 30) 2
  refine ⟨⟨hidx, ?_⟩, rfl, ?_, ?_, ?_, ?_⟩
  · rw [hidx]
    exact Nat.mod_lt _ (by decide)
  · intro hb
    simp [local_gva2gpa_pae, get_pae_pdpt_addr, hb]
  · intro hnp
    simp only [entry_present, ne_eq, not_not] at hnp
    simp only [local_gva2gpa_pae, get_pae_pdpt_addr, hnp]
    split <;> simp
  · intro hb hv
    simp only [entry_present] at hv
    simp [local_gva2gpa_pae, get_pae_pdpt_addr, hb, hv]
  · intro hm
    simp [gva2gpa, hm]

/-- C14, counterexample: for the memory map of one RAM entry from 3 GiB to 5 GiB + 1 MiB
`init_paging` maps `[0, 0)` and `[4 GiB, 5 GiB)` write-back and `[0, 4 GiB)` uncacheable:
the RAM byte at 3 GiB lies in no write-back range and in the uncacheable range, and
the RAM byte at 5 GiB lies in no write-back range. -/
theorem init_paging_ram_counterexample :
    init_paging demoX86 straddlingMap
        = [ { paddr_base := 0, vaddr_base := 0, size := 0, prot := 7 },
            { paddr_base := 0x100000000, vaddr_base := 0x100000000, size := 0x40000000,
              prot := 7 },
            { paddr_base := 0, vaddr_base := 0, size := 0x100000000, prot := 0x1F } ]
      ∧ low32_max_ram demoX86 straddlingMap = 0
      ∧ high64_max_ram demoX86 straddlingMap = 0x140000000
      ∧ ((0xC0000000 : Nat) ≤ 0xC0000000 ∧ (0xC0000000 : Nat) < 0xC0000000 + 0x80100000)
      ∧ ¬ ((0xC0000000 : Nat) < low32_max_ram demoX86 straddlingMap
            ∨ (MEM_4G ≤ 0xC0000000 ∧ 0xC0000000 < high64_max_ram demoX86 straddlingMap))
      ∧ (low32_max_ram demoX86 straddlingMap ≤ 0xC0000000 ∧ 0xC0000000 < MEM_4G)
      ∧ ((0xC0000000 : Nat) ≤ 0x140000000 ∧ (0x140000000 : Nat) < 0xC0000000 + 0x80100000)
      ∧ ¬ ((0x140000000 : Nat) < low32_max_ram demoX86 straddlingMap
            ∨ (MEM_4G ≤ 0x140000000
                ∧ 0x140000000 < high64_max_ram demoX86 straddlingMap)) := by
  decide

/-- C14, amended: for every memory map and every RAM entry of it whose end does not
wrap: when the entry ends below 4 GiB, every byte of it lies in `[0, low32_max_ram)`,
which `init_paging` maps write-back, and `low32_max_ram` is at most 4 GiB, so no byte
of it lies in the uncacheable `[low32_max_ram, 4 GiB)`; when the entry ends at or
above 4 GiB, every address from 4 GiB up to the end of the entry rounded down to
2 MiB lies in `[4 GiB, high64_max_ram)`, which `init_paging` maps write-back. -/
theorem init_paging_ram_cacheable (x : X86Platform) (entries : List e820_entry)
    (e : e820_entry) (he : e ∈ entries) (hram : e.type = x.E820_TYPE_RAM)
    (hwrap : e.baseaddr + e.length < 2 ^ 64) :
    (init_paging x entries).take 3
        = [ { paddr_base := 0, vaddr_base := 0, size := low32_max_ram x entries,
              prot := x.PAGE_ATTR_USER ||| x.PAGE_CACHE_WB },
            { paddr_base := MEM_4G, vaddr_base := MEM_4G,
              size := high64_max_ram x entries - MEM_4G,
              prot := x.PAGE_ATTR_USER ||| x.PAGE_CACHE_WB },
            { paddr_base := low32_max_ram x entries, vaddr_base := low32_max_ram x entries,
              size := MEM_4G - low32_max_ram x entries,
              prot := x.PAGE_ATTR_USER ||| x.PAGE_CACHE_UC } ]
      ∧ low32_max_ram x entries ≤ MEM_4G
      ∧ MEM_4G ≤ high64_max_ram x entries
      ∧ (e.baseaddr + e.length < MEM_4G →
          ∀ a, e.baseaddr ≤ a → a < e.baseaddr + e.length →
            a < low32_max_ram x entries
              ∧ ¬ (low32_max_ram x entries ≤ a ∧ a < MEM_4G))
      ∧ (MEM_4G ≤ e.baseaddr + e.length →
          ∀ a, MEM_4G ≤ a → a < round_pde_down (e.baseaddr + e.length) →
            a < high64_max_ram x entries) := by
  have hend : u64 (e.baseaddr + e.length) = e.baseaddr + e.length := Nat.mod_eq_of_lt hwrap
  obtain ⟨-, s2, s3, s4⟩ := init_paging_scan_props x entries 0 MEM_4G (by decide)
    (Nat.le_refl _)
  obtain ⟨r1, r2⟩ := round_pde_up_bounds _ s2
  obtain ⟨c1, c2⟩ := s4 e he hram
  rw [hend] at c1 c2
  have hhigh : MEM_4G ≤ high64_max_ram x entries := by
    have := round_pde_down_mono _ _ s3
    have h4 : round_pde_down MEM_4G = MEM_4G := by decide
    rw [h4] at this
    exact this
  have hhigh64 : high64_max_ram x entries < 2 ^ 64 :=
    Nat.lt_of_le_of_lt (round_pde_down_le _)
      (init_paging_scan_lt x entries 0 MEM_4G (by decide))
  have hsz1 : u64 (high64_max_ram x entries + (2 ^ 64 - MEM_4G))
      = high64_max_ram x entries - MEM_4G := by
    unfold MEM_4G at hhigh ⊢
    unfold u64
    omega
  have hsz2 : u64 (MEM_4G + (2 ^ 64 - low32_max_ram x entries))
      = MEM_4G - low32_max_ram x entries := by
    have hr2 : low32_max_ram x entries ≤ MEM_4G := r2
    unfold MEM_4G at hr2 ⊢
    unfold u64
    omega
  refine ⟨?_, r2, hhigh, ?_, ?_⟩
  · simp only [init_paging, hsz1, hsz2]
    rfl
  · intro hlt a _ ha
    have h1 := c1 hlt
    have hlow : a < low32_max_ram x entries := by
      unfold low32_max_ram
      omega
    exact ⟨hlow, fun h => by omega⟩
  · intro hge a _ ha
    have h1 := round_pde_down_mono _ _ (c2 hge)
    unfold high64_max_ram
    omega

/-- Witness of the amended C14: the RAM entry at 4 GiB of `holeMap`. -/
theorem init_paging_ram_cacheable_witness :
    (init_paging demoX86 holeMap).take 3
        = [ { paddr_base := 0, vaddr_base := 0, size := low32_max_ram demoX86 holeMap,
              prot := demoX86.PAGE_ATTR_USER ||| demoX86.PAGE_CACHE_WB },
            { paddr_base := MEM_4G, vaddr_base := MEM_4G,
              size := high64_max_ram demoX86 holeMap - MEM_4G,
              prot := demoX86.PAGE_ATTR_USER ||| demoX86.PAGE_CACHE_WB },
            { paddr_base := low32_max_ram demoX86 holeMap,
              vaddr_base := low32_max_ram demoX86 holeMap,
              size := MEM_4G - low32_max_ram demoX86 holeMap,
              prot := demoX86.PAGE_ATTR_USER ||| demoX86.PAGE_CACHE_UC } ]
      ∧ low32_max_ram demoX86 holeMap ≤ MEM_4G
      ∧ MEM_4G ≤ high64_max_ram demoX86 holeMap
      ∧ (0x100000000 + 0x40000000 < MEM_4G →
          ∀ a, 0x100000000 ≤ a → a < 0x100000000 + 0x40000000 →
            a < low32_max_ram demoX86 holeMap
              ∧ ¬ (low32_max_ram demoX86 holeMap ≤ a ∧ a < MEM_4G))
      ∧ (MEM_4G ≤ 0x100000000 + 0x40000000 →
          ∀ a, MEM_4G ≤ a → a < round_pde_down (0x100000000 + 0x40000000) →
            a < high64_max_ram demoX86 holeMap) :=
  init_paging_ram_cacheable demoX86 holeMap
    { baseaddr := 0x100000000, length := 0x40000000, type := 1 }
    (by simp [holeMap]) rfl (by decide)

/-- C15: the flush of an unaligned range evaluated on the code.  With 64-byte cache
lines, `flush_address_space(63, 2)` flushes the one address 63, in the line
`[0, 64)`; the byte at 64 belongs to the range `[63, 65)` and its line `[64, 128)`
holds no flushed address. -/
theorem flush_address_space_unaligned_scenario :
    flush_address_space demoX86 63 2 = some [63]
      ∧ ((63 : Nat) ≤ 64 ∧ (64 : Nat) < 63 + 2)
      ∧ (∀ a ∈ [(63 : Nat)],
          a / demoX86.CACHE_LINE_SIZE ≠ 64 / demoX86.CACHE_LINE_SIZE) := by
  decide

/-- C16: `invept` selects the scope by capability: with single-context INVEPT it issues
one single-context invalidation whose descriptor holds
`hva2hpa(eptp) | (3 << 3) | 6`, whether or not the global type is supported; without
it and with global INVEPT it issues one all-contexts invalidation with a zero
descriptor; with neither it issues nothing. -/
theorem invept_scope (x : X86Platform) (eptp : Nat) :
    (x.invept_single_context = true →
        invept x eptp
          = [(INVEPT_TYPE_SINGLE_CONTEXT,
              { eptp := x.hva2hpa eptp ||| (3 <<< 3) ||| 6, res := 0 })])
      ∧ (x.invept_single_context = false → x.invept_global_context = true →
          invept x eptp = [(INVEPT_TYPE_ALL_CONTEXTS, { eptp := 0, res := 0 })])
      ∧ (x.invept_single_context = false → x.invept_global_context = false →
          invept x eptp = [])
      ∧ INVEPT_TYPE_SINGLE_CONTEXT ≠ INVEPT_TYPE_ALL_CONTEXTS := by
  refine ⟨?_, ?_, ?_, by decide⟩
  · intro h
    simp [invept, h, u64]
  · intro h1 h2
    simp [invept, h1, h2]
  · intro h1 h2
    simp [invept, h1, h2]

/-- C24: the walk context that `gva2gpa` builds keeps the initial content of the local
`pw_info` in the fields `wp`, `is_smep_on`, `is_smap_on` and `nxe`, which are never
assigned before the dispatch on the paging mode, and two runs of `gva2gpa` that differ
only in that initial content have the same return value, `*gpa` and `*err_code`; the
walk context always has `is_user_mode_access` set, under which the SMEP test after the
loop is false, and the result is that of a run with SMEP and `wp` off. -/
theorem gva2gpa_stack_independent (p : Platform) (vcpu : acrn_vcpu) (m : Mem)
    (stack1 stack2 : page_walk_info) (gva : Nat) (gpa err_code : Option Nat) :
    gva2gpa p vcpu m stack1 gva gpa err_code = gva2gpa p vcpu m stack2 gva gpa err_code
      ∧ (∀ e, (gva2gpa_pw_info p vcpu stack1 e).wp = stack1.wp
          ∧ (gva2gpa_pw_info p vcpu stack1 e).is_smep_on = stack1.is_smep_on
          ∧ (gva2gpa_pw_info p vcpu stack1 e).is_smap_on = stack1.is_smap_on
          ∧ (gva2gpa_pw_info p vcpu stack1 e).nxe = stack1.nxe)
      ∧ (∀ e, (gva2gpa_pw_info p vcpu stack1 e).is_user_mode_access = true)
      ∧ gva2gpa p vcpu m stack1 gva gpa err_code
          = gva2gpa p vcpu m
              { stack1 with is_smep_on := false, is_smap_on := false, wp := false,
                            nxe := false }
              gva gpa err_code := by
  have key : ∀ s1 s2 : page_walk_info,
      gva2gpa p vcpu m s1 gva gpa err_code = gva2gpa p vcpu m s2 gva gpa err_code := by
    intro s1 s2
    cases gpa with
    | none => rfl
    | some g =>
      cases err_code with
      | none => rfl
      | some e =>
        simp only [gva2gpa, gva2gpa_finish]
        have h4 := local_gva2gpa_common_user_congr p vcpu m
          { gva2gpa_pw_info p vcpu s1 e with width := 9 }
          { gva2gpa_pw_info p vcpu s2 e with width := 9 } gva 0
          (e &&& not32 p.PAGE_FAULT_P_FLAG) rfl rfl rfl rfl rfl rfl
        have h2 := local_gva2gpa_common_user_congr p vcpu m
          { gva2gpa_pw_info p vcpu s1 e with width := 10, nxe := false }
          { gva2gpa_pw_info p vcpu s2 e with width := 10, nxe := false } gva 0
          (e &&& not32 p.PAGE_FAULT_P_FLAG) rfl rfl rfl rfl rfl rfl
        have h3 := local_gva2gpa_pae_user_congr p vcpu m
          { gva2gpa_pw_info p vcpu s1 e with width := 9 }
          { gva2gpa_pw_info p vcpu s2 e with width := 9 } gva 0
          (e &&& not32 p.PAGE_FAULT_P_FLAG) rfl rfl rfl rfl rfl
        rw [h4, h2, h3]
        rfl
  exact ⟨key stack1 stack2, fun _ => ⟨rfl, rfl, rfl, rfl⟩, fun _ => rfl, key stack1 _⟩

/-- C25: entered with no pending bit, `smp_call_function` returns with the slot of
every online core below `CONFIG_NR_CPUS` holding `(func, data)`, whether or not the
bit of the core is in the mask, and with the slot of every offline core, and of every
id from `CONFIG_NR_CPUS` on, unchanged.  The core counts are at most 65535. -/
theorem smp_call_function_slots (p : Platform) (online : Nat → Bool) (mask : Nat)
    (func : Option Nat) (data : Nat) (st : SmpState)
    (hNR : p.CONFIG_NR_CPUS ≤ 65535) (hN : p.NR_CPUS ≤ 65535)
    (hidle : st.smp_call_mask = 0) :
    ∃ st1, smp_call_function p online mask func data st = some st1
      ∧ (∀ i, i < p.CONFIG_NR_CPUS → online i = true →
          st1.smp_call_info i = (func, data))
      ∧ (∀ i, online i = false → st1.smp_call_info i = st.smp_call_info i)
      ∧ (∀ i, p.CONFIG_NR_CPUS ≤ i → st1.smp_call_info i = st.smp_call_info i) := by
  obtain ⟨st1, e1, -, e3, -, -⟩ := smp_call_function_spec p online mask func data st hNR hN
    hidle
  refine ⟨st1, e1, ?_, ?_, ?_⟩
  · intro i hi hon
    rw [e3 i, if_pos ⟨hi, hon⟩]
  · intro i hoff
    rw [e3 i, if_neg]
    simp [hoff]
  · intro i hge
    rw [e3 i, if_neg]
    intro h
    omega

/-- Witness of C25: eight cores of which core 2 is offline and the mask of core 1
alone; the slot of core 3 is overwritten too. -/
theorem smp_call_function_slots_witness :
    ∃ st1, smp_call_function demoPlatform (fun i => decide (i ≠ 2)) 2 (some 42) 7 idleSmp
        = some st1
      ∧ (∀ i, i < demoPlatform.CONFIG_NR_CPUS → (fun i => decide (i ≠ 2)) i = true →
          st1.smp_call_info i = (some 42, 7))
      ∧ (∀ i, (fun i => decide (i ≠ 2)) i = false →
          st1.smp_call_info i = idleSmp.smp_call_info i)
      ∧ (∀ i, demoPlatform.CONFIG_NR_CPUS ≤ i →
          st1.smp_call_info i = idleSmp.smp_call_info i) :=
  smp_call_function_slots demoPlatform (fun i => decide (i ≠ 2)) 2 (some 42) 7 idleSmp
    (by decide) (by decide) rfl

/-- C22: in a 4-level (width 9) or 2-level (width 10) walk through `gva2gpa` whose
first `k` iterations pass their checks and whose iteration `k` loads a present entry
with the user bit clear, `gva2gpa` returns `-EFAULT` with `*gpa = 0` and the present
and user-mode bits or-ed into `*err_code` (both are set in the stored word when the two
flags fit 32 bits), for every initial `*err_code`, hence every requested access type;
the walk context of `gva2gpa` has `is_user_mode_access` set. -/
theorem gva2gpa_supervisor_entry_fault (p : Platform) (vcpu : acrn_vcpu) (m : Mem)
    (stack : page_walk_info) (gva g e level width k : Nat)
    (hmode : (get_vcpu_paging_mode vcpu = .PAGING_MODE_4_LEVEL ∧ level = 4 ∧ width = 9)
      ∨ (get_vcpu_paging_mode vcpu = .PAGING_MODE_2_LEVEL ∧ level = 2 ∧ width = 10))
    (hk : k < level)
    (hpass : walk_passes p vcpu.vm m { gva2gpa_pw_info p vcpu stack e with width := width }
      gva vcpu.vsatp level k)
    (hpres : entry_present p (walk_entry p vcpu.vm m width gva
      (walk_table p vcpu.vm m width gva vcpu.vsatp level k) (level - 1 - k)))
    (hnu : ¬ entry_user p (walk_entry p vcpu.vm m width gva
      (walk_table p vcpu.vm m width gva vcpu.vsatp level k) (level - 1 - k))) :
    gva2gpa p vcpu m stack gva (some g) (some e)
        = (-(p.EFAULT : Int), some 0,
            some (u32 (u32 ((e &&& not32 p.PAGE_FAULT_P_FLAG) ||| p.PAGE_FAULT_P_FLAG)
              ||| p.PAGE_FAULT_US_FLAG)))
      ∧ (gva2gpa_pw_info p vcpu stack e).is_user_mode_access = true
      ∧ (p.PAGE_FAULT_P_FLAG < 2 ^ 32 → p.PAGE_FAULT_US_FLAG < 2 ^ 32 →
          u32 (u32 ((e &&& not32 p.PAGE_FAULT_P_FLAG) ||| p.PAGE_FAULT_P_FLAG)
              ||| p.PAGE_FAULT_US_FLAG) &&& p.PAGE_FAULT_P_FLAG = p.PAGE_FAULT_P_FLAG
            ∧ u32 (u32 ((e &&& not32 p.PAGE_FAULT_P_FLAG) ||| p.PAGE_FAULT_P_FLAG)
              ||| p.PAGE_FAULT_US_FLAG) &&& p.PAGE_FAULT_US_FLAG
                = p.PAGE_FAULT_US_FLAG) := by
  refine ⟨?_, rfl, fun h1 h2 => flags_set _ _ _ h1 h2⟩
  rcases hmode with ⟨hm, hl, hw⟩ | ⟨hm, hl, hw⟩
  · subst hl hw
    have hc := local_gva2gpa_common_fault_at p vcpu m
      { gva2gpa_pw_info p vcpu stack e with width := 9 } gva 0
      (e &&& not32 p.PAGE_FAULT_P_FLAG) k
      (by simpa [gva2gpa_pw_info, hm, vm_paging_mode.toNat] using hk)
      (by simpa [gva2gpa_pw_info, hm, vm_paging_mode.toNat] using hpass)
      (by
        simp only [gva2gpa_pw_info, hm, vm_paging_mode.toNat]
        rintro ⟨-, -, -, h | h⟩
        · exact hnu h
        · exact Bool.noConfusion h)
    simp only [gva2gpa, hm, if_true, hc, gva2gpa_finish]
    simp [gva2gpa_pw_info]
  · subst hl hw
    have hc := local_gva2gpa_common_fault_at p vcpu m
      { gva2gpa_pw_info p vcpu stack e with width := 10, nxe := false } gva 0
      (e &&& not32 p.PAGE_FAULT_P_FLAG) k
      (by simpa [gva2gpa_pw_info, hm, vm_paging_mode.toNat] using hk)
      (by simpa [gva2gpa_pw_info, hm, vm_paging_mode.toNat] using hpass)
      (by
        simp only [gva2gpa_pw_info, hm, vm_paging_mode.toNat]
        rintro ⟨-, -, -, h | h⟩
        · exact hnu h
        · exact Bool.noConfusion h)
    simp only [gva2gpa, hm, reduceCtorEq, if_false, if_true, hc, gva2gpa_finish]
    simp [gva2gpa_pw_info]

/-- Witness of C22: a 4-level read of gva `0x1123` over `supervisorLeafMem`; three
iterations pass and the fourth loads `0x0303030303030303`, present and writable with
the user bit clear. -/
theorem gva2gpa_supervisor_entry_fault_witness :
    gva2gpa demoPlatform (demoVcpu true true true) supervisorLeafMem demoStack 0x1123
        (some 77) (some 0)
        = (-(demoPlatform.EFAULT : Int), some 0,
            some (u32 (u32 ((0 &&& not32 demoPlatform.PAGE_FAULT_P_FLAG)
              ||| demoPlatform.PAGE_FAULT_P_FLAG) ||| demoPlatform.PAGE_FAULT_US_FLAG)))
      ∧ (gva2gpa_pw_info demoPlatform (demoVcpu true true true) demoStack
          0).is_user_mode_access = true
      ∧ (demoPlatform.PAGE_FAULT_P_FLAG < 2 ^ 32 → demoPlatform.PAGE_FAULT_US_FLAG < 2 ^ 32 →
          u32 (u32 ((0 &&& not32 demoPlatform.PAGE_FAULT_P_FLAG)
              ||| demoPlatform.PAGE_FAULT_P_FLAG) ||| demoPlatform.PAGE_FAULT_US_FLAG)
              &&& demoPlatform.PAGE_FAULT_P_FLAG = demoPlatform.PAGE_FAULT_P_FLAG
            ∧ u32 (u32 ((0 &&& not32 demoPlatform.PAGE_FAULT_P_FLAG)
              ||| demoPlatform.PAGE_FAULT_P_FLAG) ||| demoPlatform.PAGE_FAULT_US_FLAG)
              &&& demoPlatform.PAGE_FAULT_US_FLAG = demoPlatform.PAGE_FAULT_US_FLAG) :=
  gva2gpa_supervisor_entry_fault demoPlatform (demoVcpu true true true) supervisorLeafMem
    demoStack 0x1123 77 0 4 9 3 (Or.inl ⟨by decide, rfl, rfl⟩) (by decide)
    (fun j hj => by
      have h : j = 0 ∨ j = 1 ∨ j = 2 := by omega
      rcases h with rfl | rfl | rfl <;> decide)
    (by decide) (by decide)

/-- C21: for a `uint32_t` size and a `uint64_t` gpa.  When `gpa` resolves at the second
stage to the host page at `hpa` of size `pg2`, `size > 0` and the page size `pg` in
effect is a power of two `2 ^ k` (`k < 32`), `pg` being `pg2` when `local_copy_gpa` is
called without a fixed page size and `4096` when it is called with `PAGE_SIZE_4K`
whatever `pg2` is, `local_copy_gpa` returns `len = min(size, pg - gpa mod pg)` and
leaves the memory after a `memcpy` of exactly `len` bytes between the host buffer and
the host-virtual address of `hpa`; `1 <= len <= size` and the last byte of the chunk
lies in the page of the first.  An iteration of `copy_gpa` copies that chunk for the
second-stage page size and goes on `len` bytes further; an iteration of `copy_gva`
whose walk yields `gpa` copies that chunk for `pg = 4096`, whatever `pg2` is, and goes
on `len` bytes further.  When the second-stage page sizes are powers of two and
`copy_gpa` returns 0, the lengths of the chunks it copied add up to `size`. -/
theorem local_copy_gpa_chunking (p : Platform) (vm : acrn_vm) (vcpu : acrn_vcpu)
    (stack : page_walk_info) (m : Mem) (h_ptr gpa size fix hpa pg2 pg k : Nat) (cp : Bool)
    (s : CopyGvaState) (hs : size < 2 ^ 32) (hg : gpa < 2 ^ 64) :
    (vm.local_gpa2hpa gpa = some (hpa, pg2) → 0 < size → k < 32 → pg = 2 ^ k →
        ((fix = 0 ∧ pg2 = pg) ∨ (fix = PAGE_SIZE_4K ∧ pg = 4096)) →
        local_copy_gpa p vm m h_ptr gpa size fix cp
            = (min size (pg - gpa % pg),
                if cp then memcpy m h_ptr (p.hpa2hva hpa) (min size (pg - gpa % pg))
                else memcpy m (p.hpa2hva hpa) h_ptr (min size (pg - gpa % pg)))
          ∧ 1 ≤ min size (pg - gpa % pg)
          ∧ min size (pg - gpa % pg) ≤ size
          ∧ gpa % pg + min size (pg - gpa % pg) ≤ pg
          ∧ (gpa + min size (pg - gpa % pg) - 1) / pg = gpa / pg)
      ∧ (vm.local_gpa2hpa gpa = some (hpa, pg2) → 0 < size → k < 32 → pg2 = 2 ^ k →
          ∀ fuel, copy_gpa_loop p vm cp (fuel + 1) m h_ptr gpa size
            = copy_gpa_loop p vm cp fuel
                (if cp then memcpy m h_ptr (p.hpa2hva hpa) (min size (pg2 - gpa % pg2))
                  else memcpy m (p.hpa2hva hpa) h_ptr (min size (pg2 - gpa % pg2)))
                (h_ptr + min size (pg2 - gpa % pg2))
                (u64 (gpa + min size (pg2 - gpa % pg2)))
                (size - min size (pg2 - gpa % pg2)))
      ∧ (s.size < 2 ^ 32 → 0 < s.size →
          (gva2gpa p vcpu s.m stack s.gva (some s.gpa) (some s.err_code)).1 = 0 →
          (gva2gpa p vcpu s.m stack s.gva (some s.gpa) (some s.err_code)).2.1 = some gpa →
          vcpu.vm.local_gpa2hpa gpa = some (hpa, pg2) →
          (copy_gva_body p vcpu stack cp s).m
              = (if cp then
                  memcpy s.m s.h_ptr (p.hpa2hva hpa) (min s.size (4096 - gpa % 4096))
                else memcpy s.m (p.hpa2hva hpa) s.h_ptr (min s.size (4096 - gpa % 4096)))
            ∧ (copy_gva_body p vcpu stack cp s).h_ptr
                = s.h_ptr + min s.size (4096 - gpa % 4096)
            ∧ (copy_gva_body p vcpu stack cp s).gva
                = u64 (s.gva + min s.size (4096 - gpa % 4096))
            ∧ (copy_gva_body p vcpu stack cp s).size
                = s.size - min s.size (4096 - gpa % 4096)
            ∧ (copy_gva_body p vcpu stack cp s).ret = 0
            ∧ (copy_gva_body p vcpu stack cp s).fault_addr = s.fault_addr)
      ∧ (pages_ok vm → p.EINVAL ≠ 0 → ∀ m1,
          copy_gpa p vm m h_ptr gpa size cp = some (0, m1) →
            chunks_total (copy_gpa_chunks p vm size gpa size) = size
              ∧ m1 = apply_chunks cp m h_ptr (copy_gpa_chunks p vm size gpa size)) := by
  refine ⟨?_, ?_, ?_, ?_⟩
  · intro hl hpos hk hpk hfix
    subst hpk
    have hpg : (if fix ≠ 0 then fix else pg2) = 2 ^ k := by
      rcases hfix with ⟨h1, h2⟩ | ⟨h1, h2⟩
      · simp [h1, h2]
      · simp [h1, PAGE_SIZE_4K, h2]
    obtain ⟨c1, c2, c3, c4, c5⟩ := local_copy_len_chunk gpa size fix pg2 k hk hpg hpos
    rw [local_copy_gpa_resolved p vm m h_ptr gpa size fix hpa pg2 cp hl]
    rw [c1] at c2 c3 c4 c5
    rw [c1]
    exact ⟨rfl, c2, c3, c4, c5⟩
  · intro hl hpos hk hpk fuel
    have hpg : (if (0 : Nat) ≠ 0 then 0 else pg2) = 2 ^ k := by simp [hpk]
    obtain ⟨c1, c2, c3, -, -⟩ := local_copy_len_chunk gpa size 0 pg2 k hk hpg hpos
    rw [← hpk] at c1
    have h0 : ¬ size = 0 := by omega
    have hne : ¬ local_copy_len gpa size 0 pg2 = 0 := by omega
    rw [copy_gpa_loop, if_neg h0]
    simp only [local_copy_gpa_resolved p vm m h_ptr gpa size 0 hpa pg2 cp hl, if_neg hne]
    rw [u32_sub_le size _ c3 hs, c1]
  · intro hlt hpos hw0 hwg hl
    have hpg : (if PAGE_SIZE_4K ≠ 0 then PAGE_SIZE_4K else pg2) = 2 ^ 12 := by
      simp [PAGE_SIZE_4K]
    obtain ⟨c1, c2, c3, -, -⟩ := local_copy_len_chunk gpa s.size PAGE_SIZE_4K pg2 12
      (by decide) hpg hpos
    have h12 : (2 : Nat) ^ 12 = 4096 := by decide
    rw [h12] at c1
    have hne : local_copy_len gpa s.size PAGE_SIZE_4K pg2 ≠ 0 := by omega
    have hsz := u32_sub_le s.size _ c3 hlt
    rw [c1] at hne hsz
    simp only [copy_gva_body, hw0, hwg, Option.getD_some, le_refl, if_true,
      local_copy_gpa_resolved p vcpu.vm s.m s.h_ptr gpa s.size PAGE_SIZE_4K hpa pg2 cp hl,
      c1, if_pos hne, hsz, and_self]
  · intro hvm hE m1 h
    have hEi : -(p.EINVAL : Int) ≠ 0 := by omega
    have e := copy_gpa_loop_eq p vm hvm cp size m h_ptr gpa size (Nat.le_refl _) hs
    obtain ⟨-, -, q3, -⟩ := copy_gpa_chunks_props p vm hvm size gpa size (Nat.le_refl _) hs hg
    rw [copy_gpa, e] at h
    have h2 := Option.some.inj h
    have hret := congrArg Prod.fst h2
    have hmem := congrArg Prod.snd h2
    simp only at hret hmem
    refine ⟨q3 ?_, hmem.symm⟩
    by_contra hne
    rw [if_neg hne] at hret
    exact hEi hret

/-- Witness of C21: six bytes that start two bytes before the end of a 4 KiB page.  At
gpa `0x2FFE` of `idVm` (4 KiB second-stage pages) without a fixed page size; at gpa
`0x5FFE` of `twoMegVm` (2 MiB second-stage pages) with `PAGE_SIZE_4K`; the first
iteration of `copy_gpa` on `idVm`; the first iteration of `copy_gva` for the guest
`twoMegVcpu` over `onePageMem`, whose walk of gva `0xFFE` yields `0x5FFE`; and the whole
`copy_gpa` call on `idVm`, which returns 0.  The chunk has 2 bytes in each case. -/
theorem local_copy_gpa_chunking_witness :
    min 6 (4096 - 0x2FFE % 4096) = 2 ∧ min 6 (4096 - 0x5FFE % 4096) = 2
      ∧ (local_copy_gpa demoPlatform idVm patternMem 0x100000 0x2FFE 6 0 true
            = (min 6 (4096 - 0x2FFE % 4096),
                if true then memcpy patternMem 0x100000 (demoPlatform.hpa2hva 0x2FFE)
                  (min 6 (4096 - 0x2FFE % 4096))
                else memcpy patternMem (demoPlatform.hpa2hva 0x2FFE) 0x100000
                  (min 6 (4096 - 0x2FFE % 4096)))
          ∧ 1 ≤ min 6 (4096 - 0x2FFE % 4096)
          ∧ min 6 (4096 - 0x2FFE % 4096) ≤ 6
          ∧ 0x2FFE % 4096 + min 6 (4096 - 0x2FFE % 4096) ≤ 4096
          ∧ (0x2FFE + min 6 (4096 - 0x2FFE % 4096) - 1) / 4096 = 0x2FFE / 4096)
      ∧ (local_copy_gpa demoPlatform twoMegVm patternMem 0x100000 0x5FFE 6 PAGE_SIZE_4K true
            = (min 6 (4096 - 0x5FFE % 4096),
                if true then memcpy patternMem 0x100000 (demoPlatform.hpa2hva 0x5FFE)
                  (min 6 (4096 - 0x5FFE % 4096))
                else memcpy patternMem (demoPlatform.hpa2hva 0x5FFE) 0x100000
                  (min 6 (4096 - 0x5FFE % 4096)))
          ∧ 1 ≤ min 6 (4096 - 0x5FFE % 4096)
          ∧ min 6 (4096 - 0x5FFE % 4096) ≤ 6
          ∧ 0x5FFE % 4096 + min 6 (4096 - 0x5FFE % 4096) ≤ 4096
          ∧ (0x5FFE + min 6 (4096 - 0x5FFE % 4096) - 1) / 4096 = 0x5FFE / 4096)
      ∧ (∀ fuel, copy_gpa_loop demoPlatform idVm true (fuel + 1) patternMem 0x100000 0x2FFE 6
          = copy_gpa_loop demoPlatform idVm true fuel
              (if true then memcpy patternMem 0x100000 (demoPlatform.hpa2hva 0x2FFE)
                  (min 6 (4096 - 0x2FFE % 4096))
                else memcpy patternMem (demoPlatform.hpa2hva 0x2FFE) 0x100000
                  (min 6 (4096 - 0x2FFE % 4096)))
              (0x100000 + min 6 (4096 - 0x2FFE % 4096))
              (u64 (0x2FFE + min 6 (4096 - 0x2FFE % 4096)))
              (6 - min 6 (4096 - 0x2FFE % 4096)))
      ∧ ((copy_gva_body demoPlatform twoMegVcpu demoStack true straddleState).m
            = (if true then
                memcpy straddleState.m straddleState.h_ptr (demoPlatform.hpa2hva 0x5FFE)
                  (min straddleState.size (4096 - 0x5FFE % 4096))
              else memcpy straddleState.m (demoPlatform.hpa2hva 0x5FFE) straddleState.h_ptr
                (min straddleState.size (4096 - 0x5FFE % 4096)))
          ∧ (copy_gva_body demoPlatform twoMegVcpu demoStack true straddleState).h_ptr
              = straddleState.h_ptr + min straddleState.size (4096 - 0x5FFE % 4096)
          ∧ (copy_gva_body demoPlatform twoMegVcpu demoStack true straddleState).gva
              = u64 (straddleState.gva + min straddleState.size (4096 - 0x5FFE % 4096))
          ∧ (copy_gva_body demoPlatform twoMegVcpu demoStack true straddleState).size
              = straddleState.size - min straddleState.size (4096 - 0x5FFE % 4096)
          ∧ (copy_gva_body demoPlatform twoMegVcpu demoStack true straddleState).ret = 0
          ∧ (copy_gva_body demoPlatform twoMegVcpu demoStack true straddleState).fault_addr
              = straddleState.fault_addr)
      ∧ (chunks_total (copy_gpa_chunks demoPlatform idVm 6 0x2FFE 6) = 6
          ∧ memcpy (memcpy patternMem 0x100000 0x2FFE 2) 0x100002 0x3000 4
              = apply_chunks true patternMem 0x100000
                  (copy_gpa_chunks demoPlatform idVm 6 0x2FFE 6)) :=
  ⟨by decide, by decide,
    (local_copy_gpa_chunking demoPlatform idVm twoMegVcpu demoStack patternMem 0x100000
      0x2FFE 6 0 0x2FFE 4096 4096 12 true straddleState (by decide) (by decide)).1
      rfl (by decide) (by decide) (by decide) (Or.inl ⟨rfl, rfl⟩),
    (local_copy_gpa_chunking demoPlatform twoMegVm twoMegVcpu demoStack patternMem 0x100000
      0x5FFE 6 PAGE_SIZE_4K 0x5FFE 0x200000 4096 12 true straddleState (by decide)
      (by decide)).1
      rfl (by decide) (by decide) (by decide) (Or.inr ⟨rfl, rfl⟩),
    (local_copy_gpa_chunking demoPlatform idVm twoMegVcpu demoStack patternMem 0x100000
      0x2FFE 6 0 0x2FFE 4096 4096 12 true straddleState (by decide) (by decide)).2.1
      rfl (by decide) (by decide) (by decide),
    (local_copy_gpa_chunking demoPlatform twoMegVm twoMegVcpu demoStack patternMem 0x100000
      0x5FFE 6 PAGE_SIZE_4K 0x5FFE 0x200000 4096 12 true straddleState (by decide)
      (by decide)).2.2.1
      (by decide) (by decide) (by decide) (by decide) rfl,
    (local_copy_gpa_chunking demoPlatform idVm twoMegVcpu demoStack patternMem 0x100000
      0x2FFE 6 0 0x2FFE 4096 4096 12 true straddleState (by decide) (by decide)).2.2.2
      pages_ok_idVm (by decide) _ copy_gpa_idVm_straddle⟩

/-- C23: in an iteration of `copy_gva` entered in state `s`, `*fault_addr` becomes the
gva of the chunk when the `gva2gpa` call returns a negative value and keeps its value
otherwise; when the call does not fail and the address it produced does not resolve at
the second stage, the iteration sets `ret` to `-EINVAL`, leaves `*fault_addr` alone and
is the last one.  For the whole call with a `uint32_t` size: `copy_gva` returns; if no
walk fails `*fault_addr` has its initial value and the call ends with `ret = 0` and
nothing left, or with `ret = -EINVAL` at an address that does not resolve; if a walk
fails `*fault_addr` is the gva of that walk and `ret` is its negative return value.
`EINVAL` is not zero. -/
theorem copy_gva_fault_addr_written (p : Platform) (vcpu : acrn_vcpu)
    (stack : page_walk_info) (m : Mem) (h_ptr gva size err_code fault_addr : Nat)
    (cp : Bool) (s : CopyGvaState) (hE : p.EINVAL ≠ 0) (hs : size < 2 ^ 32) :
    ((gva2gpa p vcpu s.m stack s.gva (some s.gpa) (some s.err_code)).1 < 0 →
        (copy_gva_body p vcpu stack cp s).fault_addr = s.gva
          ∧ (copy_gva_body p vcpu stack cp s).ret
              = (gva2gpa p vcpu s.m stack s.gva (some s.gpa) (some s.err_code)).1)
      ∧ (0 ≤ (gva2gpa p vcpu s.m stack s.gva (some s.gpa) (some s.err_code)).1 →
          (copy_gva_body p vcpu stack cp s).fault_addr = s.fault_addr)
      ∧ (0 ≤ (gva2gpa p vcpu s.m stack s.gva (some s.gpa) (some s.err_code)).1 →
          vcpu.vm.local_gpa2hpa
            ((gva2gpa p vcpu s.m stack s.gva (some s.gpa) (some s.err_code)).2.1.getD s.gpa)
              = none →
          (copy_gva_body p vcpu stack cp s).ret = -(p.EINVAL : Int)
            ∧ (copy_gva_body p vcpu stack cp s).fault_addr = s.fault_addr
            ∧ (0 < s.size → s.ret = 0 → ∀ fuel,
                copy_gva_loop p vcpu stack cp (fuel + 1) s
                  = some (copy_gva_body p vcpu stack cp s)))
      ∧ ∃ s1, copy_gva p vcpu stack m h_ptr gva size err_code fault_addr cp = some s1
          ∧ (copy_gva_failed_walk p vcpu stack cp size
                { m := m, h_ptr := h_ptr, gpa := 0, ret := 0, gva := gva, size := size,
                  err_code := err_code, fault_addr := fault_addr } = none →
              s1.fault_addr = fault_addr
                ∧ ((s1.ret = 0 ∧ s1.size = 0)
                    ∨ (s1.ret = -(p.EINVAL : Int) ∧ vcpu.vm.local_gpa2hpa s1.gpa = none)))
          ∧ (∀ t, copy_gva_failed_walk p vcpu stack cp size
                { m := m, h_ptr := h_ptr, gpa := 0, ret := 0, gva := gva, size := size,
                  err_code := err_code, fault_addr := fault_addr } = some t →
              s1.fault_addr = t.gva
                ∧ s1.ret
                    = (gva2gpa p vcpu t.m stack t.gva (some t.gpa) (some t.err_code)).1
                ∧ (gva2gpa p vcpu t.m stack t.gva (some t.gpa) (some t.err_code)).1 < 0) := by
  refine ⟨?_, copy_gva_body_keeps_fault_addr p vcpu stack cp s, ?_, ?_⟩
  · intro h
    obtain ⟨b1, b2⟩ := copy_gva_body_fail p vcpu stack cp s h
    exact ⟨b2, b1⟩
  · intro h0 hu
    obtain ⟨u1, u2, -, -, -⟩ := copy_gva_body_unresolved p vcpu stack cp s h0 hu
    refine ⟨u1, u2, ?_⟩
    intro hpos hret fuel
    rw [copy_gva_loop_step p vcpu stack cp fuel s ⟨hpos, hret⟩]
    apply copy_gva_loop_done
    rw [u1]
    omega
  · exact copy_gva_loop_fault_addr p vcpu stack cp hE size _ (Nat.le_refl _) hs rfl

/-- Witness of C23: four bytes at gva `0x10` of a 4-level guest of `frameHoleVm` over
`onePageMem`; the walk yields `0x5010`, which does not resolve at the second stage. -/
theorem copy_gva_fault_addr_written_witness :
    demoPlatform.EINVAL ≠ 0
      ∧ (gva2gpa demoPlatform frameHoleVcpu onePageMem demoStack 0x10 (some 0) (some 0)).1
          = 0
      ∧ frameHoleVm.local_gpa2hpa 0x5010 = none
      ∧ ∃ s1, copy_gva demoPlatform frameHoleVcpu demoStack onePageMem 0x100000 0x10 4 0
            0x99 true = some s1
          ∧ (copy_gva_failed_walk demoPlatform frameHoleVcpu demoStack true 4
                { m := onePageMem, h_ptr := 0x100000, gpa := 0, ret := 0, gva := 0x10,
                  size := 4, err_code := 0, fault_addr := 0x99 } = none →
              s1.fault_addr = 0x99
                ∧ ((s1.ret = 0 ∧ s1.size = 0)
                    ∨ (s1.ret = -(demoPlatform.EINVAL : Int)
                        ∧ frameHoleVcpu.vm.local_gpa2hpa s1.gpa = none)))
          ∧ (∀ t, copy_gva_failed_walk demoPlatform frameHoleVcpu demoStack true 4
                { m := onePageMem, h_ptr := 0x100000, gpa := 0, ret := 0, gva := 0x10,
                  size := 4, err_code := 0, fault_addr := 0x99 } = some t →
              s1.fault_addr = t.gva
                ∧ s1.ret = (gva2gpa demoPlatform frameHoleVcpu t.m demoStack t.gva
                    (some t.gpa) (some t.err_code)).1
                ∧ (gva2gpa demoPlatform frameHoleVcpu t.m demoStack t.gva (some t.gpa)
                    (some t.err_code)).1 < 0) :=
  ⟨by decide, by decide, by decide,
    (copy_gva_fault_addr_written demoPlatform frameHoleVcpu demoStack onePageMem 0x100000
      0x10 4 0 0x99 true
      { m := onePageMem, h_ptr := 0x100000, gpa := 0, ret := 0, gva := 0x10, size := 4,
        err_code := 0, fault_addr := 0x99 } (by decide) (by decide)).2.2.2⟩

/-- C26: for every `uint32_t` size and every second stage, `copy_gpa` and `copy_gva`
return, their loops running at most `size` iterations (the fuel given to the loops).
An iteration of `copy_gpa` entered with bytes to go either ends the loop with `-EINVAL`
(the chunk length is 0) or goes on with the remaining size reduced by a length between
1 and the remaining size; an iteration of `copy_gva` either leaves a non-zero `ret`,
which ends the loop, or keeps `ret = 0` and reduces the remaining size by a length
between 1 and the remaining size.  The `uint32_t` subtraction therefore never wraps.
`EINVAL` is not zero. -/
theorem copy_loops_terminate (p : Platform) (vm : acrn_vm) (vcpu : acrn_vcpu)
    (stack : page_walk_info) (m : Mem) (h_ptr gpa gva size err_code fault_addr : Nat)
    (cp : Bool) (hs : size < 2 ^ 32) (hE : p.EINVAL ≠ 0) :
    (∃ r, copy_gpa p vm m h_ptr gpa size cp = some r)
      ∧ (∃ s, copy_gva p vcpu stack m h_ptr gva size err_code fault_addr cp = some s)
      ∧ (∀ fuel m1 h1 g1 sz, 0 < sz → sz < 2 ^ 32 →
          ((local_copy_gpa p vm m1 h1 g1 sz 0 cp).1 = 0
              ∧ copy_gpa_loop p vm cp (fuel + 1) m1 h1 g1 sz
                  = some (-(p.EINVAL : Int), (local_copy_gpa p vm m1 h1 g1 sz 0 cp).2))
            ∨ (1 ≤ (local_copy_gpa p vm m1 h1 g1 sz 0 cp).1
                ∧ (local_copy_gpa p vm m1 h1 g1 sz 0 cp).1 ≤ sz
                ∧ copy_gpa_loop p vm cp (fuel + 1) m1 h1 g1 sz
                    = copy_gpa_loop p vm cp fuel (local_copy_gpa p vm m1 h1 g1 sz 0 cp).2
                        (h1 + (local_copy_gpa p vm m1 h1 g1 sz 0 cp).1)
                        (u64 (g1 + (local_copy_gpa p vm m1 h1 g1 sz 0 cp).1))
                        (sz - (local_copy_gpa p vm m1 h1 g1 sz 0 cp).1)))
      ∧ (∀ fuel st, 0 < st.size → st.size < 2 ^ 32 → st.ret = 0 →
          copy_gva_loop p vcpu stack cp (fuel + 1) st
              = copy_gva_loop p vcpu stack cp fuel (copy_gva_body p vcpu stack cp st)
            ∧ (((copy_gva_body p vcpu stack cp st).ret ≠ 0
                  ∧ copy_gva_loop p vcpu stack cp fuel (copy_gva_body p vcpu stack cp st)
                      = some (copy_gva_body p vcpu stack cp st))
                ∨ ((copy_gva_body p vcpu stack cp st).ret = 0
                    ∧ ∃ len, 1 ≤ len ∧ len ≤ st.size
                        ∧ (copy_gva_body p vcpu stack cp st).size = st.size - len))) := by
  refine ⟨copy_gpa_loop_total p vm cp size m h_ptr gpa size (Nat.le_refl _) hs,
    copy_gva_loop_total p vcpu stack cp hE size _ (Nat.le_refl _) hs, ?_, ?_⟩
  · intro fuel m1 h1 g1 sz hpos hlt
    have hle := local_copy_gpa_le p vm m1 h1 g1 sz 0 cp
    have h0 : ¬ sz = 0 := by omega
    rw [copy_gpa_loop]
    simp only [h0, if_false]
    by_cases hz : (local_copy_gpa p vm m1 h1 g1 sz 0 cp).1 = 0
    · left
      simp only [hz, if_true, and_self]
    · right
      simp only [hz, if_false]
      rw [u32_sub_le sz _ hle hlt]
      exact ⟨by omega, hle, rfl⟩
  · intro fuel st hpos hlt hret
    refine ⟨copy_gva_loop_step p vcpu stack cp fuel st ⟨hpos, hret⟩, ?_⟩
    rcases copy_gva_body_progress p vcpu stack cp st hE hlt with h | h
    · exact Or.inl ⟨h, copy_gva_loop_done p vcpu stack cp fuel _ (fun hh => h hh.2)⟩
    · exact Or.inr h

/-- Witness of C26: four bytes at guest address `0x2FFE` with the second stage
`holeVm`, which maps nothing from `0x3000` on, and the 4-level guest `demoVcpu` over
`onePageMem`. -/
theorem copy_loops_terminate_witness :
    demoPlatform.EINVAL ≠ 0
      ∧ (∃ r, copy_gpa demoPlatform holeVm onePageMem 0x100000 0x2FFE 4 true = some r)
      ∧ (∃ s, copy_gva demoPlatform (demoVcpu true true true) demoStack onePageMem 0x100000
          0xFFE 4 0 0 true = some s) :=
  ⟨by decide,
    (copy_loops_terminate demoPlatform holeVm (demoVcpu true true true) demoStack
      onePageMem 0x100000 0x2FFE 0xFFE 4 0 0 true (by decide) (by decide)).1,
    (copy_loops_terminate demoPlatform holeVm (demoVcpu true true true) demoStack
      onePageMem 0x100000 0x2FFE 0xFFE 4 0 0 true (by decide) (by decide)).2.1⟩

end Acrn
